import Mathlib

/-!
# EXIF decoder of `parser/exif_parser.go`

A shallow embedding of the decoding pipeline (JPEG check, APP1 scan, length
field, EXIF block extraction, TIFF header, IFD walk, value decoding, tag
dispatch) together with theorems about it.

Conventions of the embedding:

* a Go `[]byte` is a `List UInt8` (its `len` visible bytes); where the source
  slices with an explicit upper bound that is not guarded by a `len` check
  (`data[i:i+4]` in `getAPP1Marker`) the bytes of the backing array between
  `len` and `cap` are a second list, `spare`;
* a Go `string` holding raw bytes is a `List UInt8`; tag names, which are
  ASCII literals, are Lean strings;
* a run-time panic (index or slice out of range) is the outcome `Go.panic`;
* Go `int` is 64-bit two's complement: `wrapInt` is applied after every
  arithmetic step on integers read from the input (offsets, counts, sizes);
  positions inside a slice (`i+1`, `i+2`, `i+4` for `i < len`) are exact, a
  slice being far shorter than `2^63` bytes;
* `fmt.Sprintf("%v", float64(num)/float64(den))` is a parameter `fmtFloat`.
-/

namespace ExifParser

/-! ## Outcomes, slices and machine integers -/

/-- Outcome of running Go code: a normal return or a run-time panic. -/
inductive Go (α : Type) where
  | ret : α → Go α
  | panic : Go α
  deriving DecidableEq, Repr

/-- Sequencing: a panic in the first computation aborts the rest. -/
def Go.bind {α β : Type} (x : Go α) (f : α → Go β) : Go β :=
  match x with
  | .ret a => f a
  | .panic => .panic

instance : Monad Go where
  pure := Go.ret
  bind := Go.bind

/-- A Go string over raw bytes. -/
abbrev GoString := List UInt8

/-- The bytes of an ASCII literal. -/
def ascii (s : String) : GoString := s.toList.map (fun c => c.toNat.toUInt8)

/-- Go `int` (64-bit): the two's-complement value of an exact integer. -/
@[irreducible] def wrapInt (x : Int) : Int :=
  (x + 9223372036854775808) % 18446744073709551616 - 9223372036854775808

/-- Index expression `a[i]`: panics unless `0 <= i < len(a)`. -/
def index (a : List UInt8) (i : Int) : Go UInt8 :=
  if 0 ≤ i then
    match a.get? i.toNat with
    | some b => .ret b
    | none => .panic
  else .panic

/-- Slice expression `a[lo:hi]` on a slice whose backing array holds `spare`
after its visible bytes: panics unless `0 <= lo <= hi <= cap(a)`. -/
def sliceCap (a spare : List UInt8) (lo hi : Int) : Go (List UInt8) :=
  if 0 ≤ lo ∧ lo ≤ hi ∧ hi ≤ (a.length + spare.length : Nat) then
    .ret (((a ++ spare).take hi.toNat).drop lo.toNat)
  else .panic

/-- Slice expression `a[lo:hi]` with the capacity taken equal to the length
(every use below is preceded in the source by a check against `len`). -/
def slice (a : List UInt8) (lo hi : Int) : Go (List UInt8) := sliceCap a [] lo hi

/-- Slice expression `a[lo:]`: the upper bound is `len(a)`, so it panics
unless `0 <= lo <= len(a)`, whatever the capacity. -/
def sliceFrom (a : List UInt8) (lo : Int) : Go (List UInt8) :=
  if 0 ≤ lo ∧ lo ≤ (a.length : Nat) then .ret (a.drop lo.toNat) else .panic

/-- The two byte orders of `encoding/binary`. -/
inductive ByteOrder where
  | LittleEndian
  | BigEndian
  deriving DecidableEq, Repr

/-- `endian.Uint16(b)`: reads `b[0]`, `b[1]`; panics when `len(b) < 2`. -/
def ByteOrder.Uint16 (endian : ByteOrder) (b : List UInt8) : Go Nat :=
  match b with
  | b0 :: b1 :: _ =>
    match endian with
    | .LittleEndian => .ret (b0.toNat + 256 * b1.toNat)
    | .BigEndian => .ret (b1.toNat + 256 * b0.toNat)
  | _ => .panic

/-- `endian.Uint32(b)`: reads `b[0..3]`; panics when `len(b) < 4`. -/
def ByteOrder.Uint32 (endian : ByteOrder) (b : List UInt8) : Go Nat :=
  match b with
  | b0 :: b1 :: b2 :: b3 :: _ =>
    match endian with
    | .LittleEndian =>
      .ret (b0.toNat + 256 * b1.toNat + 65536 * b2.toNat + 16777216 * b3.toNat)
    | .BigEndian =>
      .ret (b3.toNat + 256 * b2.toNat + 65536 * b1.toNat + 16777216 * b0.toNat)
  | _ => .panic

/-! ## JPEG segment locator -/

/-- Source `isJPEG`. -/
def isJPEG (data : List UInt8) : Bool :=
  decide (data.length ≥ 2) && data.get? 0 == some 0xFF && data.get? 1 == some 0xD8

/-- The loop of `getAPP1Marker`, `for i, b := range data`: `rest` holds the
bytes from index `i` on, `result` and `markerStartPos` are the loop's two
variables. -/
def app1Loop (data spare : List UInt8) :
    List UInt8 → Nat → List UInt8 → Int → Go (List UInt8 × Int)
  | [], _, result, markerStartPos => .ret (result, markerStartPos)
  | b :: rest, i, result, markerStartPos =>
    if b = 0xFF then
      match index data (Int.ofNat (i + 1)) with
      | .panic => .panic
      | .ret app1 =>
        if app1 = 0xE1 then
          match sliceCap data spare (Int.ofNat i) (Int.ofNat (i + 4)) with
          | .panic => .panic
          | .ret hdr => app1Loop data spare rest (i + 1) (result ++ hdr) (Int.ofNat (i + 2))
        else app1Loop data spare rest (i + 1) result markerStartPos
    else app1Loop data spare rest (i + 1) result markerStartPos

/-- Source `getAPP1Marker`. -/
def getAPP1Marker (data spare : List UInt8) : Go (List UInt8 × Int) :=
  app1Loop data spare data 0 [] 0

/-- Source `calculateLengthField`: the big-endian u16 of the last two bytes. -/
def calculateLengthField (data : List UInt8) : Go Nat := do
  let lastTwo ← sliceFrom data (Int.ofNat data.length - 2)
  ByteOrder.BigEndian.Uint16 lastTwo

/-- The loop of `readEXIFDataBlock`, `for i := range int(fieldLength)`. -/
def readLoop (data : List UInt8) : Nat → Nat → List UInt8 → Go (List UInt8)
  | 0, _, exifBlock => .ret exifBlock
  | k + 1, i, exifBlock =>
    match index data (Int.ofNat i) with
    | .panic => .panic
    | .ret b => readLoop data k (i + 1) (exifBlock ++ [b])

/-- Source `readEXIFDataBlock`. -/
def readEXIFDataBlock (data : List UInt8) (fieldLength : Nat) : Go (List UInt8) := do
  let exifBlock ← readLoop data fieldLength 0 []
  sliceFrom exifBlock 2

/-! ## Tag table, value sizes, value decoding, dispatch -/

/-- Source `ExifPayload`: 39 string fields, the zero value of each is the
empty string. -/
structure ExifPayload where
  Make : GoString := []
  Model : GoString := []
  Orientation : GoString := []
  Software : GoString := []
  DateTime : GoString := []
  ExposureTime : GoString := []
  FNumber : GoString := []
  ExifOffset : GoString := []
  ISOSpeedRatings : GoString := []
  DateTimeOriginal : GoString := []
  ShutterSpeedValue : GoString := []
  ApertureValue : GoString := []
  Flash : GoString := []
  PixelXDimension : GoString := []
  PixelYDimension : GoString := []
  FocalLengthIn35mmFilm : GoString := []
  ImageDescription : GoString := []
  XResolution : GoString := []
  YResolution : GoString := []
  ResolutionUnit : GoString := []
  Artist : GoString := []
  YCbCrPositioning : GoString := []
  Copyright : GoString := []
  GPSInfoIFDPointer : GoString := []
  ExifVersion : GoString := []
  DateTimeDigitized : GoString := []
  BrightnessValue : GoString := []
  ExposureBiasValue : GoString := []
  MaxApertureValue : GoString := []
  MeteringMode : GoString := []
  FocalLength : GoString := []
  GPSVersionID : GoString := []
  GPSLatitudeRef : GoString := []
  GPSLatitude : GoString := []
  GPSLongitudeRef : GoString := []
  GPSLongitude : GoString := []
  GPSAltitudeRef : GoString := []
  GPSAltitude : GoString := []
  GPSMapDatum : GoString := []
  deriving DecidableEq, Repr

/-- Source `exifTagNames`, the map literal in source order. -/
def exifTagNames : List (Nat × String) :=
  [(0x010F, "Make"),
   (0x0110, "Model"),
   (0x0112, "Orientation"),
   (0x0131, "Software"),
   (0x0132, "DateTime"),
   (0x829A, "ExposureTime"),
   (0x829D, "FNumber"),
   (0x8769, "ExifOffset"),
   (0x8827, "ISOSpeedRatings"),
   (0x9003, "DateTimeOriginal"),
   (0x9201, "ShutterSpeedValue"),
   (0x9202, "ApertureValue"),
   (0x9209, "Flash"),
   (0xA002, "PixelXDimension"),
   (0xA003, "PixelYDimension"),
   (0xA405, "FocalLengthIn35mmFilm"),
   (0x010E, "ImageDescription"),
   (0x011A, "XResolution"),
   (0x011B, "YResolution"),
   (0x0128, "ResolutionUnit"),
   (0x013B, "Artist"),
   (0x0213, "YCbCrPositioning"),
   (0x8298, "Copyright"),
   (0x8825, "GPSInfoIFDPointer"),
   (0x9000, "ExifVersion"),
   (0x9004, "DateTimeDigitized"),
   (0x9203, "BrightnessValue"),
   (0x9204, "ExposureBiasValue"),
   (0x9205, "MaxApertureValue"),
   (0x9207, "MeteringMode"),
   (0x920A, "FocalLength"),
   (0x0000, "GPSVersionID"),
   (0x0001, "GPSLatitudeRef"),
   (0x0002, "GPSLatitude"),
   (0x0003, "GPSLongitudeRef"),
   (0x0004, "GPSLongitude"),
   (0x0005, "GPSAltitudeRef"),
   (0x0006, "GPSAltitude"),
   (0x0012, "GPSMapDatum")]

/-- Source `assignTagValue`: a switch on the tag name, no default case. -/
def assignTagValue (payload : ExifPayload) (tagName : String) (value : GoString) : ExifPayload :=
  match tagName with
  | "Make" => { payload with Make := value }
  | "Model" => { payload with Model := value }
  | "Orientation" => { payload with Orientation := value }
  | "Software" => { payload with Software := value }
  | "DateTime" => { payload with DateTime := value }
  | "ExposureTime" => { payload with ExposureTime := value }
  | "FNumber" => { payload with FNumber := value }
  | "ExifOffset" => { payload with ExifOffset := value }
  | "ISOSpeedRatings" => { payload with ISOSpeedRatings := value }
  | "DateTimeOriginal" => { payload with DateTimeOriginal := value }
  | "ShutterSpeedValue" => { payload with ShutterSpeedValue := value }
  | "ApertureValue" => { payload with ApertureValue := value }
  | "Flash" => { payload with Flash := value }
  | "PixelXDimension" => { payload with PixelXDimension := value }
  | "PixelYDimension" => { payload with PixelYDimension := value }
  | "FocalLengthIn35mmFilm" => { payload with FocalLengthIn35mmFilm := value }
  | "ImageDescription" => { payload with ImageDescription := value }
  | "XResolution" => { payload with XResolution := value }
  | "YResolution" => { payload with YResolution := value }
  | "ResolutionUnit" => { payload with ResolutionUnit := value }
  | "Artist" => { payload with Artist := value }
  | "YCbCrPositioning" => { payload with YCbCrPositioning := value }
  | "Copyright" => { payload with Copyright := value }
  | "GPSInfoIFDPointer" => { payload with GPSInfoIFDPointer := value }
  | "ExifVersion" => { payload with ExifVersion := value }
  | "DateTimeDigitized" => { payload with DateTimeDigitized := value }
  | "BrightnessValue" => { payload with BrightnessValue := value }
  | "ExposureBiasValue" => { payload with ExposureBiasValue := value }
  | "MaxApertureValue" => { payload with MaxApertureValue := value }
  | "MeteringMode" => { payload with MeteringMode := value }
  | "FocalLength" => { payload with FocalLength := value }
  | "GPSVersionID" => { payload with GPSVersionID := value }
  | "GPSLatitudeRef" => { payload with GPSLatitudeRef := value }
  | "GPSLatitude" => { payload with GPSLatitude := value }
  | "GPSLongitudeRef" => { payload with GPSLongitudeRef := value }
  | "GPSLongitude" => { payload with GPSLongitude := value }
  | "GPSAltitudeRef" => { payload with GPSAltitudeRef := value }
  | "GPSAltitude" => { payload with GPSAltitude := value }
  | "GPSMapDatum" => { payload with GPSMapDatum := value }
  | _ => payload

/-- The rendering of `fmt.Sprintf("%X", n)`: upper-case hexadecimal digits. -/
def hexUpper (n : Nat) : String := String.mk ((Nat.toDigits 16 n).map Char.toUpper)

/-- Source `getTagName`. -/
def getTagName (tagID : Nat) : String :=
  match exifTagNames.lookup tagID with
  | some name => name
  | none => "Unknown(0x" ++ hexUpper tagID ++ ")"

/-- Source `getValueSize`; `count` is a `uint32`, the result a Go `int`. The
switch compares `dataFormat` with the case values in order. -/
def getValueSize (dataFormat : Nat) (count : Nat) : Int :=
  if dataFormat = 1 ∨ dataFormat = 2 ∨ dataFormat = 6 ∨ dataFormat = 7 then wrapInt count
  else if dataFormat = 3 ∨ dataFormat = 8 then wrapInt (wrapInt count * 2)
  else if dataFormat = 4 ∨ dataFormat = 9 then wrapInt (wrapInt count * 4)
  else if dataFormat = 5 ∨ dataFormat = 10 then wrapInt (wrapInt count * 8)
  else 0

/-- The rendering of `fmt.Sprintf("%d", n)` for an unsigned `n`. -/
def decimal (n : Nat) : GoString := (Nat.toDigits 10 n).map (fun c => c.toNat.toUInt8)

/-- Source `decodeTagValue`. `fmtFloat num den` stands for
`fmt.Sprintf("%v", float64(num)/float64(den))`. The switch compares `format`
with the case values in order; a case that does not return falls out of the
switch to the final `return ""`. -/
def decodeTagValue (fmtFloat : Nat → Nat → GoString) (format : Nat) (data : List UInt8)
    (endian : ByteOrder) : Go GoString :=
  if format = 2 then Go.ret (data.rdropWhile (fun b => b == 0))
  else if format = 3 then
    if data.length ≥ 2 then do
      let v ← endian.Uint16 data
      Go.ret (decimal v)
    else Go.ret []
  else if format = 4 then
    if data.length ≥ 4 then do
      let v ← endian.Uint32 data
      Go.ret (decimal v)
    else Go.ret []
  else if format = 5 then
    if data.length ≥ 8 then do
      let numBytes ← slice data 0 4
      let num ← endian.Uint32 numBytes
      let denBytes ← slice data 4 8
      let den ← endian.Uint32 denBytes
      if den ≠ 0 then Go.ret (fmtFloat num den) else Go.ret []
    else Go.ret []
  else Go.ret []

/-! ## TIFF header and IFD walk -/

/-- The errors the decode returns (the messages of the `fmt.Errorf` calls). -/
inductive DecodeError where
  /-- "image is not a JPEG file" -/
  | notJPEG
  /-- "APP1 marker not found in image" -/
  | app1NotFound
  /-- "invalid segment length: expected at least %d bytes, got %d" -/
  | segmentTooShort (expected : Nat) (got : Nat)
  /-- "EXIF block too small" -/
  | blockTooSmall
  /-- "invalid EXIF header" -/
  | invalidExifHeader
  /-- "unknown byte order" -/
  | unknownByteOrder
  /-- "invalid TIFF magic number: got %d" -/
  | invalidMagic (got : Nat)
  /-- "IFD offset out of bounds" -/
  | ifdOffsetOutOfBounds
  deriving DecidableEq, Repr

deriving instance DecidableEq for Except

/-- The six bytes `Exif\0\0`. -/
def exifIdentifier : List UInt8 := [0x45, 0x78, 0x69, 0x66, 0x00, 0x00]

/-- Constant `tiffStart := 6` of `parseEXIFInfo`. -/
def tiffStart : Int := 6

/-- The tail of the loop body of `parseEXIFInfo` (source lines 242-252): name
lookup, decoding, assignment; `continue` returns the record unchanged. -/
def dispatchEntry (fmtFloat : Nat → Nat → GoString) (endian : ByteOrder)
    (payload : ExifPayload) (tagID dataFormat : Nat) (tagValue : List UInt8) :
    Go ExifPayload :=
  let tagName := getTagName tagID
  if tagName = "" then Go.ret payload
  else do
    let value ← decodeTagValue fmtFloat dataFormat tagValue endian
    if value = [] then Go.ret payload
    else Go.ret (assignTagValue payload tagName value)

/-- The loop body of `parseEXIFInfo` for entry index `i` (source lines
213-252); `continue` returns the record unchanged. -/
def processEntry (fmtFloat : Nat → Nat → GoString) (data ifdData : List UInt8)
    (endian : ByteOrder) (i : Nat) (payload : ExifPayload) : Go ExifPayload :=
  let entryStart := wrapInt (2 + wrapInt (i * 12))
  if wrapInt (entryStart + 12) > (ifdData.length : Nat) then Go.ret payload
  else do
    let entry ← slice ifdData entryStart (wrapInt (entryStart + 12))
    let tagBytes ← slice entry 0 2
    let tagID ← endian.Uint16 tagBytes
    let formatBytes ← slice entry 2 4
    let dataFormat ← endian.Uint16 formatBytes
    let countBytes ← slice entry 4 8
    let componentCount ← endian.Uint32 countBytes
    let valueBytes ← slice entry 8 12
    let valueOrOffset ← endian.Uint32 valueBytes
    let valueSize := getValueSize dataFormat componentCount
    if valueSize = 0 then Go.ret payload
    else if valueSize ≤ 4 then do
      let tagValue ← slice entry 8 (wrapInt (8 + valueSize))
      dispatchEntry fmtFloat endian payload tagID dataFormat tagValue
    else
      let absoluteOffset := wrapInt (tiffStart + valueOrOffset)
      if wrapInt (absoluteOffset + valueSize) > (data.length : Nat) then Go.ret payload
      else do
        let tagValue ← slice data absoluteOffset (wrapInt (absoluteOffset + valueSize))
        dispatchEntry fmtFloat endian payload tagID dataFormat tagValue

/-- The loop `for i := 0; i < int(entryCount); i++` of `parseEXIFInfo`:
`remaining` iterations are left, the next index is `i`. -/
def ifdLoop (fmtFloat : Nat → Nat → GoString) (data ifdData : List UInt8)
    (endian : ByteOrder) : Nat → Nat → ExifPayload → Go ExifPayload
  | 0, _, payload => Go.ret payload
  | remaining + 1, i, payload => do
    let payload1 ← processEntry fmtFloat data ifdData endian i payload
    ifdLoop fmtFloat data ifdData endian remaining (i + 1) payload1

/-- The part of `parseEXIFInfo` after the byte-order switch (source lines
198-255). -/
def parseTIFF (fmtFloat : Nat → Nat → GoString) (data tiffHeader : List UInt8)
    (endian : ByteOrder) : Go (Except DecodeError ExifPayload) := do
  let magicBytes ← slice tiffHeader 2 4
  let checkValue ← endian.Uint16 magicBytes
  if checkValue ≠ 42 then Go.ret (.error (.invalidMagic checkValue))
  else do
    let offsetBytes ← sliceFrom tiffHeader 4
    let ifdOffset ← endian.Uint32 offsetBytes
    let firstIFDIndex := wrapInt (tiffStart + ifdOffset)
    if wrapInt (firstIFDIndex + 2) > (data.length : Nat) then
      Go.ret (.error .ifdOffsetOutOfBounds)
    else do
      let ifdData ← sliceFrom data firstIFDIndex
      let countBytes ← slice ifdData 0 2
      let entryCount ← endian.Uint16 countBytes
      let payload ← ifdLoop fmtFloat data ifdData endian entryCount 0 {}
      Go.ret (.ok payload)

/-- The condition `a[0] == v && a[1] == v` of the byte-order switch; the
second index is evaluated only when the first comparison holds. -/
def bothEqual (a : List UInt8) (v : UInt8) : Go Bool := do
  let x ← index a 0
  if x = v then do
    let y ← index a 1
    Go.ret (y == v)
  else Go.ret false

/-- Source `parseEXIFInfo`. -/
def parseEXIFInfo (fmtFloat : Nat → Nat → GoString) (data : List UInt8) :
    Go (Except DecodeError ExifPayload) :=
  if data.length < 14 then Go.ret (.error .blockTooSmall)
  else do
    let exifID ← slice data 0 6
    if exifID ≠ exifIdentifier then Go.ret (.error .invalidExifHeader)
    else do
      let tiffHeader ← slice data tiffStart (tiffStart + 8)
      let byteOrder ← slice tiffHeader 0 2
      let isII ← bothEqual byteOrder 0x49
      if isII then parseTIFF fmtFloat data tiffHeader .LittleEndian
      else do
        let isMM ← bothEqual byteOrder 0x4D
        if isMM then parseTIFF fmtFloat data tiffHeader .BigEndian
        else Go.ret (.error .unknownByteOrder)

/-! ## Top-level decode -/

/-- Source `ParseImageFile` from the point where the file has been read:
`data` is the result of `io.ReadAll`, `spare` the part of its backing array
between `len(data)` and `cap(data)`. -/
def ParseImageFile (fmtFloat : Nat → Nat → GoString) (data spare : List UInt8) :
    Go (Except DecodeError ExifPayload) :=
  if !isJPEG data then Go.ret (.error .notJPEG)
  else do
    let (markerResult, pos) ← getAPP1Marker data spare
    if pos = 0 then Go.ret (.error .app1NotFound)
    else do
      let fieldLength ← calculateLengthField markerResult
      let segment ← sliceFrom data pos
      if segment.length < fieldLength then
        Go.ret (.error (.segmentTooShort fieldLength segment.length))
      else do
        let block ← readEXIFDataBlock segment fieldLength
        parseEXIFInfo fmtFloat block

/-! ## Reading and writing integers at a position (for stating the claims) -/

/-- The u16 formed by bytes `k`, `k+1` of `a` in the given byte order. -/
def u16At (endian : ByteOrder) (a : List UInt8) (k : Nat) : Nat :=
  match endian with
  | .LittleEndian => (a.getD k 0).toNat + 256 * (a.getD (k + 1) 0).toNat
  | .BigEndian => (a.getD (k + 1) 0).toNat + 256 * (a.getD k 0).toNat

/-- The u32 formed by bytes `k .. k+3` of `a` in the given byte order. -/
def u32At (endian : ByteOrder) (a : List UInt8) (k : Nat) : Nat :=
  match endian with
  | .LittleEndian =>
    (a.getD k 0).toNat + 256 * (a.getD (k + 1) 0).toNat + 65536 * (a.getD (k + 2) 0).toNat
      + 16777216 * (a.getD (k + 3) 0).toNat
  | .BigEndian =>
    (a.getD (k + 3) 0).toNat + 256 * (a.getD (k + 2) 0).toNat + 65536 * (a.getD (k + 1) 0).toNat
      + 16777216 * (a.getD k 0).toNat

/-- The byte order announced by bytes 6-7 of an EXIF block: `II`, `MM` or
neither. -/
def byteOrderMark (data : List UInt8) : Option ByteOrder :=
  if data.get? 6 = some 0x49 ∧ data.get? 7 = some 0x49 then some .LittleEndian
  else if data.get? 6 = some 0x4D ∧ data.get? 7 = some 0x4D then some .BigEndian
  else none

/-- The two bytes `II` or `MM` announcing a byte order. -/
def orderBytes (endian : ByteOrder) : List UInt8 :=
  match endian with
  | .LittleEndian => [0x49, 0x49]
  | .BigEndian => [0x4D, 0x4D]

/-- The two bytes of a 16-bit value in the given byte order. -/
def enc16 (endian : ByteOrder) (v : Nat) : List UInt8 :=
  match endian with
  | .LittleEndian => [UInt8.ofNat (v % 256), UInt8.ofNat (v / 256 % 256)]
  | .BigEndian => [UInt8.ofNat (v / 256 % 256), UInt8.ofNat (v % 256)]

/-- The four bytes of a 32-bit value in the given byte order. -/
def enc32 (endian : ByteOrder) (v : Nat) : List UInt8 :=
  match endian with
  | .LittleEndian =>
    [UInt8.ofNat (v % 256), UInt8.ofNat (v / 256 % 256), UInt8.ofNat (v / 65536 % 256),
      UInt8.ofNat (v / 16777216 % 256)]
  | .BigEndian =>
    [UInt8.ofNat (v / 16777216 % 256), UInt8.ofNat (v / 65536 % 256),
      UInt8.ofNat (v / 256 % 256), UInt8.ofNat (v % 256)]

/-! ## The fields of an IFD entry (for stating the claims) -/

/-- Bytes per component of a data format, 0 for a format outside 1..10. -/
def componentSize (dataFormat : Nat) : Nat :=
  if dataFormat = 1 ∨ dataFormat = 2 ∨ dataFormat = 6 ∨ dataFormat = 7 then 1
  else if dataFormat = 3 ∨ dataFormat = 8 then 2
  else if dataFormat = 4 ∨ dataFormat = 9 then 4
  else if dataFormat = 5 ∨ dataFormat = 10 then 8
  else 0

/-- Tag ID of IFD entry `i`: bytes 0-1 of the entry. -/
def entryTag (endian : ByteOrder) (ifdData : List UInt8) (i : Nat) : Nat :=
  u16At endian ifdData (2 + 12 * i)

/-- Data format of IFD entry `i`: bytes 2-3 of the entry. -/
def entryFormat (endian : ByteOrder) (ifdData : List UInt8) (i : Nat) : Nat :=
  u16At endian ifdData (2 + 12 * i + 2)

/-- Component count of IFD entry `i`: bytes 4-7 of the entry. -/
def entryComponents (endian : ByteOrder) (ifdData : List UInt8) (i : Nat) : Nat :=
  u32At endian ifdData (2 + 12 * i + 4)

/-- Value/offset field of IFD entry `i` read as a u32: bytes 8-11. -/
def entryOffset (endian : ByteOrder) (ifdData : List UInt8) (i : Nat) : Nat :=
  u32At endian ifdData (2 + 12 * i + 8)

/-- Value size of IFD entry `i` as an exact natural number. -/
def entrySize (endian : ByteOrder) (ifdData : List UInt8) (i : Nat) : Nat :=
  entryComponents endian ifdData i * componentSize (entryFormat endian ifdData i)

/-- The value bytes of IFD entry `i`: the first `size` bytes of the
value/offset field when `size <= 4`, else the `size` bytes of the block at
6 + offset, absent when they do not fit in the block. -/
def entryValue (endian : ByteOrder) (data ifdData : List UInt8) (i : Nat) :
    Option (List UInt8) :=
  if entrySize endian ifdData i ≤ 4 then
    some ((ifdData.drop (2 + 12 * i + 8)).take (entrySize endian ifdData i))
  else if data.length < 6 + entryOffset endian ifdData i + entrySize endian ifdData i then none
  else some ((data.drop (6 + entryOffset endian ifdData i)).take (entrySize endian ifdData i))

/-- The offset of the first IFD announced by the TIFF header: bytes 10-13 of
the EXIF block in the given byte order (relative to the TIFF header start). -/
def firstIfdOffset (endian : ByteOrder) (data : List UInt8) : Nat := u32At endian data 10

/-- The bytes of the EXIF block from the first IFD on. -/
def ifdBytes (endian : ByteOrder) (data : List UInt8) : List UInt8 :=
  data.drop (6 + firstIfdOffset endian data)

/-- The entry count the IFD declares: its first two bytes. -/
def ifdEntryCount (endian : ByteOrder) (data : List UInt8) : Nat :=
  u16At endian (ifdBytes endian data) 0

/-! ## The record by field name, and the IFD loop entry by entry -/

/-- The record as the list of its (field name, value) pairs, in the order of
the struct declaration. -/
def ExifPayload.toList (p : ExifPayload) : List (String × GoString) :=
  [("Make", p.Make),
   ("Model", p.Model),
   ("Orientation", p.Orientation),
   ("Software", p.Software),
   ("DateTime", p.DateTime),
   ("ExposureTime", p.ExposureTime),
   ("FNumber", p.FNumber),
   ("ExifOffset", p.ExifOffset),
   ("ISOSpeedRatings", p.ISOSpeedRatings),
   ("DateTimeOriginal", p.DateTimeOriginal),
   ("ShutterSpeedValue", p.ShutterSpeedValue),
   ("ApertureValue", p.ApertureValue),
   ("Flash", p.Flash),
   ("PixelXDimension", p.PixelXDimension),
   ("PixelYDimension", p.PixelYDimension),
   ("FocalLengthIn35mmFilm", p.FocalLengthIn35mmFilm),
   ("ImageDescription", p.ImageDescription),
   ("XResolution", p.XResolution),
   ("YResolution", p.YResolution),
   ("ResolutionUnit", p.ResolutionUnit),
   ("Artist", p.Artist),
   ("YCbCrPositioning", p.YCbCrPositioning),
   ("Copyright", p.Copyright),
   ("GPSInfoIFDPointer", p.GPSInfoIFDPointer),
   ("ExifVersion", p.ExifVersion),
   ("DateTimeDigitized", p.DateTimeDigitized),
   ("BrightnessValue", p.BrightnessValue),
   ("ExposureBiasValue", p.ExposureBiasValue),
   ("MaxApertureValue", p.MaxApertureValue),
   ("MeteringMode", p.MeteringMode),
   ("FocalLength", p.FocalLength),
   ("GPSVersionID", p.GPSVersionID),
   ("GPSLatitudeRef", p.GPSLatitudeRef),
   ("GPSLatitude", p.GPSLatitude),
   ("GPSLongitudeRef", p.GPSLongitudeRef),
   ("GPSLongitude", p.GPSLongitude),
   ("GPSAltitudeRef", p.GPSAltitudeRef),
   ("GPSAltitude", p.GPSAltitude),
   ("GPSMapDatum", p.GPSMapDatum)]

/-- The value of the field with the given name; empty for a name that is
not a field. -/
def ExifPayload.field (p : ExifPayload) (name : String) : GoString :=
  (p.toList.lookup name).getD []

/-- The loop body of `parseEXIFInfo` run in turn on the entries with the
given indices. -/
def processEntries (fmtFloat : Nat → Nat → GoString) (data ifdData : List UInt8)
    (endian : ByteOrder) : List Nat → ExifPayload → Go ExifPayload
  | [], payload => Go.ret payload
  | i :: rest, payload => do
    let payload1 ← processEntry fmtFloat data ifdData endian i payload
    processEntries fmtFloat data ifdData endian rest payload1

/-- The non-empty string IFD entry `i` decodes to: the entry lies inside the
IFD, its value size is not 0, its value bytes are resolved (inline, or at an
offset inside the block) and `decodeTagValue` returns a non-empty string for
them. Absent in every other case. -/
def entryDecoded (fmtFloat : Nat → Nat → GoString) (endian : ByteOrder)
    (data ifdData : List UInt8) (i : Nat) : Option GoString :=
  if 2 + 12 * i + 12 ≤ ifdData.length ∧ entrySize endian ifdData i ≠ 0 then
    match entryValue endian data ifdData i with
    | none => none
    | some tagValue =>
      match decodeTagValue fmtFloat (entryFormat endian ifdData i) tagValue endian with
      | .ret value => if value = [] then none else some value
      | .panic => none
  else none

/-- The record after IFD entry `i`, given the record before it. -/
def applyEntry (fmtFloat : Nat → Nat → GoString) (endian : ByteOrder)
    (data ifdData : List UInt8) (payload : ExifPayload) (i : Nat) : ExifPayload :=
  match entryDecoded fmtFloat endian data ifdData i with
  | none => payload
  | some value => assignTagValue payload (getTagName (entryTag endian ifdData i)) value

/-! ## Sample inputs -/

/-- A stand-in for the float rendering, for evaluating the decoder on
concrete inputs. -/
def sampleFmtFloat : Nat → Nat → GoString :=
  fun num den => decimal num ++ ascii "/" ++ decimal den

/-- The smallest valid EXIF block: identifier, little-endian TIFF header with
the IFD at offset 8, and an IFD declaring 0 entries. -/
def minimalBlock : List UInt8 :=
  exifIdentifier ++ [0x49, 0x49, 0x2A, 0x00, 0x08, 0x00, 0x00, 0x00] ++ [0x00, 0x00]

/-- The smallest block, with the magic number 43 in place of 42. -/
def badMagicBlock : List UInt8 :=
  exifIdentifier ++ [0x49, 0x49, 0x2B, 0x00, 0x08, 0x00, 0x00, 0x00] ++ [0x00, 0x00]

/-- An EXIF block with one IFD entry (Make, ascii, count 6) whose
value/offset field holds the bytes `Cano`, followed by `n\0`: the six
bytes `Canon\0` written from the value/offset field on. -/
def canonInlineBlock : List UInt8 :=
  exifIdentifier ++ [0x49, 0x49, 0x2A, 0x00, 0x08, 0x00, 0x00, 0x00] ++ [0x01, 0x00] ++
    [0x0F, 0x01, 0x02, 0x00, 0x06, 0x00, 0x00, 0x00, 0x43, 0x61, 0x6E, 0x6F] ++ [0x6E, 0x00]

/-- An EXIF block with one IFD entry (Make, ascii, count 6) whose
value/offset field holds the offset 26 of the bytes `Canon\0`. -/
def canonOffsetBlock : List UInt8 :=
  exifIdentifier ++ [0x49, 0x49, 0x2A, 0x00, 0x08, 0x00, 0x00, 0x00] ++ [0x01, 0x00] ++
    [0x0F, 0x01, 0x02, 0x00, 0x06, 0x00, 0x00, 0x00, 0x1A, 0x00, 0x00, 0x00] ++
    [0x00, 0x00, 0x00, 0x00] ++ [0x43, 0x61, 0x6E, 0x6F, 0x6E, 0x00]

/-- An EXIF block with one IFD entry (ExposureTime, rational, count 1) whose
value, at offset 26, is numerator 1 and denominator 0. -/
def zeroDenominatorBlock : List UInt8 :=
  exifIdentifier ++ [0x49, 0x49, 0x2A, 0x00, 0x08, 0x00, 0x00, 0x00] ++ [0x01, 0x00] ++
    [0x9A, 0x82, 0x05, 0x00, 0x01, 0x00, 0x00, 0x00, 0x1A, 0x00, 0x00, 0x00] ++
    [0x00, 0x00, 0x00, 0x00] ++ [0x01, 0x00, 0x00, 0x00, 0x00, 0x00, 0x00, 0x00]

/-- A JPEG prefix with two APP1 markers: the first at index 2 declaring
length 6, the second at index 10 declaring length 2. -/
def twoApp1Input : List UInt8 :=
  [0xFF, 0xD8, 0xFF, 0xE1, 0x00, 0x06, 0x01, 0x02, 0x03, 0x04, 0xFF, 0xE1, 0x00, 0x02]

/-- A JPEG prefix whose APP1 marker declares length 9 with only 4 bytes left. -/
def shortSegmentInput : List UInt8 := [0xFF, 0xD8, 0xFF, 0xE1, 0x00, 0x09, 0x01, 0x02]

/-- A JPEG whose APP1 marker declares length 4: two length bytes, two
payload bytes, then the end-of-image marker. -/
def tinySegmentInput : List UInt8 :=
  [0xFF, 0xD8, 0xFF, 0xE1, 0x00, 0x04, 0xAA, 0xBB, 0xFF, 0xD9]

/-- An EXIF block with three IFD entries: Make (ascii, count 4, inline
`Abc\0`), Model (ascii, count 6, value offset 1000, far past the end of the
block) and Software (ascii, count 3, inline `Xy\0`). -/
def skippedValueBlock : List UInt8 :=
  exifIdentifier ++ [0x49, 0x49, 0x2A, 0x00, 0x08, 0x00, 0x00, 0x00] ++ [0x03, 0x00] ++
    [0x0F, 0x01, 0x02, 0x00, 0x04, 0x00, 0x00, 0x00, 0x41, 0x62, 0x63, 0x00] ++
    [0x10, 0x01, 0x02, 0x00, 0x06, 0x00, 0x00, 0x00, 0xE8, 0x03, 0x00, 0x00] ++
    [0x31, 0x01, 0x02, 0x00, 0x03, 0x00, 0x00, 0x00, 0x58, 0x79, 0x00, 0x00] ++
    [0x00, 0x00, 0x00, 0x00]

/-- An EXIF block whose IFD declares 2 entries but ends 5 bytes into the
second one: only the first entry (Make, ascii, count 4, inline `Abc\0`) is
whole. -/
def truncatedIfdBlock : List UInt8 :=
  exifIdentifier ++ [0x49, 0x49, 0x2A, 0x00, 0x08, 0x00, 0x00, 0x00] ++ [0x02, 0x00] ++
    [0x0F, 0x01, 0x02, 0x00, 0x04, 0x00, 0x00, 0x00, 0x41, 0x62, 0x63, 0x00] ++
    [0x10, 0x01, 0x02, 0x00, 0x04]

/-- An EXIF block with two IFD entries, both Make (ascii, count 6): the
first points at the bytes `Canon\0` (offset 38), the second at six null
bytes (offset 44). -/
def nullMakeBlock : List UInt8 :=
  exifIdentifier ++ [0x49, 0x49, 0x2A, 0x00, 0x08, 0x00, 0x00, 0x00] ++ [0x02, 0x00] ++
    [0x0F, 0x01, 0x02, 0x00, 0x06, 0x00, 0x00, 0x00, 0x26, 0x00, 0x00, 0x00] ++
    [0x0F, 0x01, 0x02, 0x00, 0x06, 0x00, 0x00, 0x00, 0x2C, 0x00, 0x00, 0x00] ++
    [0x00, 0x00, 0x00, 0x00] ++ [0x43, 0x61, 0x6E, 0x6F, 0x6E, 0x00] ++
    [0x00, 0x00, 0x00, 0x00, 0x00, 0x00]

/-- An EXIF block with two IFD entries, both Make (ascii): the first with
count 4 and inline value `Abc\0`, the second with count 3 and inline value
`Xy\0`. -/
def twoMakeBlock : List UInt8 :=
  exifIdentifier ++ [0x49, 0x49, 0x2A, 0x00, 0x08, 0x00, 0x00, 0x00] ++ [0x02, 0x00] ++
    [0x0F, 0x01, 0x02, 0x00, 0x04, 0x00, 0x00, 0x00, 0x41, 0x62, 0x63, 0x00] ++
    [0x0F, 0x01, 0x02, 0x00, 0x03, 0x00, 0x00, 0x00, 0x58, 0x79, 0x00, 0x00] ++
    [0x00, 0x00, 0x00, 0x00]

/-- An EXIF block in the given byte order with one IFD entry: tag `tagID`,
format 3 (short), count 1, the value `v` in the first two bytes of the
value/offset field. -/
def shortBlock (endian : ByteOrder) (tagID v : Nat) : List UInt8 :=
  exifIdentifier ++ orderBytes endian ++ enc16 endian 42 ++ enc32 endian 8 ++
    enc16 endian 1 ++ enc16 endian tagID ++ enc16 endian 3 ++ enc32 endian 1 ++
    enc16 endian v ++ [0, 0]

/-- An EXIF block in the given byte order with one IFD entry: tag `tagID`,
format 4 (long), count 1, the value `w` in the value/offset field. -/
def longBlock (endian : ByteOrder) (tagID w : Nat) : List UInt8 :=
  exifIdentifier ++ orderBytes endian ++ enc16 endian 42 ++ enc32 endian 8 ++
    enc16 endian 1 ++ enc16 endian tagID ++ enc16 endian 4 ++ enc32 endian 1 ++
    enc32 endian w

/-- A little-endian EXIF block with four IFD entries: Orientation (short,
count 1, inline value 6), PixelXDimension (long, count 2, the values 4000 and
3000 at offset 68), Make (ascii, count 6, `Canon\0` at offset 62) and
ExposureTime (rational, count 1, 1/250 at offset 76). -/
def mixedBlockLittle : List UInt8 :=
  exifIdentifier ++ [0x49, 0x49, 0x2A, 0x00, 0x08, 0x00, 0x00, 0x00] ++ [0x04, 0x00] ++
    [0x12, 0x01, 0x03, 0x00, 0x01, 0x00, 0x00, 0x00, 0x06, 0x00, 0x00, 0x00] ++
    [0x02, 0xA0, 0x04, 0x00, 0x02, 0x00, 0x00, 0x00, 0x44, 0x00, 0x00, 0x00] ++
    [0x0F, 0x01, 0x02, 0x00, 0x06, 0x00, 0x00, 0x00, 0x3E, 0x00, 0x00, 0x00] ++
    [0x9A, 0x82, 0x05, 0x00, 0x01, 0x00, 0x00, 0x00, 0x4C, 0x00, 0x00, 0x00] ++
    [0x00, 0x00, 0x00, 0x00] ++ [0x43, 0x61, 0x6E, 0x6F, 0x6E, 0x00] ++
    [0xA0, 0x0F, 0x00, 0x00, 0xB8, 0x0B, 0x00, 0x00] ++
    [0x01, 0x00, 0x00, 0x00, 0xFA, 0x00, 0x00, 0x00]

/-- The block `mixedBlockLittle` written under a big-endian header: the
byte-order marker is `MM` and every multi-byte field (magic number, IFD
offset, entry count, tag IDs, formats, component counts, value offsets, the
short, the longs and the two halves of the rational) has its bytes
reversed; the ascii bytes are the same. -/
def mixedBlockBig : List UInt8 :=
  exifIdentifier ++ [0x4D, 0x4D, 0x00, 0x2A, 0x00, 0x00, 0x00, 0x08] ++ [0x00, 0x04] ++
    [0x01, 0x12, 0x00, 0x03, 0x00, 0x00, 0x00, 0x01, 0x00, 0x06, 0x00, 0x00] ++
    [0xA0, 0x02, 0x00, 0x04, 0x00, 0x00, 0x00, 0x02, 0x00, 0x00, 0x00, 0x44] ++
    [0x01, 0x0F, 0x00, 0x02, 0x00, 0x00, 0x00, 0x06, 0x00, 0x00, 0x00, 0x3E] ++
    [0x82, 0x9A, 0x00, 0x05, 0x00, 0x00, 0x00, 0x01, 0x00, 0x00, 0x00, 0x4C] ++
    [0x00, 0x00, 0x00, 0x00] ++ [0x43, 0x61, 0x6E, 0x6F, 0x6E, 0x00] ++
    [0x00, 0x00, 0x0F, 0xA0, 0x00, 0x00, 0x0B, 0xB8] ++
    [0x00, 0x00, 0x00, 0x01, 0x00, 0x00, 0x00, 0xFA]

/-! ## Basic facts about outcomes, indexing and slicing -/

/-- Stated through a case split, so that rewriting with it never asks for
the two sides to be compared by unfolding. -/
theorem Go.bind_ret_eq {α β : Type} (x : Go α) (a : α) (f : α → Go β) (h : x = Go.ret a) :
    (x >>= f) = f a := by
  cases x with
  | ret b => cases h; rfl
  | panic => cases h

@[simp] theorem Go.ret_bind {α β : Type} (a : α) (f : α → Go β) :
    (Go.ret a >>= f) = f a := Go.bind_ret_eq (Go.ret a) a f rfl

theorem Go.bind_panic_eq {α β : Type} (x : Go α) (f : α → Go β) (h : x = Go.panic) :
    (x >>= f) = Go.panic := by
  cases x with
  | ret b => cases h
  | panic => rfl

@[simp] theorem Go.panic_bind {α β : Type} (f : α → Go β) :
    ((Go.panic : Go α) >>= f) = Go.panic := Go.bind_panic_eq Go.panic f rfl

theorem index_ofNat (a : List UInt8) (n : Nat) :
    index a (Int.ofNat n) = (match a.get? n with | some b => Go.ret b | none => Go.panic) := by
  simp [index]

theorem index_ofNat_ge (a : List UInt8) (n : Nat) (h : a.length ≤ n) :
    index a (Int.ofNat n) = Go.panic := by
  rw [index_ofNat, List.get?_eq_none.mpr h]

theorem index_ofNat_lt (a : List UInt8) (n : Nat) (h : n < a.length) :
    index a (Int.ofNat n) = Go.ret (a.get ⟨n, h⟩) := by
  rw [index_ofNat, List.get?_eq_get h]

theorem index_ret_lt (a : List UInt8) (n : Nat) (b : UInt8)
    (h : index a (Int.ofNat n) = Go.ret b) : n < a.length := by
  by_contra hn
  rw [index_ofNat_ge a n (by omega)] at h
  cases h

theorem sliceFrom_ofNat (a : List UInt8) (n : Nat) (h : n ≤ a.length) :
    sliceFrom a (Int.ofNat n) = Go.ret (a.drop n) := by
  simp [sliceFrom, h]

/-! ## The APP1 scan -/

/-- One step of the scan either panics or continues with the next index. -/
theorem app1Loop_cons (data spare : List UInt8) (b : UInt8) (rest : List UInt8) (i : Nat)
    (result : List UInt8) (pos : Int) :
    app1Loop data spare (b :: rest) i result pos = Go.panic ∨
    ∃ result1 pos1, app1Loop data spare (b :: rest) i result pos =
      app1Loop data spare rest (i + 1) result1 pos1 := by
  rw [app1Loop]
  by_cases hb : b = 0xFF
  · simp only [hb, if_true]
    cases hidx : index data (Int.ofNat (i + 1)) with
    | panic => left; rfl
    | ret app1 =>
      by_cases ha : app1 = 0xE1
      · simp only [ha, if_true]
        cases hs : sliceCap data spare (Int.ofNat i) (Int.ofNat (i + 4)) with
        | panic => left; rfl
        | ret hdr => right; exact ⟨_, _, rfl⟩
      · simp only [ha, if_false]
        right; exact ⟨_, _, rfl⟩
  · simp only [hb, if_false]
    right; exact ⟨_, _, rfl⟩

/-- A scan whose remaining bytes end in 0xFF panics: the byte after the
last one is read without a bounds check. -/
theorem app1Loop_trailing_FF (data spare : List UInt8) :
    ∀ (rest : List UInt8) (i : Nat) (result : List UInt8) (pos : Int),
      rest.getLast? = some 0xFF → i + rest.length = data.length →
      app1Loop data spare rest i result pos = Go.panic := by
  intro rest
  induction rest with
  | nil => intro i result pos h; simp at h
  | cons b rest ih =>
    intro i result pos hlast hlen
    cases rest with
    | nil =>
      simp at hlast
      subst hlast
      simp only [List.length_singleton] at hlen
      unfold app1Loop
      simp only [if_true]
      rw [index_ofNat_ge data (i + 1) (by omega)]
    | cons c rest1 =>
      have hlast1 : (c :: rest1).getLast? = some 0xFF := by
        simpa [List.getLast?_cons_cons] using hlast
      have hlen1 : (i + 1) + (c :: rest1).length = data.length := by
        simp only [List.length_cons] at hlen ⊢; omega
      rcases app1Loop_cons data spare b (c :: rest1) i result pos with h | ⟨r1, p1, h⟩
      · exact h
      · rw [h]; exact ih (i + 1) r1 p1 hlast1 hlen1

/-- The position a completed scan returns is 0 or a position `i+2` with
`i+1` a valid index, hence at most `len(data)`. -/
theorem app1Loop_pos_le (data spare : List UInt8) :
    ∀ (rest : List UInt8) (i : Nat) (result : List UInt8) (pos : Int)
      (r : List UInt8) (p : Int),
      0 ≤ pos → pos ≤ Int.ofNat data.length →
      app1Loop data spare rest i result pos = Go.ret (r, p) →
      0 ≤ p ∧ p ≤ Int.ofNat data.length := by
  intro rest
  induction rest with
  | nil =>
    intro i result pos r p h0 h1 h
    simp only [app1Loop, Go.ret.injEq, Prod.mk.injEq] at h
    rw [← h.2]; exact ⟨h0, h1⟩
  | cons b rest ih =>
    intro i result pos r p h0 h1 h
    unfold app1Loop at h
    by_cases hb : b = 0xFF
    · simp only [hb, if_true] at h
      cases hidx : index data (Int.ofNat (i + 1)) with
      | panic => rw [hidx] at h; cases h
      | ret app1 =>
        rw [hidx] at h
        have hlt := index_ret_lt data (i + 1) app1 hidx
        by_cases ha : app1 = 0xE1
        · simp only [ha, if_true] at h
          cases hs : sliceCap data spare (Int.ofNat i) (Int.ofNat (i + 4)) with
          | panic => rw [hs] at h; cases h
          | ret hdr =>
            rw [hs] at h
            refine ih (i + 1) _ _ r p ?_ ?_ h
            · exact Int.ofNat_nonneg _
            · simp only [Int.ofNat_eq_coe]; omega
        · simp only [ha, if_false] at h
          exact ih (i + 1) _ _ r p h0 h1 h
    · simp only [hb, if_false] at h
      exact ih (i + 1) _ _ r p h0 h1 h

theorem getAPP1Marker_pos_le (data spare r : List UInt8) (p : Int)
    (h : getAPP1Marker data spare = Go.ret (r, p)) :
    0 ≤ p ∧ p ≤ Int.ofNat data.length :=
  app1Loop_pos_le data spare data 0 [] 0 r p (le_refl _) (Int.ofNat_nonneg _) h

/-! ## The EXIF block extractor -/

theorem readLoop_eq (data : List UInt8) :
    ∀ (k i : Nat) (acc : List UInt8), i + k ≤ data.length →
      readLoop data k i acc = Go.ret (acc ++ (data.drop i).take k) := by
  intro k
  induction k with
  | zero => intro i acc _; simp [readLoop]
  | succ k ih =>
    intro i acc h
    have hi : i < data.length := by omega
    unfold readLoop
    rw [index_ofNat_lt data i hi]
    simp only
    rw [ih (i + 1) _ (by omega)]
    congr 1
    rw [List.append_assoc]
    congr 1
    rw [List.drop_eq_getElem_cons hi, List.take_succ_cons]
    simp

theorem readEXIFDataBlock_eq (segment : List UInt8) (L : Nat) (h2 : 2 ≤ L)
    (hL : L ≤ segment.length) :
    readEXIFDataBlock segment L = Go.ret ((segment.take L).drop 2) := by
  unfold readEXIFDataBlock
  rw [readLoop_eq segment L 0 [] (by omega)]
  simp only [Go.ret_bind, List.nil_append, List.drop_zero]
  have : sliceFrom (segment.take L) (Int.ofNat 2) = Go.ret ((segment.take L).drop 2) :=
    sliceFrom_ofNat _ 2 (by simp; omega)
  exact this

/-! ## Claims on the JPEG segment locator and the block extractor -/

theorem isJPEG_false_of_take (data : List UInt8) (h : data.take 2 ≠ [0xFF, 0xD8]) :
    isJPEG data = false := by
  match data with
  | [] => simp [isJPEG]
  | [_] => simp [isJPEG]
  | a :: b :: t =>
    simp only [List.take_succ_cons, List.take_zero, ne_eq, List.cons.injEq, and_true] at h
    simp only [isJPEG, List.length_cons, List.get?_cons_zero, List.get?_cons_succ]
    by_cases ha : a = 0xFF
    · have hb : b ≠ 0xD8 := fun hb => h ⟨ha, hb⟩
      simp [ha, hb]
    · simp [ha]

/-- C1: for every byte sequence whose first two bytes are not 0xFF 0xD8
(the empty and the one-byte sequences included), the decode returns the
not-a-JPEG error and no record. -/
theorem ParseImageFile_not_jpeg (fmtFloat : Nat → Nat → GoString) (data spare : List UInt8)
    (h : data.take 2 ≠ [0xFF, 0xD8]) :
    ParseImageFile fmtFloat data spare = Go.ret (Except.error DecodeError.notJPEG) := by
  simp [ParseImageFile, isJPEG_false_of_take data h]

theorem ParseImageFile_not_jpeg_witness :
    ([0x89, 0x50, 0x4E] : List UInt8).take 2 ≠ [0xFF, 0xD8] ∧
    ParseImageFile sampleFmtFloat [0x89, 0x50, 0x4E] [] =
      Go.ret (Except.error DecodeError.notJPEG) :=
  ⟨by decide, ParseImageFile_not_jpeg sampleFmtFloat [0x89, 0x50, 0x4E] [] (by decide)⟩

theorem getLast?_of_drop_singleton (data : List UInt8) (i : Nat) (b : UInt8)
    (h : data.drop i = [b]) : data.getLast? = some b := by
  have h1 : data = data.take i ++ [b] := by rw [← h, List.take_append_drop]
  rw [h1, List.getLast?_append]
  rfl

/-- Without a (0xFF, 0xE1) pair and without a trailing 0xFF the scan runs to
the end and leaves its two variables as they were. -/
theorem app1Loop_no_pair (data spare : List UInt8)
    (hpair : ∀ j, data.get? j = some 0xFF → data.get? (j + 1) ≠ some 0xE1)
    (hlast : data.getLast? ≠ some 0xFF) :
    ∀ (rest : List UInt8) (i : Nat) (result : List UInt8) (pos : Int),
      data.drop i = rest → app1Loop data spare rest i result pos = Go.ret (result, pos) := by
  intro rest
  induction rest with
  | nil => intro i result pos _; rw [app1Loop]
  | cons b rest ih =>
    intro i result pos hdrop
    have hget : data.get? i = some b := by
      rw [List.get?_eq_getElem?, ← List.head?_drop, hdrop]; rfl
    have hnext : data.drop (i + 1) = rest := by
      rw [← List.drop_drop, hdrop]; rfl
    rw [app1Loop]
    by_cases hb : b = 0xFF
    · rw [if_pos hb]
      subst hb
      have hlt : i + 1 < data.length := by
        by_contra hge
        apply hlast
        have hr : rest = [] := by
          rw [← hnext]; exact List.drop_eq_nil_of_le (by omega)
        rw [hr] at hdrop
        exact getLast?_of_drop_singleton data i _ hdrop
      rw [index_ofNat_lt data (i + 1) hlt]
      have hne : data.get ⟨i + 1, hlt⟩ ≠ 0xE1 := by
        intro he
        apply hpair i hget
        rw [List.get?_eq_get hlt, he]
      simp only [if_neg hne]
      exact ih (i + 1) result pos hnext
    · rw [if_neg hb]
      exact ih (i + 1) result pos hnext

/-- Apart from the trailing-0xFF case, a JPEG without a (0xFF, 0xE1) pair
gets the APP1-not-found error. -/
theorem ParseImageFile_no_app1 (fmtFloat : Nat → Nat → GoString) (data spare : List UInt8)
    (hj : isJPEG data = true)
    (hpair : ∀ j, data.get? j = some 0xFF → data.get? (j + 1) ≠ some 0xE1)
    (hlast : data.getLast? ≠ some 0xFF) :
    ParseImageFile fmtFloat data spare = Go.ret (Except.error DecodeError.app1NotFound) := by
  have h : getAPP1Marker data spare = Go.ret ([], 0) :=
    app1Loop_no_pair data spare hpair hlast data 0 [] 0 rfl
  simp [ParseImageFile, hj, h]

/-- C2: on the JPEG input FF D8 FF, which holds no (0xFF, 0xE1) pair, the
decode does not return the APP1-not-found error: the scan reads the byte
after the trailing 0xFF and the decode panics, whatever the capacity. -/
theorem ParseImageFile_no_app1_panics (fmtFloat : Nat → Nat → GoString)
    (spare : List UInt8) :
    ParseImageFile fmtFloat [0xFF, 0xD8, 0xFF] spare = Go.panic := by
  have h : getAPP1Marker [0xFF, 0xD8, 0xFF] spare = Go.panic :=
    app1Loop_trailing_FF _ spare _ 0 [] 0 (by decide) (by simp)
  have hj : isJPEG [0xFF, 0xD8, 0xFF] = true := by decide
  simp [ParseImageFile, hj, h]

/-- C3: on an input with two (0xFF, 0xE1) pairs, at indices 2 and 10, the
scan returns the payload position of the last pair, 12 and not 4, and the
length computed from the returned header bytes is the last pair's length
field, 2 and not 6. -/
theorem getAPP1Marker_selects_last (spare : List UInt8) :
    getAPP1Marker twoApp1Input spare =
      Go.ret ([0xFF, 0xE1, 0x00, 0x06, 0xFF, 0xE1, 0x00, 0x02], 12) ∧
    calculateLengthField [0xFF, 0xE1, 0x00, 0x06, 0xFF, 0xE1, 0x00, 0x02] = Go.ret 2 := by
  refine ⟨?_, by decide⟩
  have h : (6 : Int) ≤ 14 + (spare.length : Int) := by omega
  simp [getAPP1Marker, twoApp1Input, app1Loop, index, sliceCap, h]

/-- C4: for every input whose last byte is 0xFF the scan does not complete:
it indexes the byte after the end of the buffer and panics. -/
theorem getAPP1Marker_reads_past_end (data spare : List UInt8)
    (h : data.getLast? = some 0xFF) : getAPP1Marker data spare = Go.panic :=
  app1Loop_trailing_FF data spare data 0 [] 0 h (by simp)

theorem getAPP1Marker_reads_past_end_witness :
    ([0xFF, 0xD8, 0x00, 0xFF] : List UInt8).getLast? = some 0xFF ∧
    getAPP1Marker [0xFF, 0xD8, 0x00, 0xFF] [0x00, 0x00] = Go.panic :=
  ⟨by decide, getAPP1Marker_reads_past_end [0xFF, 0xD8, 0x00, 0xFF] [0x00, 0x00] (by decide)⟩

/-- C5: with `segment` the input from the payload position on and `L` the
declared length: when `len(segment) < L` the decode returns the
segment-too-short error; when `2 <= L <= len(segment)`, `readEXIFDataBlock`
returns the bytes `segment[2..L)`, `L-2` of them in order, and that block is
what `parseEXIFInfo` is run on. The extraction of `segment[2..L)` holds for
every byte sequence and length. -/
theorem ParseImageFile_segment (fmtFloat : Nat → Nat → GoString)
    (data spare hdr : List UInt8) (pos : Int) (L : Nat)
    (hj : isJPEG data = true) (hm : getAPP1Marker data spare = Go.ret (hdr, pos))
    (hp : pos ≠ 0) (hL : calculateLengthField hdr = Go.ret L) :
    ((data.drop pos.toNat).length < L →
      ParseImageFile fmtFloat data spare =
        Go.ret (Except.error (DecodeError.segmentTooShort L (data.drop pos.toNat).length))) ∧
    (2 ≤ L → L ≤ (data.drop pos.toNat).length →
      ParseImageFile fmtFloat data spare =
        parseEXIFInfo fmtFloat (((data.drop pos.toNat).take L).drop 2)) ∧
    (∀ (segment : List UInt8) (n : Nat), 2 ≤ n → n ≤ segment.length →
      readEXIFDataBlock segment n = Go.ret ((segment.take n).drop 2) ∧
      ((segment.take n).drop 2).length = n - 2) := by
  obtain ⟨h0, h1⟩ := getAPP1Marker_pos_le data spare hdr pos hm
  have hseg : sliceFrom data pos = Go.ret (data.drop pos.toNat) := by
    have : 0 ≤ pos ∧ pos ≤ (data.length : Int) := ⟨h0, h1⟩
    simp [sliceFrom, this]
  refine ⟨?_, ?_, ?_⟩
  · intro hlt
    simp only [ParseImageFile, hj, hm, hL, hseg, hp, Go.ret_bind, Bool.not_true,
      Bool.false_eq_true, if_false, hlt, if_true]
  · intro h2 hle
    have hnot : ¬ (data.drop pos.toNat).length < L := by omega
    simp only [ParseImageFile, hj, hm, hL, hseg, hp, Go.ret_bind, Bool.not_true,
      Bool.false_eq_true, if_false, hnot, readEXIFDataBlock_eq _ L h2 hle]
  · intro segment n h2 hle
    refine ⟨readEXIFDataBlock_eq segment n h2 hle, ?_⟩
    simp only [List.length_drop, List.length_take]
    omega

theorem ParseImageFile_segment_witness :
    (ParseImageFile sampleFmtFloat shortSegmentInput [] =
      Go.ret (Except.error (DecodeError.segmentTooShort 9 4))) ∧
    (ParseImageFile sampleFmtFloat tinySegmentInput [] =
      parseEXIFInfo sampleFmtFloat [0xAA, 0xBB]) ∧
    (readEXIFDataBlock [0x00, 0x04, 0xAA, 0xBB, 0xFF, 0xD9] 4 = Go.ret [0xAA, 0xBB]) :=
  have h := ParseImageFile_segment sampleFmtFloat shortSegmentInput []
    [0xFF, 0xE1, 0x00, 0x09] 4 9 (by decide) (by decide) (by decide) (by decide)
  have g := ParseImageFile_segment sampleFmtFloat tinySegmentInput []
    [0xFF, 0xE1, 0x00, 0x04] 4 4 (by decide) (by decide) (by decide) (by decide)
  ⟨h.1 (by decide), g.2.1 (by decide) (by decide),
    (g.2.2 [0x00, 0x04, 0xAA, 0xBB, 0xFF, 0xD9] 4 (by decide) (by decide)).1⟩

/-- C6: an APP1 length field declaring 0 or 1 does not end in a returned
error: the length check passes, `readEXIFDataBlock` copies 0 or 1 bytes and
its `exifBlock[2:]` is out of range, so the decode panics. -/
theorem ParseImageFile_short_length_panics (fmtFloat : Nat → Nat → GoString)
    (spare : List UInt8) :
    ParseImageFile fmtFloat [0xFF, 0xD8, 0xFF, 0xE1, 0x00, 0x00] spare = Go.panic ∧
    ParseImageFile fmtFloat [0xFF, 0xD8, 0xFF, 0xE1, 0x00, 0x01] spare = Go.panic := by
  have h : (6 : Int) ≤ 6 + (spare.length : Int) := by omega
  have hm0 : getAPP1Marker [0xFF, 0xD8, 0xFF, 0xE1, 0x00, 0x00] spare =
      Go.ret ([0xFF, 0xE1, 0x00, 0x00], 4) := by
    simp [getAPP1Marker, app1Loop, index, sliceCap, h]
  have hm1 : getAPP1Marker [0xFF, 0xD8, 0xFF, 0xE1, 0x00, 0x01] spare =
      Go.ret ([0xFF, 0xE1, 0x00, 0x01], 4) := by
    simp [getAPP1Marker, app1Loop, index, sliceCap, h]
  have hj0 : isJPEG [0xFF, 0xD8, 0xFF, 0xE1, 0x00, 0x00] = true := by decide
  have hj1 : isJPEG [0xFF, 0xD8, 0xFF, 0xE1, 0x00, 0x01] = true := by decide
  have hl0 : calculateLengthField [0xFF, 0xE1, 0x00, 0x00] = Go.ret 0 := by decide
  have hl1 : calculateLengthField [0xFF, 0xE1, 0x00, 0x01] = Go.ret 1 := by decide
  have hs0 : sliceFrom [0xFF, 0xD8, 0xFF, 0xE1, 0x00, 0x00] 4 = Go.ret [0x00, 0x00] := by
    decide
  have hs1 : sliceFrom [0xFF, 0xD8, 0xFF, 0xE1, 0x00, 0x01] 4 = Go.ret [0x00, 0x01] := by
    decide
  have hr0 : readEXIFDataBlock [0x00, 0x00] 0 = Go.panic := by decide
  have hr1 : readEXIFDataBlock [0x00, 0x01] 1 = Go.panic := by decide
  constructor
  · simp [ParseImageFile, hj0, hm0, hl0, hs0, hr0]
  · simp [ParseImageFile, hj1, hm1, hl1, hs1, hr1]

/-! ## Machine integers, byte reads and slices inside `parseEXIFInfo` -/

theorem wrapInt_eq (x : Int) (h0 : -9223372036854775808 ≤ x) (h1 : x < 9223372036854775808) :
    wrapInt x = x := by
  unfold wrapInt; omega

theorem byte_lt (b : UInt8) : b.toNat < 256 := by
  have := UInt8.toNat_lt_size b
  simpa [UInt8.size] using this

theorem toNat_ofNat_byte (n : Nat) : (UInt8.ofNat n).toNat = n % 256 := rfl

theorem u16At_lt (endian : ByteOrder) (a : List UInt8) (k : Nat) : u16At endian a k < 65536 := by
  have h0 := byte_lt (a.getD k 0)
  have h1 := byte_lt (a.getD (k + 1) 0)
  cases endian <;> simp only [u16At] <;> omega

theorem u32At_lt (endian : ByteOrder) (a : List UInt8) (k : Nat) :
    u32At endian a k < 4294967296 := by
  have h0 := byte_lt (a.getD k 0)
  have h1 := byte_lt (a.getD (k + 1) 0)
  have h2 := byte_lt (a.getD (k + 2) 0)
  have h3 := byte_lt (a.getD (k + 3) 0)
  cases endian <;> simp only [u32At] <;> omega

theorem Uint16_eq (endian : ByteOrder) (b : List UInt8) (h : 2 ≤ b.length) :
    endian.Uint16 b = Go.ret (u16At endian b 0) := by
  match b, h with
  | b0 :: b1 :: t, _ => cases endian <;> simp [ByteOrder.Uint16, u16At]

theorem Uint32_eq (endian : ByteOrder) (b : List UInt8) (h : 4 ≤ b.length) :
    endian.Uint32 b = Go.ret (u32At endian b 0) := by
  match b, h with
  | b0 :: b1 :: b2 :: b3 :: t, _ => cases endian <;> simp [ByteOrder.Uint32, u32At]

theorem slice_eq (a : List UInt8) (lo hi : Int) (h0 : 0 ≤ lo) (h1 : lo ≤ hi)
    (h2 : hi ≤ (a.length : Int)) :
    slice a lo hi = Go.ret ((a.take hi.toNat).drop lo.toNat) := by
  have h : 0 ≤ lo ∧ lo ≤ hi ∧ hi ≤ (a.length : Int) := ⟨h0, h1, h2⟩
  simp [slice, sliceCap, h]

theorem slice_length (a : List UInt8) (lo hi : Int) (h0 : 0 ≤ lo) (h1 : lo ≤ hi)
    (h2 : hi ≤ (a.length : Int)) :
    ((a.take hi.toNat).drop lo.toNat).length = (hi - lo).toNat := by
  simp only [List.length_drop, List.length_take]
  omega

theorem sliceFrom_eq (a : List UInt8) (lo : Int) (h0 : 0 ≤ lo) (h1 : lo ≤ (a.length : Int)) :
    sliceFrom a lo = Go.ret (a.drop lo.toNat) := by
  have h : 0 ≤ lo ∧ lo ≤ (a.length : Int) := ⟨h0, h1⟩
  simp [sliceFrom, h]

theorem wrapInt_ofNat (n : Nat) (h : n < 9223372036854775808) : wrapInt (n : Int) = n :=
  wrapInt_eq _ (by omega) (by omega)

theorem wrapInt_mul (n k : Nat) (hn : n < 4294967296) (hk : k ≤ 12) :
    wrapInt (wrapInt (n : Int) * (k : Int)) = ((n * k : Nat) : Int) := by
  rw [wrapInt_ofNat n (by omega)]
  have h : n * k ≤ 4294967296 * 12 := Nat.mul_le_mul (by omega) hk
  rw [← Int.ofNat_mul]
  exact wrapInt_ofNat _ (by omega)

/-! ## The loop body of `parseEXIFInfo` -/

theorem componentSize_le (dataFormat : Nat) : componentSize dataFormat ≤ 8 := by
  unfold componentSize
  split_ifs <;> omega

/-- For a 32-bit count no step of `getValueSize` wraps: the result is the
exact product of the count and the component size. -/
theorem getValueSize_eq (dataFormat count : Nat) (h : count < 4294967296) :
    getValueSize dataFormat count = ((count * componentSize dataFormat : Nat) : Int) := by
  have h1 := wrapInt_ofNat count (by omega)
  have h2 := wrapInt_mul count 2 h (by omega)
  have h4 := wrapInt_mul count 4 h (by omega)
  have h8 := wrapInt_mul count 8 h (by omega)
  simp only [Nat.cast_ofNat] at h2 h4 h8
  unfold getValueSize componentSize
  split_ifs
  · simp [h1]
  · exact h2
  · exact h4
  · exact h8
  · simp

theorem decodeTagValue_total (fmtFloat : Nat → Nat → GoString) (format : Nat)
    (data : List UInt8) (endian : ByteOrder) :
    ∃ v, decodeTagValue fmtFloat format data endian = Go.ret v := by
  unfold decodeTagValue
  split_ifs with h2 h3 hl3 h4 hl4 h5 hl5
  · exact ⟨_, rfl⟩
  · rw [Uint16_eq endian data hl3]; exact ⟨_, rfl⟩
  · exact ⟨_, rfl⟩
  · rw [Uint32_eq endian data hl4]; exact ⟨_, rfl⟩
  · exact ⟨_, rfl⟩
  · rw [slice_eq data 0 4 (by omega) (by omega) (by omega),
      slice_eq data 4 8 (by omega) (by omega) (by omega)]
    simp only [Go.ret_bind]
    rw [Uint32_eq endian _ (by simp; omega)]
    simp only [Go.ret_bind]
    rw [Uint32_eq endian _ (by simp; omega)]
    simp only [Go.ret_bind]
    split_ifs <;> exact ⟨_, rfl⟩
  · exact ⟨_, rfl⟩
  · exact ⟨_, rfl⟩

theorem dispatchEntry_total (fmtFloat : Nat → Nat → GoString) (endian : ByteOrder)
    (payload : ExifPayload) (tagID dataFormat : Nat) (tagValue : List UInt8) :
    ∃ p, dispatchEntry fmtFloat endian payload tagID dataFormat tagValue = Go.ret p := by
  unfold dispatchEntry
  obtain ⟨v, hv⟩ := decodeTagValue_total fmtFloat dataFormat tagValue endian
  simp only [hv, Go.ret_bind]
  split_ifs <;> exact ⟨_, rfl⟩


theorem getD_take_drop (a : List UInt8) (k hi j : Nat) (h : k + j < hi) :
    ((a.take hi).drop k).getD j 0 = a.getD (k + j) 0 := by
  simp only [List.getD_eq_getElem?_getD, List.getElem?_drop, List.getElem?_take, h, if_true]

theorem u16At_take_drop (endian : ByteOrder) (a : List UInt8) (k hi j : Nat)
    (h : k + j + 2 ≤ hi) : u16At endian ((a.take hi).drop k) j = u16At endian a (k + j) := by
  unfold u16At
  rw [getD_take_drop a k hi j (by omega), getD_take_drop a k hi (j + 1) (by omega)]
  rfl

theorem u32At_take_drop (endian : ByteOrder) (a : List UInt8) (k hi j : Nat)
    (h : k + j + 4 ≤ hi) : u32At endian ((a.take hi).drop k) j = u32At endian a (k + j) := by
  unfold u32At
  rw [getD_take_drop a k hi j (by omega), getD_take_drop a k hi (j + 1) (by omega),
    getD_take_drop a k hi (j + 2) (by omega), getD_take_drop a k hi (j + 3) (by omega)]
  rfl


theorem entry_read16 (endian : ByteOrder) (ifdData : List UInt8) (s j : Nat)
    (hj : j + 2 ≤ 12) (hb : s + 12 ≤ ifdData.length) :
    (slice ((ifdData.take (s + 12)).drop s) (Int.ofNat j) (Int.ofNat (j + 2))) =
      Go.ret ((((ifdData.take (s + 12)).drop s).take (j + 2)).drop j) ∧
    endian.Uint16 ((((ifdData.take (s + 12)).drop s).take (j + 2)).drop j) =
      Go.ret (u16At endian ifdData (s + j)) := by
  have hlen : ((ifdData.take (s + 12)).drop s).length = 12 := by
    simp only [List.length_drop, List.length_take]; omega
  constructor
  · rw [slice_eq _ (Int.ofNat j) (Int.ofNat (j + 2)) (Int.ofNat_nonneg _) (by simp)
      (by rw [hlen]; simp; omega)]
    simp only [Int.ofNat_eq_coe, Int.toNat_ofNat]
  · rw [Uint16_eq endian _ (by simp only [List.length_drop, List.length_take, hlen]; omega),
      u16At_take_drop endian _ j (j + 2) 0 (by omega),
      u16At_take_drop endian ifdData s (s + 12) (j + 0) (by omega)]
    rfl

theorem entry_read32 (endian : ByteOrder) (ifdData : List UInt8) (s j : Nat)
    (hj : j + 4 ≤ 12) (hb : s + 12 ≤ ifdData.length) :
    (slice ((ifdData.take (s + 12)).drop s) (Int.ofNat j) (Int.ofNat (j + 4))) =
      Go.ret ((((ifdData.take (s + 12)).drop s).take (j + 4)).drop j) ∧
    endian.Uint32 ((((ifdData.take (s + 12)).drop s).take (j + 4)).drop j) =
      Go.ret (u32At endian ifdData (s + j)) := by
  have hlen : ((ifdData.take (s + 12)).drop s).length = 12 := by
    simp only [List.length_drop, List.length_take]; omega
  constructor
  · rw [slice_eq _ (Int.ofNat j) (Int.ofNat (j + 4)) (Int.ofNat_nonneg _) (by simp)
      (by rw [hlen]; simp; omega)]
    simp only [Int.ofNat_eq_coe, Int.toNat_ofNat]
  · rw [Uint32_eq endian _ (by simp only [List.length_drop, List.length_take, hlen]; omega),
      u32At_take_drop endian _ j (j + 4) 0 (by omega),
      u32At_take_drop endian ifdData s (s + 12) (j + 0) (by omega)]
    rfl

theorem take_add_drop (a : List UInt8) (k n : Nat) :
    (a.take (k + n)).drop k = (a.drop k).take n := by
  rw [List.drop_take]; simp

theorem window_window (a : List UInt8) (s w lo hi : Nat) (h : hi ≤ w) (hlo : lo ≤ hi) :
    (((a.take (s + w)).drop s).take hi).drop lo = (a.drop (s + lo)).take (hi - lo) := by
  rw [take_add_drop, List.drop_take, List.drop_take, List.take_take, List.drop_drop]
  congr 1; omega

theorem entrySize_le (endian : ByteOrder) (ifdData : List UInt8) (i : Nat) :
    entrySize endian ifdData i ≤ 4294967295 * 8 := by
  unfold entrySize entryComponents
  have h1 := u32At_lt endian ifdData (2 + 12 * i + 4)
  have h2 := componentSize_le (entryFormat endian ifdData i)
  exact Nat.mul_le_mul (by omega) h2

theorem wrapInt_add_nat (a b : Nat) (h : a + b < 9223372036854775808) :
    wrapInt ((a : Int) + (b : Int)) = ((a + b : Nat) : Int) := by
  rw [wrapInt_eq _ (by omega) (by omega)]; push_cast; ring

theorem wrapInt_lit_add (a : Int) (n : Nat) (b : Nat) (ha : a = (n : Int))
    (h : n + b < 9223372036854775808) : wrapInt (a + (b : Int)) = ((n + b : Nat) : Int) := by
  subst ha; exact wrapInt_add_nat n b h

theorem entryStart_eq (i : Nat) (hi : i < 65536) :
    wrapInt (2 + wrapInt ((i : Int) * 12)) = ((2 + 12 * i : Nat) : Int) := by
  rw [wrapInt_eq ((i : Int) * 12) (by omega) (by omega), wrapInt_eq _ (by omega) (by omega)]
  push_cast; ring

theorem entryEnd_eq (i : Nat) (hi : i < 65536) :
    wrapInt (((2 + 12 * i : Nat) : Int) + 12) = ((2 + 12 * i + 12 : Nat) : Int) := by
  rw [wrapInt_eq _ (by omega) (by omega)]; push_cast; ring

theorem entry_slice (ifdData : List UInt8) (s : Nat) (hb : s + 12 ≤ ifdData.length) :
    slice ifdData ((s : Nat) : Int) ((s + 12 : Nat) : Int) =
      Go.ret ((ifdData.take (s + 12)).drop s) := by
  rw [slice_eq _ _ _ (by omega) (by omega) (by omega)]
  simp only [Int.toNat_ofNat]

theorem inline_slice (ifdData : List UInt8) (s size : Nat) (hb : s + 12 ≤ ifdData.length)
    (h4 : size ≤ 4) :
    slice ((ifdData.take (s + 12)).drop s) 8 ((8 + size : Nat) : Int) =
      Go.ret ((ifdData.drop (s + 8)).take size) := by
  have hlen : ((ifdData.take (s + 12)).drop s).length = 12 := by
    simp only [List.length_drop, List.length_take]; omega
  rw [slice_eq _ 8 ((8 + size : Nat) : Int) (by omega) (by omega) (by rw [hlen]; omega)]
  have h8 : (8 : Int).toNat = 8 := rfl
  rw [h8, Int.toNat_ofNat, window_window ifdData s 12 8 (8 + size) (by omega) (by omega)]
  have hsub : 8 + size - 8 = size := by omega
  rw [hsub]

theorem offset_slice (data : List UInt8) (k size : Nat) (h : k + size ≤ data.length) :
    slice data ((k : Nat) : Int) ((k + size : Nat) : Int) = Go.ret ((data.drop k).take size) := by
  rw [slice_eq _ _ _ (by omega) (by omega) (by omega)]
  simp only [Int.toNat_ofNat]
  rw [take_add_drop]

theorem processEntry_oob (fmtFloat : Nat → Nat → GoString) (data ifdData : List UInt8)
    (endian : ByteOrder) (i : Nat) (payload : ExifPayload) (hi : i < 65536)
    (hb : ifdData.length < 2 + 12 * i + 12) :
    processEntry fmtFloat data ifdData endian i payload = Go.ret payload := by
  have hg : ((2 + 12 * i + 12 : Nat) : Int) > ((ifdData.length : Nat) : Int) := by omega
  unfold processEntry
  simp only [entryStart_eq i hi, entryEnd_eq i hi]
  rw [if_pos hg]

/-- The loop body on an in-bounds entry, in terms of the entry's fields. -/
theorem processEntry_eq (fmtFloat : Nat → Nat → GoString) (data ifdData : List UInt8)
    (endian : ByteOrder) (i : Nat) (payload : ExifPayload) (hi : i < 65536)
    (hb : 2 + 12 * i + 12 ≤ ifdData.length) :
    processEntry fmtFloat data ifdData endian i payload =
      if entrySize endian ifdData i = 0 then Go.ret payload
      else
        match entryValue endian data ifdData i with
        | none => Go.ret payload
        | some tagValue =>
          dispatchEntry fmtFloat endian payload (entryTag endian ifdData i)
            (entryFormat endian ifdData i) tagValue := by
  have hsz := entrySize_le endian ifdData i
  have hoff : entryOffset endian ifdData i < 4294967296 := u32At_lt endian ifdData _
  have e0 := entry_read16 endian ifdData (2 + 12 * i) 0 (by omega) hb
  have e2 := entry_read16 endian ifdData (2 + 12 * i) 2 (by omega) hb
  have e4 := entry_read32 endian ifdData (2 + 12 * i) 4 (by omega) hb
  have e8 := entry_read32 endian ifdData (2 + 12 * i) 8 (by omega) hb
  have hng : ¬ (((2 + 12 * i + 12 : Nat) : Int) > ((ifdData.length : Nat) : Int)) := by omega
  unfold processEntry
  simp only [entryStart_eq i hi, entryEnd_eq i hi]
  rw [if_neg hng]
  simp only [entry_slice ifdData (2 + 12 * i) hb, Go.ret_bind]
  erw [e0.1]
  simp only [Go.ret_bind, e0.2]
  erw [e2.1]
  simp only [Go.ret_bind, e2.2]
  erw [e4.1]
  simp only [Go.ret_bind, e4.2]
  erw [e8.1]
  simp only [Go.ret_bind, e8.2,
    getValueSize_eq _ _ (u32At_lt endian ifdData (2 + 12 * i + 4))]
  clear e0 e2 e4 e8 hng
  have htag : u16At endian ifdData (2 + 12 * i + 0) = entryTag endian ifdData i := rfl
  have hfmt : u16At endian ifdData (2 + 12 * i + 2) = entryFormat endian ifdData i := rfl
  have hcnt : u32At endian ifdData (2 + 12 * i + 4) = entryComponents endian ifdData i := rfl
  have hof : u32At endian ifdData (2 + 12 * i + 8) = entryOffset endian ifdData i := rfl
  rw [htag, hfmt, hof, hcnt]
  have hsize : entryComponents endian ifdData i * componentSize (entryFormat endian ifdData i)
      = entrySize endian ifdData i := rfl
  rw [hsize]
  clear htag hfmt hcnt hof hsize
  unfold entryValue
  generalize entrySize endian ifdData i = size at hsz ⊢
  generalize entryOffset endian ifdData i = off at hoff ⊢
  by_cases h0 : size = 0
  · have h0i : ((size : Nat) : Int) = 0 := by omega
    rw [if_pos h0i, if_pos h0]
  · have h0i : ¬ ((size : Nat) : Int) = 0 := by omega
    rw [if_neg h0i, if_neg h0]
    by_cases h4 : size ≤ 4
    · have h4i : ((size : Nat) : Int) ≤ 4 := by omega
      rw [if_pos h4i, if_pos h4, wrapInt_lit_add 8 8 size rfl (by omega),
        inline_slice ifdData (2 + 12 * i) size hb h4]
      simp only [Go.ret_bind]
    · have h4i : ¬ ((size : Nat) : Int) ≤ 4 := by omega
      rw [if_neg h4i, if_neg h4, wrapInt_lit_add tiffStart 6 off rfl (by omega),
        wrapInt_add_nat (6 + off) size (by omega)]
      by_cases hd : data.length < 6 + off + size
      · have hdi : ((6 + off + size : Nat) : Int) > ((data.length : Nat) : Int) := by omega
        rw [if_pos hdi, if_pos hd]
      · have hdi : ¬ ((6 + off + size : Nat) : Int) > ((data.length : Nat) : Int) := by omega
        rw [if_neg hdi, if_neg hd, offset_slice data (6 + off) size (by omega)]
        simp only [Go.ret_bind]

theorem processEntry_total (fmtFloat : Nat → Nat → GoString) (data ifdData : List UInt8)
    (endian : ByteOrder) (i : Nat) (payload : ExifPayload) (hi : i < 65536) :
    ∃ p, processEntry fmtFloat data ifdData endian i payload = Go.ret p := by
  by_cases hb : 2 + 12 * i + 12 ≤ ifdData.length
  · rw [processEntry_eq fmtFloat data ifdData endian i payload hi hb]
    split_ifs
    · exact ⟨_, rfl⟩
    · cases entryValue endian data ifdData i with
      | none => exact ⟨_, rfl⟩
      | some v => exact dispatchEntry_total fmtFloat endian payload _ _ v
  · exact ⟨_, processEntry_oob fmtFloat data ifdData endian i payload hi (by omega)⟩

theorem ifdLoop_zero (fmtFloat : Nat → Nat → GoString) (data ifdData : List UInt8)
    (endian : ByteOrder) (i : Nat) (payload : ExifPayload) :
    ifdLoop fmtFloat data ifdData endian 0 i payload = Go.ret payload := by
  rw [ifdLoop]

theorem ifdLoop_succ (fmtFloat : Nat → Nat → GoString) (data ifdData : List UInt8)
    (endian : ByteOrder) (n i : Nat) (payload : ExifPayload) :
    ifdLoop fmtFloat data ifdData endian (n + 1) i payload =
      (processEntry fmtFloat data ifdData endian i payload >>= fun payload1 =>
        ifdLoop fmtFloat data ifdData endian n (i + 1) payload1) := by
  rw [ifdLoop]

/-- The IFD loop always runs to completion: no entry makes it panic. -/
theorem ifdLoop_total (fmtFloat : Nat → Nat → GoString) (data ifdData : List UInt8)
    (endian : ByteOrder) :
    ∀ (n i : Nat) (payload : ExifPayload), i + n ≤ 65536 →
      ∃ p, ifdLoop fmtFloat data ifdData endian n i payload = Go.ret p := by
  intro n
  induction n with
  | zero => intro i payload _; exact ⟨payload, ifdLoop_zero _ _ _ _ _ _⟩
  | succ n ih =>
    intro i payload h
    obtain ⟨p1, hp1⟩ := processEntry_total fmtFloat data ifdData endian i payload (by omega)
    obtain ⟨p2, hp2⟩ := ih (i + 1) p1 (by omega)
    refine ⟨p2, ?_⟩
    rw [ifdLoop_succ, hp1, Go.ret_bind]
    exact hp2

theorem getD_drop (a : List UInt8) (k j : Nat) : (a.drop k).getD j 0 = a.getD (k + j) 0 := by
  simp only [List.getD_eq_getElem?_getD, List.getElem?_drop]

theorem u16At_drop (endian : ByteOrder) (a : List UInt8) (k j : Nat) :
    u16At endian (a.drop k) j = u16At endian a (k + j) := by
  unfold u16At
  rw [getD_drop, getD_drop]
  rfl

theorem u32At_drop (endian : ByteOrder) (a : List UInt8) (k j : Nat) :
    u32At endian (a.drop k) j = u32At endian a (k + j) := by
  unfold u32At
  rw [getD_drop, getD_drop, getD_drop, getD_drop]
  rfl

theorem ifdIndex_eq (off : Nat) (h : off < 4294967296) :
    wrapInt (tiffStart + (off : Int)) = ((6 + off : Nat) : Int) :=
  wrapInt_lit_add tiffStart 6 off rfl (by omega)

theorem ifdIndexEnd_eq (off : Nat) (h : off < 4294967296) :
    wrapInt (((6 + off : Nat) : Int) + 2) = ((6 + off + 2 : Nat) : Int) := by
  rw [wrapInt_eq _ (by omega) (by omega)]; push_cast; ring

/-- The part of `parseEXIFInfo` after the byte-order switch, on an 8-byte
TIFF header. -/
theorem parseTIFF_eq (fmtFloat : Nat → Nat → GoString) (data hdr : List UInt8)
    (endian : ByteOrder) (hlen : hdr.length = 8) :
    parseTIFF fmtFloat data hdr endian =
      if u16At endian hdr 2 ≠ 42 then
        Go.ret (Except.error (DecodeError.invalidMagic (u16At endian hdr 2)))
      else if data.length < 6 + u32At endian hdr 4 + 2 then
        Go.ret (Except.error DecodeError.ifdOffsetOutOfBounds)
      else
        (ifdLoop fmtFloat data (data.drop (6 + u32At endian hdr 4)) endian
          (u16At endian (data.drop (6 + u32At endian hdr 4)) 0) 0 {}) >>=
          fun p => Go.ret (Except.ok p) := by
  have hoff := u32At_lt endian hdr 4
  have hmagic : slice hdr 2 4 = Go.ret ((hdr.take 4).drop 2) :=
    slice_eq hdr 2 4 (by omega) (by omega) (by omega)
  have hm16 : endian.Uint16 ((hdr.take 4).drop 2) = Go.ret (u16At endian hdr 2) := by
    rw [Uint16_eq endian _ (by simp only [List.length_drop, List.length_take]; omega),
      u16At_take_drop endian hdr 2 4 0 (by omega)]
  have hofs : sliceFrom hdr 4 = Go.ret (hdr.drop 4) :=
    sliceFrom_eq hdr 4 (by omega) (by omega)
  have ho32 : endian.Uint32 (hdr.drop 4) = Go.ret (u32At endian hdr 4) := by
    rw [Uint32_eq endian _ (by simp only [List.length_drop]; omega), u32At_drop]
  unfold parseTIFF
  simp only [hmagic, Go.ret_bind, hm16]
  by_cases hm : u16At endian hdr 2 = 42
  · have hne : ¬ (u16At endian hdr 2 ≠ 42) := fun h => h hm
    simp only [if_neg hne, hofs, Go.ret_bind, ho32, ifdIndex_eq _ hoff, ifdIndexEnd_eq _ hoff]
    generalize u32At endian hdr 4 = off at hoff ⊢
    by_cases hd : data.length < 6 + off + 2
    · have hdi : ((6 + off + 2 : Nat) : Int) > ((data.length : Nat) : Int) := by omega
      rw [if_pos hdi, if_pos hd]
    · have hdi : ¬ ((6 + off + 2 : Nat) : Int) > ((data.length : Nat) : Int) := by omega
      rw [if_neg hdi, if_neg hd, sliceFrom_eq data _ (by omega) (by omega)]
      simp only [Go.ret_bind, Int.toNat_ofNat]
      have hcnt : slice (data.drop (6 + off)) 0 2 =
          Go.ret (((data.drop (6 + off)).take 2).drop 0) :=
        slice_eq _ 0 2 (by omega) (by omega) (by simp only [List.length_drop]; omega)
      have hc16 : endian.Uint16 (((data.drop (6 + off)).take 2).drop 0) =
          Go.ret (u16At endian (data.drop (6 + off)) 0) := by
        rw [Uint16_eq endian _ (by simp only [List.length_drop, List.length_take]; omega),
          u16At_take_drop endian _ 0 2 0 (by omega)]
      simp only [hcnt, Go.ret_bind, hc16]
  · have hne : u16At endian hdr 2 ≠ 42 := hm
    simp only [if_pos hne]

/-! ## The TIFF header and the claims on `parseEXIFInfo` -/

theorem exists_cons_of_succ_le (l : List UInt8) (n : Nat) (h : n + 1 ≤ l.length) :
    ∃ a t, l = a :: t ∧ n ≤ t.length := by
  cases l with
  | nil => simp at h
  | cons a t => exact ⟨a, t, rfl, by simpa using h⟩

/-- A block of at least 14 bytes starts with 14 explicit bytes. -/
theorem exists_header (data : List UInt8) (h : 14 ≤ data.length) :
    ∃ d0 d1 d2 d3 d4 d5 d6 d7 d8 d9 d10 d11 d12 d13 rest,
      data = d0 :: d1 :: d2 :: d3 :: d4 :: d5 :: d6 :: d7 :: d8 :: d9 :: d10 :: d11 :: d12 ::
        d13 :: rest := by
  obtain ⟨d0, t0, rfl, h0⟩ := exists_cons_of_succ_le data 13 (by omega)
  obtain ⟨d1, t1, rfl, h1⟩ := exists_cons_of_succ_le t0 12 (by omega)
  obtain ⟨d2, t2, rfl, h2⟩ := exists_cons_of_succ_le t1 11 (by omega)
  obtain ⟨d3, t3, rfl, h3⟩ := exists_cons_of_succ_le t2 10 (by omega)
  obtain ⟨d4, t4, rfl, h4⟩ := exists_cons_of_succ_le t3 9 (by omega)
  obtain ⟨d5, t5, rfl, h5⟩ := exists_cons_of_succ_le t4 8 (by omega)
  obtain ⟨d6, t6, rfl, h6⟩ := exists_cons_of_succ_le t5 7 (by omega)
  obtain ⟨d7, t7, rfl, h7⟩ := exists_cons_of_succ_le t6 6 (by omega)
  obtain ⟨d8, t8, rfl, h8⟩ := exists_cons_of_succ_le t7 5 (by omega)
  obtain ⟨d9, t9, rfl, h9⟩ := exists_cons_of_succ_le t8 4 (by omega)
  obtain ⟨d10, t10, rfl, h10⟩ := exists_cons_of_succ_le t9 3 (by omega)
  obtain ⟨d11, t11, rfl, h11⟩ := exists_cons_of_succ_le t10 2 (by omega)
  obtain ⟨d12, t12, rfl, h12⟩ := exists_cons_of_succ_le t11 1 (by omega)
  obtain ⟨d13, t13, rfl, h13⟩ := exists_cons_of_succ_le t12 0 (by omega)
  exact ⟨d0, d1, d2, d3, d4, d5, d6, d7, d8, d9, d10, d11, d12, d13, t13, rfl⟩

theorem bothEqual_pair (a b v : UInt8) :
    bothEqual [a, b] v = Go.ret (decide (a = v ∧ b = v)) := by
  unfold bothEqual
  by_cases ha : a = v
  · by_cases hb : b = v
    · simp [index, ha, hb]
    · simp [index, ha, hb]
  · simp [index, ha]

/-- On a block of at least 14 bytes `parseEXIFInfo` checks the identifier,
picks the byte order and hands over to the TIFF part. -/
theorem parseEXIFInfo_header (fmtFloat : Nat → Nat → GoString) (data : List UInt8)
    (h14 : 14 ≤ data.length) :
    parseEXIFInfo fmtFloat data =
      if data.take 6 ≠ exifIdentifier then Go.ret (Except.error DecodeError.invalidExifHeader)
      else
        match byteOrderMark data with
        | none => Go.ret (Except.error DecodeError.unknownByteOrder)
        | some endian => parseTIFF fmtFloat data ((data.take 14).drop 6) endian := by
  obtain ⟨d0, d1, d2, d3, d4, d5, d6, d7, d8, d9, d10, d11, d12, d13, rest, rfl⟩ :=
    exists_header data h14
  have hlen : ¬ (d0 :: d1 :: d2 :: d3 :: d4 :: d5 :: d6 :: d7 :: d8 :: d9 :: d10 :: d11 ::
      d12 :: d13 :: rest).length < 14 := by simp
  have hid : slice (d0 :: d1 :: d2 :: d3 :: d4 :: d5 :: d6 :: d7 :: d8 :: d9 :: d10 :: d11 ::
      d12 :: d13 :: rest) 0 6 = Go.ret [d0, d1, d2, d3, d4, d5] := by
    rw [slice_eq _ 0 6 (by omega) (by omega) (by simp only [List.length_cons]; omega)]; rfl
  have hth : slice (d0 :: d1 :: d2 :: d3 :: d4 :: d5 :: d6 :: d7 :: d8 :: d9 :: d10 :: d11 ::
      d12 :: d13 :: rest) tiffStart (tiffStart + 8) =
      Go.ret [d6, d7, d8, d9, d10, d11, d12, d13] := by
    rw [slice_eq _ tiffStart (tiffStart + 8) (by decide) (by decide)
      (by simp only [List.length_cons, tiffStart]; omega)]; rfl
  have hbo : slice [d6, d7, d8, d9, d10, d11, d12, d13] 0 2 = Go.ret [d6, d7] := by
    rw [slice_eq _ 0 2 (by omega) (by omega) (by simp only [List.length_cons]; omega)]; rfl
  unfold parseEXIFInfo
  rw [if_neg hlen]
  simp only [hid, Go.ret_bind, hth, hbo, bothEqual_pair]
  have ht6 : List.take 6 (d0 :: d1 :: d2 :: d3 :: d4 :: d5 :: d6 :: d7 :: d8 :: d9 :: d10 ::
      d11 :: d12 :: d13 :: rest) = [d0, d1, d2, d3, d4, d5] := rfl
  have ht14 : List.drop 6 (List.take 14 (d0 :: d1 :: d2 :: d3 :: d4 :: d5 :: d6 :: d7 :: d8 ::
      d9 :: d10 :: d11 :: d12 :: d13 :: rest)) = [d6, d7, d8, d9, d10, d11, d12, d13] := rfl
  rw [ht6, ht14]
  by_cases hx : [d0, d1, d2, d3, d4, d5] = exifIdentifier
  · have hnx : ¬ ([d0, d1, d2, d3, d4, d5] ≠ exifIdentifier) := fun h => h hx
    rw [if_neg hnx, if_neg hnx]
    unfold byteOrderMark
    simp only [List.get?_cons_succ, List.get?_cons_zero, Option.some.injEq]
    by_cases hII : d6 = 0x49 ∧ d7 = 0x49
    · simp only [hII, and_self, decide_True, if_true]
    · by_cases hMM : d6 = 0x4D ∧ d7 = 0x4D
      · obtain ⟨h6, h7⟩ := hMM
        subst h6 h7
        simp
      · simp only [hII, hMM, decide_False, if_false, Bool.false_eq_true]
  · have hnx : [d0, d1, d2, d3, d4, d5] ≠ exifIdentifier := hx
    rw [if_pos hnx, if_pos hnx]

/-- The whole of `parseEXIFInfo` on a block of at least 14 bytes. -/
theorem parseEXIFInfo_eq (fmtFloat : Nat → Nat → GoString) (data : List UInt8)
    (h14 : 14 ≤ data.length) :
    parseEXIFInfo fmtFloat data =
      if data.take 6 ≠ exifIdentifier then Go.ret (Except.error DecodeError.invalidExifHeader)
      else
        match byteOrderMark data with
        | none => Go.ret (Except.error DecodeError.unknownByteOrder)
        | some endian =>
          if u16At endian data 8 ≠ 42 then
            Go.ret (Except.error (DecodeError.invalidMagic (u16At endian data 8)))
          else if data.length < 6 + firstIfdOffset endian data + 2 then
            Go.ret (Except.error DecodeError.ifdOffsetOutOfBounds)
          else
            (ifdLoop fmtFloat data (ifdBytes endian data) endian (ifdEntryCount endian data)
              0 {}) >>= fun p => Go.ret (Except.ok p) := by
  rw [parseEXIFInfo_header fmtFloat data h14]
  have hl : ((data.take 14).drop 6).length = 8 := by
    simp only [List.length_drop, List.length_take]; omega
  have h16 : ∀ endian, u16At endian ((data.take 14).drop 6) 2 = u16At endian data 8 :=
    fun endian => u16At_take_drop endian data 6 14 2 (by omega)
  have h32 : ∀ endian, u32At endian ((data.take 14).drop 6) 4 = u32At endian data 10 :=
    fun endian => u32At_take_drop endian data 6 14 4 (by omega)
  by_cases hx : data.take 6 ≠ exifIdentifier
  · rw [if_pos hx, if_pos hx]
  · rw [if_neg hx, if_neg hx]
    cases hbo : byteOrderMark data with
    | none => rfl
    | some endian =>
      simp only []
      rw [parseTIFF_eq fmtFloat data _ endian hl, h16, h32]
      rfl

/-- C7: on an EXIF block of at least 14 bytes, `parseEXIFInfo` returns an
error exactly when the identifier is not `Exif\0\0`, or bytes 6-7 are neither
`II` nor `MM`, or the magic number read in the detected order is not 42, or
6 + firstIfdOffset + 2 exceeds the block length; in every other case it
returns a record (it never panics), whatever the IFD entries hold. -/
theorem parseEXIFInfo_error_iff (fmtFloat : Nat → Nat → GoString) (data : List UInt8)
    (h14 : 14 ≤ data.length) :
    ((∃ err, parseEXIFInfo fmtFloat data = Go.ret (Except.error err)) ↔
      (data.take 6 ≠ exifIdentifier ∨ byteOrderMark data = none ∨
        ∃ endian, byteOrderMark data = some endian ∧
          (u16At endian data 8 ≠ 42 ∨ data.length < 6 + firstIfdOffset endian data + 2))) ∧
    (¬ (data.take 6 ≠ exifIdentifier ∨ byteOrderMark data = none ∨
        ∃ endian, byteOrderMark data = some endian ∧
          (u16At endian data 8 ≠ 42 ∨ data.length < 6 + firstIfdOffset endian data + 2)) →
      ∃ p, parseEXIFInfo fmtFloat data = Go.ret (Except.ok p)) := by
  rw [parseEXIFInfo_eq fmtFloat data h14]
  by_cases hx : data.take 6 ≠ exifIdentifier
  · rw [if_pos hx]
    exact ⟨⟨fun _ => Or.inl hx, fun _ => ⟨_, rfl⟩⟩, fun h => absurd (Or.inl hx) h⟩
  · rw [if_neg hx]
    cases hbo : byteOrderMark data with
    | none =>
      exact ⟨⟨fun _ => Or.inr (Or.inl rfl), fun _ => ⟨_, rfl⟩⟩,
        fun h => absurd (Or.inr (Or.inl rfl)) h⟩
    | some endian =>
      simp only []
      by_cases hm : u16At endian data 8 ≠ 42
      · rw [if_pos hm]
        exact ⟨⟨fun _ => Or.inr (Or.inr ⟨endian, rfl, Or.inl hm⟩), fun _ => ⟨_, rfl⟩⟩,
          fun h => absurd (Or.inr (Or.inr ⟨endian, rfl, Or.inl hm⟩)) h⟩
      · rw [if_neg hm]
        by_cases hd : data.length < 6 + firstIfdOffset endian data + 2
        · rw [if_pos hd]
          exact ⟨⟨fun _ => Or.inr (Or.inr ⟨endian, rfl, Or.inr hd⟩),
            fun _ => ⟨_, rfl⟩⟩,
            fun h => absurd (Or.inr (Or.inr ⟨endian, rfl, Or.inr hd⟩)) h⟩
        · rw [if_neg hd]
          obtain ⟨p, hp⟩ := ifdLoop_total fmtFloat data (ifdBytes endian data) endian
            (ifdEntryCount endian data) 0 {}
            (by have := u16At_lt endian (ifdBytes endian data) 0; unfold ifdEntryCount; omega)
          rw [hp, Go.ret_bind]
          refine ⟨⟨fun h => ?_, fun h => ?_⟩, fun _ => ⟨p, rfl⟩⟩
          · obtain ⟨err, herr⟩ := h
            cases herr
          · rcases h with h | h | ⟨e2, he2, h⟩
            · exact absurd h hx
            · cases h
            · cases he2
              rcases h with h | h
              · exact absurd h hm
              · exact absurd h hd

theorem parseEXIFInfo_error_iff_witness :
    14 ≤ badMagicBlock.length ∧
    (∃ err, parseEXIFInfo sampleFmtFloat badMagicBlock = Go.ret (Except.error err)) ∧
    14 ≤ minimalBlock.length ∧
    (∃ p, parseEXIFInfo sampleFmtFloat minimalBlock = Go.ret (Except.ok p)) :=
  ⟨by decide,
    (parseEXIFInfo_error_iff sampleFmtFloat badMagicBlock (by decide)).1.mpr
      (Or.inr (Or.inr ⟨ByteOrder.LittleEndian, by decide, Or.inl (by decide)⟩)),
    by decide,
    (parseEXIFInfo_error_iff sampleFmtFloat minimalBlock (by decide)).2 (by
      rintro (h | h | ⟨endian, h1, h2⟩)
      · exact h (by decide)
      · exact absurd h (by decide)
      · have he : endian = ByteOrder.LittleEndian := by
          have h3 : byteOrderMark minimalBlock = some ByteOrder.LittleEndian := by decide
          rw [h3] at h1
          exact (Option.some.inj h1).symm
        subst he
        rcases h2 with h2 | h2
        · exact h2 (by decide)
        · exact absurd h2 (by decide))⟩

/-- C8: a block with a valid identifier, a valid TIFF header (either byte
order, magic 42, in-bounds IFD offset) and an IFD declaring 0 entries decodes
to the record with all 39 fields empty, whatever its other bytes. -/
theorem parseEXIFInfo_no_entries (fmtFloat : Nat → Nat → GoString) (data : List UInt8)
    (endian : ByteOrder) (h14 : 14 ≤ data.length) (hid : data.take 6 = exifIdentifier)
    (hbo : byteOrderMark data = some endian) (hmagic : u16At endian data 8 = 42)
    (hifd : 6 + firstIfdOffset endian data + 2 ≤ data.length)
    (hcount : ifdEntryCount endian data = 0) :
    parseEXIFInfo fmtFloat data = Go.ret (Except.ok {}) := by
  rw [parseEXIFInfo_eq fmtFloat data h14, if_neg (fun h => h hid), hbo]
  simp only []
  rw [if_neg (fun h => h hmagic), if_neg (by omega), hcount, ifdLoop_zero, Go.ret_bind]

theorem parseEXIFInfo_no_entries_witness :
    parseEXIFInfo sampleFmtFloat minimalBlock = Go.ret (Except.ok {}) :=
  parseEXIFInfo_no_entries sampleFmtFloat minimalBlock ByteOrder.LittleEndian
    (by decide) (by decide) (by decide) (by decide) (by decide) (by decide)

/-- C9 as stated fails: with the six bytes `Canon\0` written from the entry's
value/offset field on (count 6, so the value size 6 exceeds the 4-byte
field), the field is read as an offset that lies outside the block, the
entry is skipped and Make stays empty. -/
theorem parseEXIFInfo_canon_inline :
    parseEXIFInfo sampleFmtFloat canonInlineBlock = Go.ret (Except.ok {}) ∧
    ¬ ∃ p, parseEXIFInfo sampleFmtFloat canonInlineBlock = Go.ret (Except.ok p) ∧
      p.Make = ascii "Canon" := by
  have h : parseEXIFInfo sampleFmtFloat canonInlineBlock = Go.ret (Except.ok {}) := by decide!
  refine ⟨h, ?_⟩
  rintro ⟨p, hp, hmake⟩
  rw [h] at hp
  cases hp
  exact absurd hmake (by decide)

/-- The six bytes `Canon\0` decode as ascii to `Canon` and are assigned to
Make. -/
theorem dispatchEntry_canon (fmtFloat : Nat → Nat → GoString) (endian : ByteOrder) :
    dispatchEntry fmtFloat endian {} 0x010F 2 (ascii "Canon" ++ [0]) =
      Go.ret { Make := ascii "Canon" } := by
  cases endian <;> rfl

/-- C9 amended: a valid block (either byte order) whose IFD holds one entry
with tag 0x010F (Make), format 2 (ascii), count 6, and whose value/offset
field holds the offset (relative to the TIFF header) of the six bytes
`Canon\0` inside the block, decodes to the record with Make = `Canon` and
every other field empty. -/
theorem parseEXIFInfo_canon_offset (fmtFloat : Nat → Nat → GoString) (data : List UInt8)
    (endian : ByteOrder) (h14 : 14 ≤ data.length) (hid : data.take 6 = exifIdentifier)
    (hbo : byteOrderMark data = some endian) (hmagic : u16At endian data 8 = 42)
    (hifd : 6 + firstIfdOffset endian data + 2 ≤ data.length)
    (hcount : ifdEntryCount endian data = 1)
    (hentry : 2 + 12 ≤ (ifdBytes endian data).length)
    (htag : entryTag endian (ifdBytes endian data) 0 = 0x010F)
    (hfmt : entryFormat endian (ifdBytes endian data) 0 = 2)
    (hcnt : entryComponents endian (ifdBytes endian data) 0 = 6)
    (hfit : 6 + entryOffset endian (ifdBytes endian data) 0 + 6 ≤ data.length)
    (hval : (data.drop (6 + entryOffset endian (ifdBytes endian data) 0)).take 6 =
      ascii "Canon" ++ [0]) :
    parseEXIFInfo fmtFloat data = Go.ret (Except.ok { Make := ascii "Canon" }) := by
  have hsize : entrySize endian (ifdBytes endian data) 0 = 6 := by
    unfold entrySize; rw [hfmt, hcnt]; rfl
  have hv : entryValue endian data (ifdBytes endian data) 0 = some (ascii "Canon" ++ [0]) := by
    unfold entryValue
    rw [hsize, if_neg (by omega), if_neg (by omega), hval]
  have hstep : processEntry fmtFloat data (ifdBytes endian data) endian 0 {} =
      Go.ret { Make := ascii "Canon" } := by
    rw [processEntry_eq fmtFloat data (ifdBytes endian data) endian 0 {} (by omega)
      (by omega), hsize, if_neg (by omega), hv, htag, hfmt]
    exact dispatchEntry_canon fmtFloat endian
  rw [parseEXIFInfo_eq fmtFloat data h14, if_neg (fun h => h hid), hbo]
  simp only []
  rw [if_neg (fun h => h hmagic), if_neg (by omega), hcount, ifdLoop_succ, hstep, Go.ret_bind,
    ifdLoop_zero, Go.ret_bind]

theorem parseEXIFInfo_canon_offset_witness :
    parseEXIFInfo sampleFmtFloat canonOffsetBlock = Go.ret (Except.ok { Make := ascii "Canon" }) :=
  parseEXIFInfo_canon_offset sampleFmtFloat canonOffsetBlock ByteOrder.LittleEndian
    (by decide) (by decide) (by decide) (by decide) (by decide) (by decide) (by decide)
    (by decide) (by decide) (by decide) (by decide) (by decide)

theorem u32At_drop_take (endian : ByteOrder) (a : List UInt8) (k n j : Nat) (h : j + 4 ≤ n) :
    u32At endian ((a.drop k).take n) j = u32At endian a (k + j) := by
  rw [← take_add_drop, u32At_take_drop endian a k (k + n) j (by omega)]

/-- A rational whose denominator bytes read 0 decodes to the empty string. -/
theorem decodeTagValue_zero_den (fmtFloat : Nat → Nat → GoString) (endian : ByteOrder)
    (value : List UInt8) (hden : u32At endian value 4 = 0) :
    decodeTagValue fmtFloat 5 value endian = Go.ret [] := by
  unfold decodeTagValue
  rw [if_neg (by decide), if_neg (by decide), if_neg (by decide), if_pos rfl]
  by_cases hl : value.length ≥ 8
  · rw [if_pos hl, slice_eq value 0 4 (by omega) (by omega) (by omega),
      slice_eq value 4 8 (by omega) (by omega) (by omega)]
    simp only [Go.ret_bind]
    rw [Uint32_eq endian _ (by simp only [List.length_drop, List.length_take]; omega)]
    simp only [Go.ret_bind]
    rw [Uint32_eq endian _ (by simp only [List.length_drop, List.length_take]; omega)]
    simp only [Go.ret_bind]
    have h8 : (8 : Int).toNat = 8 := rfl
    have h4 : (4 : Int).toNat = 4 := rfl
    rw [h8, h4, u32At_take_drop endian value 4 8 0 (by omega), hden]
    simp only [ne_eq, not_true_eq_false, if_false]
  · rw [if_neg hl]

/-- An entry whose value decodes to the empty string leaves the record as it
is, whatever its tag. -/
theorem dispatchEntry_empty (fmtFloat : Nat → Nat → GoString) (endian : ByteOrder)
    (payload : ExifPayload) (tagID dataFormat : Nat) (tagValue : List UInt8)
    (h : decodeTagValue fmtFloat dataFormat tagValue endian = Go.ret []) :
    dispatchEntry fmtFloat endian payload tagID dataFormat tagValue = Go.ret payload := by
  unfold dispatchEntry
  simp only [h, Go.ret_bind, if_true, ite_self]

/-- C10: an in-bounds entry with format 5 (rational), one component, its 8
value bytes inside the block and a denominator of 0 (any numerator, tag and
byte order): the value bytes decode to the empty string, the loop body
returns the record unchanged, the IFD loop goes on with the next entry as if
the entry were not there, and it runs to completion, so that `parseEXIFInfo`
still returns a record. -/
theorem processEntry_zero_denominator (fmtFloat : Nat → Nat → GoString)
    (data ifdData : List UInt8) (endian : ByteOrder) (i : Nat) (payload : ExifPayload)
    (hi : i < 65536) (hb : 2 + 12 * i + 12 ≤ ifdData.length)
    (hfmt : entryFormat endian ifdData i = 5) (hcnt : entryComponents endian ifdData i = 1)
    (hfit : 6 + entryOffset endian ifdData i + 8 ≤ data.length)
    (hden : u32At endian data (6 + entryOffset endian ifdData i + 4) = 0) :
    entryValue endian data ifdData i =
      some ((data.drop (6 + entryOffset endian ifdData i)).take 8) ∧
    decodeTagValue fmtFloat 5 ((data.drop (6 + entryOffset endian ifdData i)).take 8) endian =
      Go.ret [] ∧
    processEntry fmtFloat data ifdData endian i payload = Go.ret payload ∧
    (∀ n, ifdLoop fmtFloat data ifdData endian (n + 1) i payload =
      ifdLoop fmtFloat data ifdData endian n (i + 1) payload) ∧
    (∀ n, i + (n + 1) ≤ 65536 →
      ∃ p, ifdLoop fmtFloat data ifdData endian (n + 1) i payload = Go.ret p) := by
  have hsize : entrySize endian ifdData i = 8 := by
    unfold entrySize; rw [hfmt, hcnt]; rfl
  have hval : entryValue endian data ifdData i =
      some ((data.drop (6 + entryOffset endian ifdData i)).take 8) := by
    unfold entryValue
    rw [hsize, if_neg (by omega), if_neg (by omega)]
  have hdec : decodeTagValue fmtFloat 5
      ((data.drop (6 + entryOffset endian ifdData i)).take 8) endian = Go.ret [] :=
    decodeTagValue_zero_den fmtFloat endian _
      (by rw [u32At_drop_take endian data _ 8 4 (by omega)]; exact hden)
  have hstep : processEntry fmtFloat data ifdData endian i payload = Go.ret payload := by
    rw [processEntry_eq fmtFloat data ifdData endian i payload hi hb, hsize,
      if_neg (by omega), hval, hfmt]
    exact dispatchEntry_empty fmtFloat endian payload _ 5 _ hdec
  refine ⟨hval, hdec, hstep, fun n => ?_, fun n hn => ?_⟩
  · rw [ifdLoop_succ, hstep, Go.ret_bind]
  · exact ifdLoop_total fmtFloat data ifdData endian (n + 1) i payload hn

theorem processEntry_zero_denominator_witness :
    processEntry sampleFmtFloat zeroDenominatorBlock (zeroDenominatorBlock.drop 14)
      ByteOrder.LittleEndian 0 { ExposureTime := ascii "0.005" } =
        Go.ret { ExposureTime := ascii "0.005" } ∧
    parseEXIFInfo sampleFmtFloat zeroDenominatorBlock = Go.ret (Except.ok {}) :=
  ⟨(processEntry_zero_denominator sampleFmtFloat zeroDenominatorBlock
      (zeroDenominatorBlock.drop 14) ByteOrder.LittleEndian 0 { ExposureTime := ascii "0.005" }
      (by decide) (by decide) (by decide) (by decide) (by decide) (by decide)).2.2.1,
    by decide!⟩

/-! ## Value sizes and bounds safety -/

/-- C17: for a 16-bit data format and a 32-bit count, `getValueSize` is the
exact product, no step wrapping in 64-bit `int`: the count for formats 1, 2,
6, 7, twice the count for 3, 8, four times for 4, 9, eight times for 5, 10,
and 0 for every other format. Hence the value size is 0, and the entry
skipped for it, exactly when the format is outside 1..10 or the count is 0. -/
theorem getValueSize_exact (f c : Nat) (hf : f < 65536) (hc : c < 4294967296) :
    ((f = 1 ∨ f = 2 ∨ f = 6 ∨ f = 7) → getValueSize f c = (c : Int)) ∧
    ((f = 3 ∨ f = 8) → getValueSize f c = 2 * (c : Int)) ∧
    ((f = 4 ∨ f = 9) → getValueSize f c = 4 * (c : Int)) ∧
    ((f = 5 ∨ f = 10) → getValueSize f c = 8 * (c : Int)) ∧
    (¬ (1 ≤ f ∧ f ≤ 10) → getValueSize f c = 0) ∧
    (getValueSize f c = 0 ↔ (¬ (1 ≤ f ∧ f ≤ 10) ∨ c = 0)) := by
  have h := getValueSize_eq f c hc
  have hcs : (f = 1 ∨ f = 2 ∨ f = 6 ∨ f = 7) → componentSize f = 1 := by
    intro h1; unfold componentSize; rw [if_pos h1]
  have hcs2 : (f = 3 ∨ f = 8) → componentSize f = 2 := by
    intro h1; unfold componentSize; rw [if_neg (by omega), if_pos h1]
  have hcs4 : (f = 4 ∨ f = 9) → componentSize f = 4 := by
    intro h1; unfold componentSize; rw [if_neg (by omega), if_neg (by omega), if_pos h1]
  have hcs8 : (f = 5 ∨ f = 10) → componentSize f = 8 := by
    intro h1; unfold componentSize
    rw [if_neg (by omega), if_neg (by omega), if_neg (by omega), if_pos h1]
  have hcs0 : ¬ (1 ≤ f ∧ f ≤ 10) → componentSize f = 0 := by
    intro h1; unfold componentSize
    rw [if_neg (by omega), if_neg (by omega), if_neg (by omega), if_neg (by omega)]
  generalize getValueSize f c = s at h
  generalize hk : componentSize f = k at h hcs hcs2 hcs4 hcs8 hcs0
  subst h
  refine ⟨fun h1 => ?_, fun h1 => ?_, fun h1 => ?_, fun h1 => ?_, fun h1 => ?_, ?_⟩
  · rw [hcs h1]; push_cast; ring
  · rw [hcs2 h1]; push_cast; ring
  · rw [hcs4 h1]; push_cast; ring
  · rw [hcs8 h1]; push_cast; ring
  · rw [hcs0 h1]; simp
  · by_cases hr : 1 ≤ f ∧ f ≤ 10
    · have hpos : 0 < k := by
        have : f = 1 ∨ f = 2 ∨ f = 3 ∨ f = 4 ∨ f = 5 ∨ f = 6 ∨ f = 7 ∨ f = 8 ∨ f = 9 ∨ f = 10 := by
          omega
        rcases this with h1 | h1 | h1 | h1 | h1 | h1 | h1 | h1 | h1 | h1
        · rw [hcs (by omega)]; omega
        · rw [hcs (by omega)]; omega
        · rw [hcs2 (by omega)]; omega
        · rw [hcs4 (by omega)]; omega
        · rw [hcs8 (by omega)]; omega
        · rw [hcs (by omega)]; omega
        · rw [hcs (by omega)]; omega
        · rw [hcs2 (by omega)]; omega
        · rw [hcs4 (by omega)]; omega
        · rw [hcs8 (by omega)]; omega
      constructor
      · intro h0
        right
        have h0n : c * k = 0 := by exact_mod_cast h0
        rcases Nat.mul_eq_zero.mp h0n with h1 | h1
        · exact h1
        · omega
      · rintro (h1 | h1)
        · exact absurd hr h1
        · subst h1; simp
    · rw [hcs0 hr]
      simp [hr]

theorem getValueSize_exact_witness :
    getValueSize 5 4294967295 = 8 * ((4294967295 : Nat) : Int) ∧
    (getValueSize 11 7 = 0 ↔ (¬ (1 ≤ 11 ∧ 11 ≤ 10) ∨ 7 = 0)) :=
  have h := getValueSize_exact 5 4294967295 (by decide) (by decide)
  have g := getValueSize_exact 11 7 (by decide) (by decide)
  ⟨h.2.2.2.1 (Or.inl rfl), g.2.2.2.2.2⟩

/-- C16: on every byte sequence `parseEXIFInfo` returns, with an error or a
record: none of its index and slice expressions (header, entry count, 12-byte
entries, inline and offset values, the reads inside `decodeTagValue`) is out
of range, with `int` taken as 64-bit. -/
theorem parseEXIFInfo_never_panics (fmtFloat : Nat → Nat → GoString) (data : List UInt8) :
    (∃ err, parseEXIFInfo fmtFloat data = Go.ret (Except.error err)) ∨
    (∃ p, parseEXIFInfo fmtFloat data = Go.ret (Except.ok p)) := by
  by_cases h14 : 14 ≤ data.length
  · rw [parseEXIFInfo_eq fmtFloat data h14]
    by_cases hx : data.take 6 ≠ exifIdentifier
    · rw [if_pos hx]; exact Or.inl ⟨_, rfl⟩
    · rw [if_neg hx]
      cases hbo : byteOrderMark data with
      | none => exact Or.inl ⟨_, rfl⟩
      | some endian =>
        simp only []
        by_cases hm : u16At endian data 8 ≠ 42
        · rw [if_pos hm]; exact Or.inl ⟨_, rfl⟩
        · rw [if_neg hm]
          by_cases hd : data.length < 6 + firstIfdOffset endian data + 2
          · rw [if_pos hd]; exact Or.inl ⟨_, rfl⟩
          · rw [if_neg hd]
            obtain ⟨p, hp⟩ := ifdLoop_total fmtFloat data (ifdBytes endian data) endian
              (ifdEntryCount endian data) 0 {}
              (by have := u16At_lt endian (ifdBytes endian data) 0; unfold ifdEntryCount; omega)
            rw [hp, Go.ret_bind]
            exact Or.inr ⟨p, rfl⟩
  · left
    refine ⟨DecodeError.blockTooSmall, ?_⟩
    unfold parseEXIFInfo
    rw [if_pos (by omega)]

/-! ## Tag dispatch and the loop as a fold -/

theorem exifTagNames_length : exifTagNames.length = 39 := rfl

theorem assignTagValue_unknown (p : ExifPayload) (name : String) (v : GoString)
    (h : name ∉ exifTagNames.map Prod.snd) : assignTagValue p name v = p := by
  unfold assignTagValue
  split
  all_goals first
    | rfl
    | (exfalso; apply h; decide)


/-- Each entry of the tag table has a field of the record, at some position
`k` of the field list: the switch case for the table's name writes exactly
that field. -/
theorem assignTagValue_index (p : ExifPayload) (v : GoString) (x : Nat × String)
    (hx : x ∈ exifTagNames) :
    ∃ k, getTagName x.1 = x.2 ∧
      (assignTagValue p x.2 v).toList = p.toList.set k (x.2, v) ∧
      (p.toList.get? k).map Prod.fst = some x.2 ∧
      (assignTagValue p x.2 v).field x.2 = v := by
  simp only [exifTagNames, List.mem_cons, List.mem_singleton, List.not_mem_nil, or_false] at hx
  rcases hx with rfl | rfl | rfl | rfl | rfl | rfl | rfl | rfl | rfl | rfl | rfl | rfl | rfl | rfl | rfl | rfl | rfl | rfl | rfl | rfl | rfl | rfl | rfl | rfl | rfl | rfl | rfl | rfl | rfl | rfl | rfl | rfl | rfl | rfl | rfl | rfl | rfl | rfl | rfl
  · have h : assignTagValue p "Make" v = { p with Make := v } := rfl
    refine ⟨0, rfl, ?_, rfl, ?_⟩ <;> dsimp only <;> rw [h] <;> rfl
  · have h : assignTagValue p "Model" v = { p with Model := v } := rfl
    refine ⟨1, rfl, ?_, rfl, ?_⟩ <;> dsimp only <;> rw [h] <;> rfl
  · have h : assignTagValue p "Orientation" v = { p with Orientation := v } := rfl
    refine ⟨2, rfl, ?_, rfl, ?_⟩ <;> dsimp only <;> rw [h] <;> rfl
  · have h : assignTagValue p "Software" v = { p with Software := v } := rfl
    refine ⟨3, rfl, ?_, rfl, ?_⟩ <;> dsimp only <;> rw [h] <;> rfl
  · have h : assignTagValue p "DateTime" v = { p with DateTime := v } := rfl
    refine ⟨4, rfl, ?_, rfl, ?_⟩ <;> dsimp only <;> rw [h] <;> rfl
  · have h : assignTagValue p "ExposureTime" v = { p with ExposureTime := v } := rfl
    refine ⟨5, rfl, ?_, rfl, ?_⟩ <;> dsimp only <;> rw [h] <;> rfl
  · have h : assignTagValue p "FNumber" v = { p with FNumber := v } := rfl
    refine ⟨6, rfl, ?_, rfl, ?_⟩ <;> dsimp only <;> rw [h] <;> rfl
  · have h : assignTagValue p "ExifOffset" v = { p with ExifOffset := v } := rfl
    refine ⟨7, rfl, ?_, rfl, ?_⟩ <;> dsimp only <;> rw [h] <;> rfl
  · have h : assignTagValue p "ISOSpeedRatings" v = { p with ISOSpeedRatings := v } := rfl
    refine ⟨8, rfl, ?_, rfl, ?_⟩ <;> dsimp only <;> rw [h] <;> rfl
  · have h : assignTagValue p "DateTimeOriginal" v = { p with DateTimeOriginal := v } := rfl
    refine ⟨9, rfl, ?_, rfl, ?_⟩ <;> dsimp only <;> rw [h] <;> rfl
  · have h : assignTagValue p "ShutterSpeedValue" v = { p with ShutterSpeedValue := v } := rfl
    refine ⟨10, rfl, ?_, rfl, ?_⟩ <;> dsimp only <;> rw [h] <;> rfl
  · have h : assignTagValue p "ApertureValue" v = { p with ApertureValue := v } := rfl
    refine ⟨11, rfl, ?_, rfl, ?_⟩ <;> dsimp only <;> rw [h] <;> rfl
  · have h : assignTagValue p "Flash" v = { p with Flash := v } := rfl
    refine ⟨12, rfl, ?_, rfl, ?_⟩ <;> dsimp only <;> rw [h] <;> rfl
  · have h : assignTagValue p "PixelXDimension" v = { p with PixelXDimension := v } := rfl
    refine ⟨13, rfl, ?_, rfl, ?_⟩ <;> dsimp only <;> rw [h] <;> rfl
  · have h : assignTagValue p "PixelYDimension" v = { p with PixelYDimension := v } := rfl
    refine ⟨14, rfl, ?_, rfl, ?_⟩ <;> dsimp only <;> rw [h] <;> rfl
  · have h : assignTagValue p "FocalLengthIn35mmFilm" v = { p with FocalLengthIn35mmFilm := v } := rfl
    refine ⟨15, rfl, ?_, rfl, ?_⟩ <;> dsimp only <;> rw [h] <;> rfl
  · have h : assignTagValue p "ImageDescription" v = { p with ImageDescription := v } := rfl
    refine ⟨16, rfl, ?_, rfl, ?_⟩ <;> dsimp only <;> rw [h] <;> rfl
  · have h : assignTagValue p "XResolution" v = { p with XResolution := v } := rfl
    refine ⟨17, rfl, ?_, rfl, ?_⟩ <;> dsimp only <;> rw [h] <;> rfl
  · have h : assignTagValue p "YResolution" v = { p with YResolution := v } := rfl
    refine ⟨18, rfl, ?_, rfl, ?_⟩ <;> dsimp only <;> rw [h] <;> rfl
  · have h : assignTagValue p "ResolutionUnit" v = { p with ResolutionUnit := v } := rfl
    refine ⟨19, rfl, ?_, rfl, ?_⟩ <;> dsimp only <;> rw [h] <;> rfl
  · have h : assignTagValue p "Artist" v = { p with Artist := v } := rfl
    refine ⟨20, rfl, ?_, rfl, ?_⟩ <;> dsimp only <;> rw [h] <;> rfl
  · have h : assignTagValue p "YCbCrPositioning" v = { p with YCbCrPositioning := v } := rfl
    refine ⟨21, rfl, ?_, rfl, ?_⟩ <;> dsimp only <;> rw [h] <;> rfl
  · have h : assignTagValue p "Copyright" v = { p with Copyright := v } := rfl
    refine ⟨22, rfl, ?_, rfl, ?_⟩ <;> dsimp only <;> rw [h] <;> rfl
  · have h : assignTagValue p "GPSInfoIFDPointer" v = { p with GPSInfoIFDPointer := v } := rfl
    refine ⟨23, rfl, ?_, rfl, ?_⟩ <;> dsimp only <;> rw [h] <;> rfl
  · have h : assignTagValue p "ExifVersion" v = { p with ExifVersion := v } := rfl
    refine ⟨24, rfl, ?_, rfl, ?_⟩ <;> dsimp only <;> rw [h] <;> rfl
  · have h : assignTagValue p "DateTimeDigitized" v = { p with DateTimeDigitized := v } := rfl
    refine ⟨25, rfl, ?_, rfl, ?_⟩ <;> dsimp only <;> rw [h] <;> rfl
  · have h : assignTagValue p "BrightnessValue" v = { p with BrightnessValue := v } := rfl
    refine ⟨26, rfl, ?_, rfl, ?_⟩ <;> dsimp only <;> rw [h] <;> rfl
  · have h : assignTagValue p "ExposureBiasValue" v = { p with ExposureBiasValue := v } := rfl
    refine ⟨27, rfl, ?_, rfl, ?_⟩ <;> dsimp only <;> rw [h] <;> rfl
  · have h : assignTagValue p "MaxApertureValue" v = { p with MaxApertureValue := v } := rfl
    refine ⟨28, rfl, ?_, rfl, ?_⟩ <;> dsimp only <;> rw [h] <;> rfl
  · have h : assignTagValue p "MeteringMode" v = { p with MeteringMode := v } := rfl
    refine ⟨29, rfl, ?_, rfl, ?_⟩ <;> dsimp only <;> rw [h] <;> rfl
  · have h : assignTagValue p "FocalLength" v = { p with FocalLength := v } := rfl
    refine ⟨30, rfl, ?_, rfl, ?_⟩ <;> dsimp only <;> rw [h] <;> rfl
  · have h : assignTagValue p "GPSVersionID" v = { p with GPSVersionID := v } := rfl
    refine ⟨31, rfl, ?_, rfl, ?_⟩ <;> dsimp only <;> rw [h] <;> rfl
  · have h : assignTagValue p "GPSLatitudeRef" v = { p with GPSLatitudeRef := v } := rfl
    refine ⟨32, rfl, ?_, rfl, ?_⟩ <;> dsimp only <;> rw [h] <;> rfl
  · have h : assignTagValue p "GPSLatitude" v = { p with GPSLatitude := v } := rfl
    refine ⟨33, rfl, ?_, rfl, ?_⟩ <;> dsimp only <;> rw [h] <;> rfl
  · have h : assignTagValue p "GPSLongitudeRef" v = { p with GPSLongitudeRef := v } := rfl
    refine ⟨34, rfl, ?_, rfl, ?_⟩ <;> dsimp only <;> rw [h] <;> rfl
  · have h : assignTagValue p "GPSLongitude" v = { p with GPSLongitude := v } := rfl
    refine ⟨35, rfl, ?_, rfl, ?_⟩ <;> dsimp only <;> rw [h] <;> rfl
  · have h : assignTagValue p "GPSAltitudeRef" v = { p with GPSAltitudeRef := v } := rfl
    refine ⟨36, rfl, ?_, rfl, ?_⟩ <;> dsimp only <;> rw [h] <;> rfl
  · have h : assignTagValue p "GPSAltitude" v = { p with GPSAltitude := v } := rfl
    refine ⟨37, rfl, ?_, rfl, ?_⟩ <;> dsimp only <;> rw [h] <;> rfl
  · have h : assignTagValue p "GPSMapDatum" v = { p with GPSMapDatum := v } := rfl
    refine ⟨38, rfl, ?_, rfl, ?_⟩ <;> dsimp only <;> rw [h] <;> rfl

theorem lookup_set_ne (l : List (String × GoString)) (k : Nat) (name other : String)
    (v : GoString) (hk : (l.get? k).map Prod.fst = some name) (hne : other ≠ name) :
    (l.set k (name, v)).lookup other = l.lookup other := by
  induction l generalizing k with
  | nil => rfl
  | cons a l ih =>
    cases k with
    | zero =>
      simp only [List.get?_cons_zero, Option.map_some', Option.some.injEq] at hk
      obtain ⟨a1, a2⟩ := a
      simp only at hk
      subst hk
      have hb : (other == a1) = false := by simpa using hne
      simp only [List.set_cons_zero, List.lookup_cons, hb]
    | succ k =>
      simp only [List.get?_cons_succ] at hk
      obtain ⟨a1, a2⟩ := a
      simp only [List.set_cons_succ, List.lookup_cons]
      rw [ih k hk]

theorem field_assign_same (p : ExifPayload) (v : GoString) (x : Nat × String)
    (hx : x ∈ exifTagNames) :
    getTagName x.1 = x.2 ∧ (assignTagValue p x.2 v).field x.2 = v := by
  obtain ⟨k, h⟩ := assignTagValue_index p v x hx
  exact ⟨h.1, h.2.2.2⟩

theorem field_assign_other (p : ExifPayload) (v : GoString) (name other : String)
    (hne : other ≠ name) : (assignTagValue p name v).field other = p.field other := by
  by_cases hn : name ∈ exifTagNames.map Prod.snd
  · obtain ⟨x, hx, rfl⟩ := List.mem_map.mp hn
    obtain ⟨k, h⟩ := assignTagValue_index p v x hx
    unfold ExifPayload.field
    rw [h.2.1, lookup_set_ne _ k _ other v h.2.2.1 hne]
  · rw [assignTagValue_unknown p name v hn]

theorem exifTagNames_names_nodup : (exifTagNames.map Prod.snd).Nodup := by decide
theorem exifTagNames_keys_nodup : (exifTagNames.map Prod.fst).Nodup := by decide


theorem processEntries_nil (fmtFloat : Nat → Nat → GoString) (data ifdData : List UInt8)
    (endian : ByteOrder) (payload : ExifPayload) :
    processEntries fmtFloat data ifdData endian [] payload = Go.ret payload := by
  rw [processEntries]

theorem processEntries_cons (fmtFloat : Nat → Nat → GoString) (data ifdData : List UInt8)
    (endian : ByteOrder) (i : Nat) (rest : List Nat) (payload : ExifPayload) :
    processEntries fmtFloat data ifdData endian (i :: rest) payload =
      (processEntry fmtFloat data ifdData endian i payload >>= fun payload1 =>
        processEntries fmtFloat data ifdData endian rest payload1) := by
  rw [processEntries]

/-- The IFD loop is the loop body run on the indices `i, i+1, .., i+n-1`. -/
theorem ifdLoop_eq_processEntries (fmtFloat : Nat → Nat → GoString)
    (data ifdData : List UInt8) (endian : ByteOrder) :
    ∀ (n i : Nat) (payload : ExifPayload),
      ifdLoop fmtFloat data ifdData endian n i payload =
        processEntries fmtFloat data ifdData endian (List.range' i n) payload := by
  intro n
  induction n with
  | zero => intro i payload; rw [ifdLoop_zero, List.range'_zero, processEntries_nil]
  | succ n ih =>
    intro i payload
    rw [ifdLoop_succ, List.range'_succ, processEntries_cons]
    congr 1
    funext payload1
    exact ih (i + 1) payload1

theorem empty_name_unknown : "" ∉ exifTagNames.map Prod.snd := by decide

/-- The loop body as a function on records: it assigns the decoded value
under the tag's name when the entry decodes to a non-empty string and returns
the record unchanged otherwise; it never panics. -/
theorem processEntry_apply (fmtFloat : Nat → Nat → GoString) (data ifdData : List UInt8)
    (endian : ByteOrder) (i : Nat) (payload : ExifPayload) (hi : i < 65536) :
    processEntry fmtFloat data ifdData endian i payload =
      Go.ret (applyEntry fmtFloat endian data ifdData payload i) := by
  unfold applyEntry entryDecoded
  by_cases hb : 2 + 12 * i + 12 ≤ ifdData.length
  · rw [processEntry_eq fmtFloat data ifdData endian i payload hi hb]
    by_cases h0 : entrySize endian ifdData i = 0
    · rw [if_pos h0, if_neg (fun h => h.2 h0)]
    · rw [if_neg h0, if_pos ⟨hb, h0⟩]
      cases entryValue endian data ifdData i with
      | none => rfl
      | some tagValue =>
        simp only []
        obtain ⟨v, hv⟩ := decodeTagValue_total fmtFloat (entryFormat endian ifdData i)
          tagValue endian
        unfold dispatchEntry
        simp only [hv, Go.ret_bind]
        by_cases hv0 : v = []
        · simp only [hv0, if_true, ite_self]
        · simp only [hv0, if_false]
          by_cases hn : getTagName (entryTag endian ifdData i) = ""
          · rw [if_pos hn, hn, assignTagValue_unknown payload "" v empty_name_unknown]
          · rw [if_neg hn]
  · rw [processEntry_oob fmtFloat data ifdData endian i payload hi (by omega),
      if_neg (fun h => hb h.1)]

/-- The loop body run on a list of indices is a fold of `applyEntry`. -/
theorem processEntries_fold (fmtFloat : Nat → Nat → GoString) (data ifdData : List UInt8)
    (endian : ByteOrder) :
    ∀ (l : List Nat) (payload : ExifPayload), (∀ i ∈ l, i < 65536) →
      processEntries fmtFloat data ifdData endian l payload =
        Go.ret (l.foldl (applyEntry fmtFloat endian data ifdData) payload) := by
  intro l
  induction l with
  | nil => intro payload _; rw [processEntries_nil]; rfl
  | cons i rest ih =>
    intro payload h
    rw [processEntries_cons, processEntry_apply fmtFloat data ifdData endian i payload
      (h i (List.mem_cons_self i rest)), Go.ret_bind,
      ih _ (fun k hk => h k (List.mem_cons_of_mem i hk))]
    rfl

/-! ## Known and unknown tags -/

/-- C20: the 39 tag IDs of `exifTagNames` are pairwise distinct and so are
its 39 names, which are exactly the names of the 39 fields of `ExifPayload`;
for every entry (tag, name) of the table `getTagName tag` is `name`, and
`assignTagValue p name v` sets the field called `name` to `v` and leaves the
field of every other name as it is in `p`: no known tag lacks a switch case
and no two tags write the same field. -/
theorem assignTagValue_dispatch :
    (exifTagNames.map Prod.fst).Nodup ∧ (exifTagNames.map Prod.snd).Nodup ∧
    exifTagNames.length = 39 ∧
    (∀ p : ExifPayload, p.toList.map Prod.fst = exifTagNames.map Prod.snd) ∧
    ∀ (p : ExifPayload) (v : GoString), ∀ x ∈ exifTagNames,
      getTagName x.1 = x.2 ∧
      (assignTagValue p (getTagName x.1) v).field x.2 = v ∧
      ∀ other, other ≠ x.2 →
        (assignTagValue p (getTagName x.1) v).field other = p.field other := by
  refine ⟨exifTagNames_keys_nodup, exifTagNames_names_nodup, rfl, fun p => rfl, ?_⟩
  intro p v x hx
  obtain ⟨h1, h2⟩ := field_assign_same p v x hx
  refine ⟨h1, ?_, ?_⟩
  · rw [h1]; exact h2
  · intro other hne
    rw [h1]
    exact field_assign_other p v x.2 other hne

theorem assignTagValue_dispatch_witness :
    (assignTagValue { Make := ascii "Canon" } (getTagName 0x9209) (ascii "1")).field "Flash" =
      ascii "1" ∧
    (assignTagValue { Make := ascii "Canon" } (getTagName 0x9209) (ascii "1")).field "Make" =
      ({ Make := ascii "Canon" } : ExifPayload).field "Make" :=
  have h := assignTagValue_dispatch.2.2.2.2 { Make := ascii "Canon" } (ascii "1")
    (0x9209, "Flash") (by decide)
  ⟨h.2.1, h.2.2 "Make" (by decide)⟩

theorem lookup_none_of_not_mem (l : List (Nat × String)) (tagID : Nat)
    (h : tagID ∉ l.map Prod.fst) : l.lookup tagID = none := by
  induction l with
  | nil => rfl
  | cons a l ih =>
    obtain ⟨a1, a2⟩ := a
    simp only [List.map_cons, List.mem_cons, not_or] at h
    have hb : (tagID == a1) = false := by simpa using h.1
    simp only [List.lookup_cons, hb]
    exact ih h.2

theorem known_names_initial : ∀ s ∈ exifTagNames.map Prod.snd, s.data.head? ≠ some 'U' := by
  decide

/-- The name `getTagName` makes up for a tag outside the table is none of
the table's names. -/
theorem getTagName_unknown (tagID : Nat) (h : tagID ∉ exifTagNames.map Prod.fst) :
    getTagName tagID ∉ exifTagNames.map Prod.snd := by
  unfold getTagName
  rw [lookup_none_of_not_mem exifTagNames tagID h]
  intro hmem
  apply known_names_initial _ hmem
  simp only [String.data_append]
  rfl

/-- C13: for a tag ID that is not a key of `exifTagNames` the name made up by
`getTagName` matches no case of `assignTagValue`: whatever the data format,
the value bytes, the byte order and the record, the dispatch of such an
entry, and the whole loop body on an entry carrying that tag, return the
record unchanged. -/
theorem unknown_tag_unchanged (tagID : Nat) (h : tagID ∉ exifTagNames.map Prod.fst) :
    getTagName tagID ∉ exifTagNames.map Prod.snd ∧
    (∀ (p : ExifPayload) (v : GoString), assignTagValue p (getTagName tagID) v = p) ∧
    (∀ (fmtFloat : Nat → Nat → GoString) (endian : ByteOrder) (p : ExifPayload)
      (dataFormat : Nat) (tagValue : List UInt8),
      dispatchEntry fmtFloat endian p tagID dataFormat tagValue = Go.ret p) ∧
    (∀ (fmtFloat : Nat → Nat → GoString) (data ifdData : List UInt8) (endian : ByteOrder)
      (i : Nat) (p : ExifPayload), i < 65536 → entryTag endian ifdData i = tagID →
      processEntry fmtFloat data ifdData endian i p = Go.ret p) := by
  have hn := getTagName_unknown tagID h
  have ha : ∀ (p : ExifPayload) (v : GoString), assignTagValue p (getTagName tagID) v = p :=
    fun p v => assignTagValue_unknown p _ v hn
  refine ⟨hn, ha, ?_, ?_⟩
  · intro fmtFloat endian p dataFormat tagValue
    obtain ⟨v, hv⟩ := decodeTagValue_total fmtFloat dataFormat tagValue endian
    unfold dispatchEntry
    simp only [hv, Go.ret_bind, ha, ite_self]
  · intro fmtFloat data ifdData endian i p hi htag
    rw [processEntry_apply fmtFloat data ifdData endian i p hi]
    unfold applyEntry
    cases entryDecoded fmtFloat endian data ifdData i with
    | none => rfl
    | some v => simp only [htag, ha]

theorem unknown_tag_unchanged_witness :
    dispatchEntry sampleFmtFloat ByteOrder.BigEndian { Make := ascii "Canon" } 0xA420 2
      (ascii "id") = Go.ret { Make := ascii "Canon" } :=
  (unknown_tag_unchanged 0xA420 (by decide)).2.2.1 sampleFmtFloat ByteOrder.BigEndian
    { Make := ascii "Canon" } 2 (ascii "id")

/-! ## Skipped entries -/

/-- On a structurally valid block `parseEXIFInfo` returns the record the IFD
loop builds from the empty record. -/
theorem parseEXIFInfo_valid (fmtFloat : Nat → Nat → GoString) (data : List UInt8)
    (endian : ByteOrder) (h14 : 14 ≤ data.length) (hid : data.take 6 = exifIdentifier)
    (hbo : byteOrderMark data = some endian) (hmagic : u16At endian data 8 = 42)
    (hifd : 6 + firstIfdOffset endian data + 2 ≤ data.length) :
    parseEXIFInfo fmtFloat data =
      (ifdLoop fmtFloat data (ifdBytes endian data) endian (ifdEntryCount endian data) 0 {}
        >>= fun p => Go.ret (Except.ok p)) := by
  rw [parseEXIFInfo_eq fmtFloat data h14, if_neg (fun h => h hid), hbo]
  simp only []
  rw [if_neg (fun h => h hmagic), if_neg (by omega)]

theorem ifdEntryCount_lt (endian : ByteOrder) (data : List UInt8) :
    ifdEntryCount endian data < 65536 := u16At_lt endian (ifdBytes endian data) 0

/-- An entry that the loop body leaves every record unchanged on can be
dropped from the list of indices. -/
theorem processEntries_skip (fmtFloat : Nat → Nat → GoString) (data ifdData : List UInt8)
    (endian : ByteOrder) (k : Nat)
    (hk : ∀ q, processEntry fmtFloat data ifdData endian k q = Go.ret q) :
    ∀ (l : List Nat) (payload : ExifPayload),
      processEntries fmtFloat data ifdData endian l payload =
        processEntries fmtFloat data ifdData endian (l.filter (fun i => decide (i ≠ k)))
          payload := by
  intro l
  induction l with
  | nil => intro payload; rfl
  | cons i rest ih =>
    intro payload
    by_cases hik : i = k
    · subst hik
      rw [processEntries_cons, hk, Go.ret_bind, ih payload]
      simp
    · have hf : (i :: rest).filter (fun j => decide (j ≠ k)) =
          i :: rest.filter (fun j => decide (j ≠ k)) := by simp [hik]
      rw [hf, processEntries_cons, processEntries_cons]
      congr 1
      funext payload1
      exact ih payload1

/-- C11: in a valid EXIF block, an IFD entry `k` whose value size exceeds 4
and whose value would end past the block (6 + offset + size greater than the
block length) is left out: `parseEXIFInfo` succeeds and returns the record
built by running the loop body on all the other entries in directory order. -/
theorem parseEXIFInfo_skips_out_of_bounds_value (fmtFloat : Nat → Nat → GoString)
    (data : List UInt8) (endian : ByteOrder) (k : Nat)
    (h14 : 14 ≤ data.length) (hid : data.take 6 = exifIdentifier)
    (hbo : byteOrderMark data = some endian) (hmagic : u16At endian data 8 = 42)
    (hifd : 6 + firstIfdOffset endian data + 2 ≤ data.length)
    (hk : k < ifdEntryCount endian data)
    (hsize : 4 < entrySize endian (ifdBytes endian data) k)
    (hout : data.length < 6 + entryOffset endian (ifdBytes endian data) k +
      entrySize endian (ifdBytes endian data) k) :
    parseEXIFInfo fmtFloat data =
      (processEntries fmtFloat data (ifdBytes endian data) endian
        ((List.range (ifdEntryCount endian data)).filter (fun i => decide (i ≠ k))) {}
        >>= fun p => Go.ret (Except.ok p)) ∧
    ∃ p, parseEXIFInfo fmtFloat data = Go.ret (Except.ok p) := by
  have hn := ifdEntryCount_lt endian data
  have hskip : ∀ q, processEntry fmtFloat data (ifdBytes endian data) endian k q = Go.ret q := by
    intro q
    rw [processEntry_apply fmtFloat data (ifdBytes endian data) endian k q (by omega)]
    have hnone : entryDecoded fmtFloat endian data (ifdBytes endian data) k = none := by
      unfold entryDecoded
      split
      · have hv : entryValue endian data (ifdBytes endian data) k = none := by
          unfold entryValue
          rw [if_neg (by omega), if_pos hout]
        rw [hv]
      · rfl
    unfold applyEntry
    rw [hnone]
  have hparse := parseEXIFInfo_valid fmtFloat data endian h14 hid hbo hmagic hifd
  rw [ifdLoop_eq_processEntries, ← List.range_eq_range',
    processEntries_skip fmtFloat data (ifdBytes endian data) endian k hskip] at hparse
  refine ⟨hparse, ?_⟩
  rw [hparse, processEntries_fold fmtFloat data (ifdBytes endian data) endian _ {}
    (by
      intro i hi
      have := (List.mem_filter.mp hi).1
      rw [List.mem_range] at this
      omega), Go.ret_bind]
  exact ⟨_, rfl⟩

theorem parseEXIFInfo_skips_out_of_bounds_value_witness :
    parseEXIFInfo sampleFmtFloat skippedValueBlock =
      (processEntries sampleFmtFloat skippedValueBlock
        (ifdBytes ByteOrder.LittleEndian skippedValueBlock) ByteOrder.LittleEndian
        ((List.range (ifdEntryCount ByteOrder.LittleEndian skippedValueBlock)).filter
          (fun i => decide (i ≠ 1))) {}
        >>= fun p => Go.ret (Except.ok p)) ∧
    ∃ p, parseEXIFInfo sampleFmtFloat skippedValueBlock = Go.ret (Except.ok p) :=
  parseEXIFInfo_skips_out_of_bounds_value sampleFmtFloat skippedValueBlock
    ByteOrder.LittleEndian 1 (by decide) (by decide) (by decide) (by decide) (by decide)
    (by decide) (by decide) (by decide)

theorem skippedValueBlock_parse :
    parseEXIFInfo sampleFmtFloat skippedValueBlock =
      Go.ret (Except.ok { Make := ascii "Abc", Software := ascii "Xy" }) := by
  decide!

/-- From an index on whose entries all lie outside the IFD, the loop changes
nothing. -/
theorem ifdLoop_out_of_ifd (fmtFloat : Nat → Nat → GoString) (data ifdData : List UInt8)
    (endian : ByteOrder) :
    ∀ (n i : Nat) (payload : ExifPayload), i + n ≤ 65536 →
      ifdData.length < 2 + 12 * i + 12 →
      ifdLoop fmtFloat data ifdData endian n i payload = Go.ret payload := by
  intro n
  induction n with
  | zero => intro i payload _ _; rw [ifdLoop_zero]
  | succ n ih =>
    intro i payload h hb
    rw [ifdLoop_succ, processEntry_oob fmtFloat data ifdData endian i payload (by omega) hb,
      Go.ret_bind]
    exact ih (i + 1) payload (by omega) (by omega)

theorem ifdLoop_add (fmtFloat : Nat → Nat → GoString) (data ifdData : List UInt8)
    (endian : ByteOrder) :
    ∀ (a b i : Nat) (payload : ExifPayload),
      ifdLoop fmtFloat data ifdData endian (a + b) i payload =
        (ifdLoop fmtFloat data ifdData endian a i payload >>= fun q =>
          ifdLoop fmtFloat data ifdData endian b (i + a) q) := by
  intro a
  induction a with
  | zero =>
    intro b i payload
    rw [Nat.zero_add, ifdLoop_zero, Go.ret_bind, Nat.add_zero]
  | succ a ih =>
    intro b i payload
    have h1 : a + 1 + b = (a + b) + 1 := by omega
    rw [h1, ifdLoop_succ, ifdLoop_succ]
    cases hp : processEntry fmtFloat data ifdData endian i payload with
    | panic => rfl
    | ret q =>
      rw [Go.ret_bind, Go.ret_bind, ih b (i + 1) q]
      have h2 : i + 1 + a = i + (a + 1) := by omega
      rw [h2]

/-- C19: in a valid EXIF block whose IFD declares more entries than the
`m = (len(ifdData) - 2) / 12` whole 12-byte entries that fit after the
count, `parseEXIFInfo` succeeds and returns the record the loop builds from
the first `m` entries: every entry of index `m` or more lies outside the IFD
and is skipped, every entry of index below `m` lies inside it. -/
theorem parseEXIFInfo_truncated_ifd (fmtFloat : Nat → Nat → GoString)
    (data : List UInt8) (endian : ByteOrder)
    (h14 : 14 ≤ data.length) (hid : data.take 6 = exifIdentifier)
    (hbo : byteOrderMark data = some endian) (hmagic : u16At endian data 8 = 42)
    (hifd : 6 + firstIfdOffset endian data + 2 ≤ data.length)
    (hm : ((ifdBytes endian data).length - 2) / 12 < ifdEntryCount endian data) :
    parseEXIFInfo fmtFloat data =
      (ifdLoop fmtFloat data (ifdBytes endian data) endian
        (((ifdBytes endian data).length - 2) / 12) 0 {} >>= fun p => Go.ret (Except.ok p)) ∧
    (∃ p, parseEXIFInfo fmtFloat data = Go.ret (Except.ok p)) ∧
    (∀ i, ((ifdBytes endian data).length - 2) / 12 ≤ i → i < ifdEntryCount endian data →
      ∀ q, processEntry fmtFloat data (ifdBytes endian data) endian i q = Go.ret q) ∧
    (∀ i, i < ((ifdBytes endian data).length - 2) / 12 →
      2 + 12 * i + 12 ≤ (ifdBytes endian data).length) := by
  have hn := ifdEntryCount_lt endian data
  have hlen : 2 ≤ (ifdBytes endian data).length := by
    unfold ifdBytes; rw [List.length_drop]; omega
  generalize hifdB : ifdBytes endian data = ifdData at hm hlen
  generalize hcount : ifdEntryCount endian data = n at hm hn
  have hparse := parseEXIFInfo_valid fmtFloat data endian h14 hid hbo hmagic hifd
  rw [hifdB, hcount] at hparse
  have hsplit : n = (ifdData.length - 2) / 12 + (n - (ifdData.length - 2) / 12) := by omega
  have hloop : ifdLoop fmtFloat data ifdData endian n 0 {} =
      ifdLoop fmtFloat data ifdData endian ((ifdData.length - 2) / 12) 0 {} := by
    obtain ⟨q, hq⟩ := ifdLoop_total fmtFloat data ifdData endian
      ((ifdData.length - 2) / 12) 0 {} (by omega)
    rw [hsplit, ifdLoop_add, hq, Go.ret_bind,
      ifdLoop_out_of_ifd fmtFloat data ifdData endian _ _ q (by omega) (by omega)]
  rw [hloop] at hparse
  refine ⟨hparse, ?_, ?_, ?_⟩
  · obtain ⟨q, hq⟩ := ifdLoop_total fmtFloat data ifdData endian
      ((ifdData.length - 2) / 12) 0 {} (by omega)
    rw [hparse, hq, Go.ret_bind]
    exact ⟨q, rfl⟩
  · intro i hi hin q
    exact processEntry_oob fmtFloat data ifdData endian i q (by omega) (by omega)
  · intro i hi
    omega

theorem parseEXIFInfo_truncated_ifd_witness :
    parseEXIFInfo sampleFmtFloat truncatedIfdBlock =
      (ifdLoop sampleFmtFloat truncatedIfdBlock
        (ifdBytes ByteOrder.LittleEndian truncatedIfdBlock) ByteOrder.LittleEndian
        (((ifdBytes ByteOrder.LittleEndian truncatedIfdBlock).length - 2) / 12) 0 {}
        >>= fun p => Go.ret (Except.ok p)) :=
  (parseEXIFInfo_truncated_ifd sampleFmtFloat truncatedIfdBlock ByteOrder.LittleEndian
    (by decide) (by decide) (by decide) (by decide) (by decide) (by decide)).1

theorem truncatedIfdBlock_parse :
    parseEXIFInfo sampleFmtFloat truncatedIfdBlock =
      Go.ret (Except.ok { Make := ascii "Abc" }) ∧
    ((ifdBytes ByteOrder.LittleEndian truncatedIfdBlock).length - 2) / 12 = 1 ∧
    ifdEntryCount ByteOrder.LittleEndian truncatedIfdBlock = 2 := by
  decide!

/-! ## Value resolution -/

theorem lookup_some_mem (l : List (Nat × String)) (tagID : Nat) (name : String)
    (h : l.lookup tagID = some name) : (tagID, name) ∈ l := by
  induction l with
  | nil => cases h
  | cons a l ih =>
    obtain ⟨a1, a2⟩ := a
    by_cases hb : tagID = a1
    · subst hb
      simp only [List.lookup_cons, beq_self_eq_true] at h
      cases h
      exact List.mem_cons_self _ _
    · have hb2 : (tagID == a1) = false := by simpa using hb
      simp only [List.lookup_cons, hb2] at h
      exact List.mem_cons_of_mem _ (ih h)

theorem getTagName_known (tagID : Nat) (name : String)
    (h : exifTagNames.lookup tagID = some name) :
    getTagName tagID = name ∧ name ≠ "" ∧ (tagID, name) ∈ exifTagNames := by
  have hmem := lookup_some_mem exifTagNames tagID name h
  refine ⟨?_, ?_, hmem⟩
  · unfold getTagName; rw [h]
  · intro he
    apply empty_name_unknown
    rw [← he]
    exact List.mem_map.mpr ⟨(tagID, name), hmem, rfl⟩

/-- The dispatch of a known tag whose value decodes to a non-empty string
assigns the field of the tag's name. -/
theorem dispatchEntry_known (fmtFloat : Nat → Nat → GoString) (endian : ByteOrder)
    (payload : ExifPayload) (tagID dataFormat : Nat) (tagValue : List UInt8) (name : String)
    (value : GoString) (hname : exifTagNames.lookup tagID = some name)
    (hv : decodeTagValue fmtFloat dataFormat tagValue endian = Go.ret value)
    (hne : value ≠ []) :
    dispatchEntry fmtFloat endian payload tagID dataFormat tagValue =
      Go.ret (assignTagValue payload name value) := by
  obtain ⟨h1, h2, _⟩ := getTagName_known tagID name hname
  unfold dispatchEntry
  simp only [h1, hv, Go.ret_bind, if_neg h2, if_neg hne]

theorem decodeTagValue_ascii (fmtFloat : Nat → Nat → GoString) (endian : ByteOrder)
    (data : List UInt8) :
    decodeTagValue fmtFloat 2 data endian = Go.ret (data.rdropWhile (fun b => b == 0)) := by
  unfold decodeTagValue
  rw [if_pos rfl]

/-- C18 amended: for an in-bounds IFD entry with value size s > 0 the loop
body dispatches on the first s bytes of the entry's 4-byte value/offset field
when s <= 4, and on the bytes block[6+off .. 6+off+s) when s > 4 and
6+off+s <= len(block), where off is the value/offset field read as a u32 in
the header's byte order. For an ascii entry with a known tag, count n > 4 and
6+off+n <= len(block): when the n bytes stripped of trailing null bytes are
not empty the field of the tag's name is set to them and every other field
is kept, and when they are empty (all n bytes null) the record is returned
unchanged. -/
theorem processEntry_value_resolution (fmtFloat : Nat → Nat → GoString)
    (data ifdData : List UInt8) (endian : ByteOrder) (i : Nat) (payload : ExifPayload)
    (hi : i < 65536) (hb : 2 + 12 * i + 12 ≤ ifdData.length)
    (hs : 0 < entrySize endian ifdData i) :
    (entrySize endian ifdData i ≤ 4 →
      processEntry fmtFloat data ifdData endian i payload =
        dispatchEntry fmtFloat endian payload (entryTag endian ifdData i)
          (entryFormat endian ifdData i)
          (((ifdData.drop (2 + 12 * i + 8)).take 4).take (entrySize endian ifdData i))) ∧
    (4 < entrySize endian ifdData i →
      6 + entryOffset endian ifdData i + entrySize endian ifdData i ≤ data.length →
      processEntry fmtFloat data ifdData endian i payload =
        dispatchEntry fmtFloat endian payload (entryTag endian ifdData i)
          (entryFormat endian ifdData i)
          ((data.drop (6 + entryOffset endian ifdData i)).take (entrySize endian ifdData i))) ∧
    (∀ F : String, entryFormat endian ifdData i = 2 →
      exifTagNames.lookup (entryTag endian ifdData i) = some F →
      4 < entryComponents endian ifdData i →
      6 + entryOffset endian ifdData i + entryComponents endian ifdData i ≤ data.length →
      (((data.drop (6 + entryOffset endian ifdData i)).take
          (entryComponents endian ifdData i)).rdropWhile (fun b => b == 0) ≠ [] →
        ∃ q, processEntry fmtFloat data ifdData endian i payload = Go.ret q ∧
          q.field F = ((data.drop (6 + entryOffset endian ifdData i)).take
            (entryComponents endian ifdData i)).rdropWhile (fun b => b == 0) ∧
          ∀ other, other ≠ F → q.field other = payload.field other) ∧
      (((data.drop (6 + entryOffset endian ifdData i)).take
          (entryComponents endian ifdData i)).rdropWhile (fun b => b == 0) = [] →
        processEntry fmtFloat data ifdData endian i payload = Go.ret payload)) := by
  have hpe := processEntry_eq fmtFloat data ifdData endian i payload hi hb
  rw [if_neg (by omega)] at hpe
  have hbig : 4 < entrySize endian ifdData i →
      6 + entryOffset endian ifdData i + entrySize endian ifdData i ≤ data.length →
      processEntry fmtFloat data ifdData endian i payload =
        dispatchEntry fmtFloat endian payload (entryTag endian ifdData i)
          (entryFormat endian ifdData i)
          ((data.drop (6 + entryOffset endian ifdData i)).take (entrySize endian ifdData i)) := by
    intro h4 hfit
    have hv : entryValue endian data ifdData i = some
        ((data.drop (6 + entryOffset endian ifdData i)).take (entrySize endian ifdData i)) := by
      unfold entryValue
      rw [if_neg (by omega), if_neg (by omega)]
    rw [hpe, hv]
  refine ⟨?_, hbig, ?_⟩
  · intro h4
    have hv : entryValue endian data ifdData i = some
        ((ifdData.drop (2 + 12 * i + 8)).take (entrySize endian ifdData i)) := by
      unfold entryValue
      rw [if_pos h4]
    rw [hpe, hv, List.take_take, Nat.min_eq_left h4]
  · intro F hfmt hname hn hfit
    have hsize : entrySize endian ifdData i = entryComponents endian ifdData i := by
      unfold entrySize
      rw [hfmt]
      exact Nat.mul_one _
    have hstep := hbig (by omega) (by omega)
    rw [hsize, hfmt] at hstep
    obtain ⟨h1, h2, hmem⟩ := getTagName_known _ F hname
    constructor
    · intro hne
      refine ⟨assignTagValue payload F
        (((data.drop (6 + entryOffset endian ifdData i)).take
          (entryComponents endian ifdData i)).rdropWhile (fun b => b == 0)), ?_, ?_, ?_⟩
      · rw [hstep]
        exact dispatchEntry_known fmtFloat endian payload _ 2 _ F _ hname
          (decodeTagValue_ascii fmtFloat endian _) hne
      · exact (field_assign_same payload _ (entryTag endian ifdData i, F) hmem).2
      · intro other ho
        exact field_assign_other payload _ F other ho
    · intro he
      rw [hstep]
      exact dispatchEntry_empty fmtFloat endian payload _ 2 _
        (by rw [decodeTagValue_ascii, he])

theorem processEntry_value_resolution_witness :
    ∃ q, processEntry sampleFmtFloat canonOffsetBlock
        (ifdBytes ByteOrder.LittleEndian canonOffsetBlock) ByteOrder.LittleEndian 0 {} =
        Go.ret q ∧
      q.field "Make" = ascii "Canon" ∧
      ∀ other, other ≠ "Make" → q.field other = ({} : ExifPayload).field other :=
  ((processEntry_value_resolution sampleFmtFloat canonOffsetBlock
    (ifdBytes ByteOrder.LittleEndian canonOffsetBlock) ByteOrder.LittleEndian 0 {}
    (by decide) (by decide) (by decide)).2.2 "Make" (by decide) (by decide) (by decide)
    (by decide)).1 (by decide)

/-- C18 as stated fails on its last sentence: in `nullMakeBlock` entry 1 is an
in-bounds ascii entry with the known tag 0x010F (Make), count 6 > 4 and an
in-bounds offset, and its six bytes stripped of trailing null bytes are the
empty string; yet after the entry is processed the Make field is not that
empty string: it still holds the `Canon` written by entry 0. -/
theorem processEntry_all_null_ascii :
    2 + 12 * 1 + 12 ≤ (ifdBytes ByteOrder.LittleEndian nullMakeBlock).length ∧
    entryTag ByteOrder.LittleEndian (ifdBytes ByteOrder.LittleEndian nullMakeBlock) 1 = 0x010F ∧
    exifTagNames.lookup 0x010F = some "Make" ∧
    entryFormat ByteOrder.LittleEndian (ifdBytes ByteOrder.LittleEndian nullMakeBlock) 1 = 2 ∧
    entryComponents ByteOrder.LittleEndian (ifdBytes ByteOrder.LittleEndian nullMakeBlock) 1 = 6 ∧
    entryOffset ByteOrder.LittleEndian (ifdBytes ByteOrder.LittleEndian nullMakeBlock) 1 = 44 ∧
    6 + 44 + 6 ≤ nullMakeBlock.length ∧
    ((nullMakeBlock.drop (6 + 44)).take 6).rdropWhile (fun b => b == 0) = [] ∧
    processEntry sampleFmtFloat nullMakeBlock (ifdBytes ByteOrder.LittleEndian nullMakeBlock)
      ByteOrder.LittleEndian 1 { Make := ascii "Canon" } = Go.ret { Make := ascii "Canon" } ∧
    parseEXIFInfo sampleFmtFloat nullMakeBlock = Go.ret (Except.ok { Make := ascii "Canon" }) ∧
    ({ Make := ascii "Canon" } : ExifPayload).field "Make" ≠
      ((nullMakeBlock.drop (6 + 44)).take 6).rdropWhile (fun b => b == 0) := by
  decide!

/-! ## Last write wins, and where field values come from -/

/-- A successful parse comes from a structurally valid block, and its record
is the one the IFD loop builds. -/
theorem parseEXIFInfo_ok_inv (fmtFloat : Nat → Nat → GoString) (data : List UInt8)
    (p : ExifPayload) (h : parseEXIFInfo fmtFloat data = Go.ret (Except.ok p)) :
    ∃ endian, 14 ≤ data.length ∧ data.take 6 = exifIdentifier ∧
      byteOrderMark data = some endian ∧ u16At endian data 8 = 42 ∧
      6 + firstIfdOffset endian data + 2 ≤ data.length ∧
      ifdLoop fmtFloat data (ifdBytes endian data) endian (ifdEntryCount endian data) 0 {} =
        Go.ret p := by
  by_cases h14 : 14 ≤ data.length
  · rw [parseEXIFInfo_eq fmtFloat data h14] at h
    by_cases hx : data.take 6 ≠ exifIdentifier
    · rw [if_pos hx] at h; cases h
    · rw [if_neg hx] at h
      cases hbo : byteOrderMark data with
      | none => rw [hbo] at h; cases h
      | some endian =>
        rw [hbo] at h
        simp only [] at h
        by_cases hm : u16At endian data 8 ≠ 42
        · rw [if_pos hm] at h; cases h
        · rw [if_neg hm] at h
          by_cases hd : data.length < 6 + firstIfdOffset endian data + 2
          · rw [if_pos hd] at h; cases h
          · rw [if_neg hd] at h
            obtain ⟨q, hq⟩ := ifdLoop_total fmtFloat data (ifdBytes endian data) endian
              (ifdEntryCount endian data) 0 {}
              (by have := ifdEntryCount_lt endian data; omega)
            rw [hq, Go.ret_bind] at h
            cases h
            exact ⟨endian, h14, not_not.mp hx, rfl, not_not.mp hm, by omega, hq⟩
  · unfold parseEXIFInfo at h
    rw [if_pos (by omega)] at h
    cases h

/-- What a decoded entry stands for: it lies inside the IFD, its value size
is not 0, its value bytes resolve and decode to the non-empty string. -/
theorem entryDecoded_some (fmtFloat : Nat → Nat → GoString) (endian : ByteOrder)
    (data ifdData : List UInt8) (i : Nat) (v : GoString)
    (h : entryDecoded fmtFloat endian data ifdData i = some v) :
    2 + 12 * i + 12 ≤ ifdData.length ∧ entrySize endian ifdData i ≠ 0 ∧ v ≠ [] ∧
    ∃ tagValue, entryValue endian data ifdData i = some tagValue ∧
      decodeTagValue fmtFloat (entryFormat endian ifdData i) tagValue endian = Go.ret v := by
  unfold entryDecoded at h
  by_cases hc : 2 + 12 * i + 12 ≤ ifdData.length ∧ entrySize endian ifdData i ≠ 0
  · rw [if_pos hc] at h
    cases hv : entryValue endian data ifdData i with
    | none => rw [hv] at h; cases h
    | some tagValue =>
      rw [hv] at h
      simp only [] at h
      cases hd : decodeTagValue fmtFloat (entryFormat endian ifdData i) tagValue endian with
      | panic => rw [hd] at h; cases h
      | ret value =>
        rw [hd] at h
        simp only [] at h
        by_cases he : value = []
        · rw [if_pos he] at h; cases h
        · rw [if_neg he] at h
          cases h
          exact ⟨hc.1, hc.2, he, tagValue, rfl, hd⟩
  · rw [if_neg hc] at h; cases h

/-- Two tags of the table with the same name are the same tag. -/
theorem exifTagNames_tag_of_name (t1 t2 : Nat) (name : String)
    (h1 : exifTagNames.lookup t1 = some name) (h2 : exifTagNames.lookup t2 = some name) :
    t1 = t2 := by
  have m1 := lookup_some_mem exifTagNames t1 name h1
  have m2 := lookup_some_mem exifTagNames t2 name h2
  have := List.inj_on_of_nodup_map exifTagNames_names_nodup m1 m2 rfl
  exact congrArg Prod.fst this

theorem not_mem_of_lookup_none (l : List (Nat × String)) (tagID : Nat)
    (h : l.lookup tagID = none) : tagID ∉ l.map Prod.fst := by
  induction l with
  | nil => simp
  | cons a l ih =>
    obtain ⟨a1, a2⟩ := a
    by_cases hb : tagID = a1
    · subst hb
      simp only [List.lookup_cons, beq_self_eq_true] at h
      cases h
    · have hb2 : (tagID == a1) = false := by simpa using hb
      simp only [List.lookup_cons, hb2] at h
      simp only [List.map_cons, List.mem_cons, not_or]
      exact ⟨hb, ih h⟩

/-- The name `getTagName` gives is a table name only for a tag of the table. -/
theorem getTagName_eq_known (tagID : Nat) (name : String)
    (hname : name ∈ exifTagNames.map Prod.snd) (h : getTagName tagID = name) :
    exifTagNames.lookup tagID = some name := by
  cases hl : exifTagNames.lookup tagID with
  | none =>
    exfalso
    exact getTagName_unknown tagID (not_mem_of_lookup_none _ _ hl) (h ▸ hname)
  | some g =>
    unfold getTagName at h
    rw [hl] at h
    simp only [] at h
    rw [h]

/-- An entry that does not decode, or whose tag is not the tag of the field
`F`, leaves the field `F` as it is. -/
theorem applyEntry_frame (fmtFloat : Nat → Nat → GoString) (endian : ByteOrder)
    (data ifdData : List UInt8) (payload : ExifPayload) (k tagID : Nat) (F : String)
    (hname : exifTagNames.lookup tagID = some F)
    (hk : entryTag endian ifdData k = tagID →
      entryDecoded fmtFloat endian data ifdData k = none) :
    (applyEntry fmtFloat endian data ifdData payload k).field F = payload.field F := by
  unfold applyEntry
  cases hd : entryDecoded fmtFloat endian data ifdData k with
  | none => rfl
  | some v =>
    simp only []
    apply field_assign_other
    intro he
    have hF : F ∈ exifTagNames.map Prod.snd :=
      List.mem_map.mpr ⟨(tagID, F), lookup_some_mem _ _ _ hname, rfl⟩
    have h1 := getTagName_eq_known _ F hF he.symm
    have h2 := exifTagNames_tag_of_name _ _ F h1 hname
    rw [hk h2] at hd
    cases hd

/-- A decoding entry with a known tag writes its value to the tag's field. -/
theorem applyEntry_write (fmtFloat : Nat → Nat → GoString) (endian : ByteOrder)
    (data ifdData : List UInt8) (payload : ExifPayload) (j : Nat) (F : String) (v : GoString)
    (hname : exifTagNames.lookup (entryTag endian ifdData j) = some F)
    (hv : entryDecoded fmtFloat endian data ifdData j = some v) :
    (applyEntry fmtFloat endian data ifdData payload j).field F = v := by
  obtain ⟨h1, _, hmem⟩ := getTagName_known _ F hname
  unfold applyEntry
  rw [hv]
  simp only [h1]
  exact (field_assign_same payload v (entryTag endian ifdData j, F) hmem).2

/-- A run of the loop over entries that do not decode or carry another tag
keeps the field `F`. -/
theorem ifdLoop_frame (fmtFloat : Nat → Nat → GoString) (data ifdData : List UInt8)
    (endian : ByteOrder) (tagID : Nat) (F : String)
    (hname : exifTagNames.lookup tagID = some F) :
    ∀ (m s : Nat) (payload : ExifPayload), s + m ≤ 65536 →
      (∀ k, s ≤ k → k < s + m → entryTag endian ifdData k = tagID →
        entryDecoded fmtFloat endian data ifdData k = none) →
      ∃ q, ifdLoop fmtFloat data ifdData endian m s payload = Go.ret q ∧
        q.field F = payload.field F := by
  intro m
  induction m with
  | zero => intro s payload _ _; exact ⟨payload, ifdLoop_zero _ _ _ _ _ _, rfl⟩
  | succ m ih =>
    intro s payload hs hk
    rw [ifdLoop_succ, processEntry_apply fmtFloat data ifdData endian s payload (by omega),
      Go.ret_bind]
    obtain ⟨q, hq, hf⟩ := ih (s + 1) (applyEntry fmtFloat endian data ifdData payload s)
      (by omega) (fun k h1 h2 => hk k (by omega) (by omega))
    refine ⟨q, hq, ?_⟩
    rw [hf]
    exact applyEntry_frame fmtFloat endian data ifdData payload s tagID F hname
      (hk s (by omega) (by omega))

/-- C14: in a valid EXIF block whose IFD holds entries i < j < entry count
with the same tag ID, known to `exifTagNames` under the field name F, both
in bounds and decoding to non-empty values vi and vj, and no later entry
with that tag ID decoding to a non-empty value, `parseEXIFInfo` succeeds and
field F of its record holds vj; the loop over entries 0..i had written vi
there, which entry j then overwrote. -/
theorem parseEXIFInfo_last_write_wins (fmtFloat : Nat → Nat → GoString)
    (data : List UInt8) (endian : ByteOrder) (i j : Nat) (F : String) (vi vj : GoString)
    (h14 : 14 ≤ data.length) (hid : data.take 6 = exifIdentifier)
    (hbo : byteOrderMark data = some endian) (hmagic : u16At endian data 8 = 42)
    (hifd : 6 + firstIfdOffset endian data + 2 ≤ data.length)
    (hij : i < j) (hj : j < ifdEntryCount endian data)
    (htag : entryTag endian (ifdBytes endian data) i = entryTag endian (ifdBytes endian data) j)
    (hname : exifTagNames.lookup (entryTag endian (ifdBytes endian data) j) = some F)
    (hvi : entryDecoded fmtFloat endian data (ifdBytes endian data) i = some vi)
    (hvj : entryDecoded fmtFloat endian data (ifdBytes endian data) j = some vj)
    (hlater : ∀ k, j < k → k < ifdEntryCount endian data →
      entryTag endian (ifdBytes endian data) k = entryTag endian (ifdBytes endian data) j →
      entryDecoded fmtFloat endian data (ifdBytes endian data) k = none) :
    (∃ p, parseEXIFInfo fmtFloat data = Go.ret (Except.ok p) ∧ p.field F = vj) ∧
    (∃ q, ifdLoop fmtFloat data (ifdBytes endian data) endian (i + 1) 0 {} = Go.ret q ∧
      q.field F = vi) := by
  have hn := ifdEntryCount_lt endian data
  have hparse := parseEXIFInfo_valid fmtFloat data endian h14 hid hbo hmagic hifd
  generalize ifdBytes endian data = ifdData at *
  generalize ifdEntryCount endian data = n at *
  constructor
  · have hsplit : n = j + (1 + (n - j - 1)) := by omega
    obtain ⟨q0, hq0⟩ := ifdLoop_total fmtFloat data ifdData endian j 0 {} (by omega)
    obtain ⟨q2, hq2, hf2⟩ := ifdLoop_frame fmtFloat data ifdData endian _ F hname
      (n - j - 1) (j + 1) (applyEntry fmtFloat endian data ifdData q0 j) (by omega)
      (fun k h1 h2 => hlater k (by omega) (by omega))
    refine ⟨q2, ?_, ?_⟩
    · rw [hparse, hsplit, ifdLoop_add, hq0, Go.ret_bind, ifdLoop_add, ifdLoop_succ,
        processEntry_apply fmtFloat data ifdData endian _ q0 (by omega), Go.ret_bind,
        ifdLoop_zero, Go.ret_bind]
      have h0 : 0 + j = j := Nat.zero_add j
      rw [h0, hq2, Go.ret_bind]
    · rw [hf2]
      exact applyEntry_write fmtFloat endian data ifdData q0 j F vj hname hvj
  · obtain ⟨q0, hq0⟩ := ifdLoop_total fmtFloat data ifdData endian i 0 {} (by omega)
    refine ⟨applyEntry fmtFloat endian data ifdData q0 i, ?_, ?_⟩
    · rw [ifdLoop_add, hq0, Go.ret_bind, ifdLoop_succ,
        processEntry_apply fmtFloat data ifdData endian _ q0 (by omega), Go.ret_bind,
        ifdLoop_zero, Nat.zero_add]
    · exact applyEntry_write fmtFloat endian data ifdData q0 i F vi (htag ▸ hname) hvi

theorem lookup_all_empty (l : List (String × GoString)) (F : String)
    (h : ∀ x ∈ l, x.2 = []) : (l.lookup F).getD [] = [] := by
  induction l with
  | nil => rfl
  | cons a l ih =>
    obtain ⟨a1, a2⟩ := a
    by_cases hb : F = a1
    · subst hb
      simp only [List.lookup_cons, beq_self_eq_true, Option.getD_some]
      exact h (F, a2) (List.mem_cons_self _ _)
    · have hb2 : (F == a1) = false := by simpa using hb
      simp only [List.lookup_cons, hb2]
      exact ih (fun x hx => h x (List.mem_cons_of_mem _ hx))

/-- Every field of the empty record is the empty string. -/
theorem field_empty (F : String) : ({} : ExifPayload).field F = [] := by
  unfold ExifPayload.field
  apply lookup_all_empty
  decide

/-- The loop keeps the property that every non-empty field is the decoded
value of an in-bounds entry already visited whose tag names the field. -/
theorem ifdLoop_provenance (fmtFloat : Nat → Nat → GoString) (data ifdData : List UInt8)
    (endian : ByteOrder) :
    ∀ (m s : Nat) (payload q : ExifPayload), s + m ≤ 65536 →
      ifdLoop fmtFloat data ifdData endian m s payload = Go.ret q →
      (∀ F, payload.field F ≠ [] → ∃ k, k < s ∧
        exifTagNames.lookup (entryTag endian ifdData k) = some F ∧
        entryDecoded fmtFloat endian data ifdData k = some (payload.field F)) →
      ∀ F, q.field F ≠ [] → ∃ k, k < s + m ∧
        exifTagNames.lookup (entryTag endian ifdData k) = some F ∧
        entryDecoded fmtFloat endian data ifdData k = some (q.field F) := by
  intro m
  induction m with
  | zero =>
    intro s payload q _ hq hinv
    rw [ifdLoop_zero] at hq
    cases hq
    exact hinv
  | succ m ih =>
    intro s payload q hs hq hinv
    rw [ifdLoop_succ, processEntry_apply fmtFloat data ifdData endian s payload (by omega),
      Go.ret_bind] at hq
    have hstep : ∀ F, (applyEntry fmtFloat endian data ifdData payload s).field F ≠ [] →
        ∃ k, k < s + 1 ∧ exifTagNames.lookup (entryTag endian ifdData k) = some F ∧
          entryDecoded fmtFloat endian data ifdData k =
            some ((applyEntry fmtFloat endian data ifdData payload s).field F) := by
      intro F hF
      have hold : (applyEntry fmtFloat endian data ifdData payload s).field F = payload.field F →
          ∃ k, k < s + 1 ∧ exifTagNames.lookup (entryTag endian ifdData k) = some F ∧
            entryDecoded fmtFloat endian data ifdData k =
              some ((applyEntry fmtFloat endian data ifdData payload s).field F) := by
        intro he
        rw [he] at hF ⊢
        obtain ⟨k, hk, h1, h2⟩ := hinv F hF
        exact ⟨k, by omega, h1, h2⟩
      cases hd : entryDecoded fmtFloat endian data ifdData s with
      | none =>
        apply hold
        unfold applyEntry
        rw [hd]
      | some v =>
        by_cases hn : getTagName (entryTag endian ifdData s) = F
        · by_cases hmem : F ∈ exifTagNames.map Prod.snd
          · have hl := getTagName_eq_known _ F hmem hn
            refine ⟨s, by omega, hl, ?_⟩
            rw [applyEntry_write fmtFloat endian data ifdData payload s F v hl hd, hd]
          · apply hold
            unfold applyEntry
            rw [hd]
            simp only [hn]
            rw [assignTagValue_unknown payload F v hmem]
        · apply hold
          unfold applyEntry
          rw [hd]
          exact field_assign_other payload v _ F (fun h => hn h.symm)
    have := ih (s + 1) _ q (by omega) hq hstep
    intro F hF
    obtain ⟨k, hk, h1, h2⟩ := this F hF
    exact ⟨k, by omega, h1, h2⟩

/-- C15: when `parseEXIFInfo` succeeds, every non-empty field F of the
returned record comes from the IFD: there is an entry with index below the
entry count, inside the IFD, with a value size other than 0, whose tag ID
maps to F in `exifTagNames` and whose resolved value bytes `decodeTagValue`
(with the entry's format and the header's byte order) turns into exactly the
string held in F. Every field without such an entry is the empty string. -/
theorem parseEXIFInfo_no_fabricated_values (fmtFloat : Nat → Nat → GoString)
    (data : List UInt8) (p : ExifPayload)
    (h : parseEXIFInfo fmtFloat data = Go.ret (Except.ok p)) :
    ∃ endian, byteOrderMark data = some endian ∧
      ∀ F, p.field F ≠ [] →
        ∃ k, k < ifdEntryCount endian data ∧
          2 + 12 * k + 12 ≤ (ifdBytes endian data).length ∧
          entrySize endian (ifdBytes endian data) k ≠ 0 ∧
          exifTagNames.lookup (entryTag endian (ifdBytes endian data) k) = some F ∧
          ∃ tagValue, entryValue endian data (ifdBytes endian data) k = some tagValue ∧
            decodeTagValue fmtFloat (entryFormat endian (ifdBytes endian data) k) tagValue
              endian = Go.ret (p.field F) := by
  obtain ⟨endian, _, _, hbo, _, _, hloop⟩ := parseEXIFInfo_ok_inv fmtFloat data p h
  refine ⟨endian, hbo, ?_⟩
  intro F hF
  have hn := ifdEntryCount_lt endian data
  obtain ⟨k, hk, h1, h2⟩ := ifdLoop_provenance fmtFloat data (ifdBytes endian data) endian
    (ifdEntryCount endian data) 0 {} p (by omega) hloop
    (fun G hG => absurd (field_empty G) hG) F hF
  obtain ⟨hb, hs, _, tv, hv, hd⟩ := entryDecoded_some fmtFloat endian data _ k _ h2
  exact ⟨k, by omega, hb, hs, h1, tv, hv, hd⟩

theorem parseEXIFInfo_no_fabricated_values_witness :
    ∃ endian, byteOrderMark canonOffsetBlock = some endian ∧
      ∀ F, ({ Make := ascii "Canon" } : ExifPayload).field F ≠ [] →
        ∃ k, k < ifdEntryCount endian canonOffsetBlock ∧
          2 + 12 * k + 12 ≤ (ifdBytes endian canonOffsetBlock).length ∧
          entrySize endian (ifdBytes endian canonOffsetBlock) k ≠ 0 ∧
          exifTagNames.lookup (entryTag endian (ifdBytes endian canonOffsetBlock) k) = some F ∧
          ∃ tagValue, entryValue endian canonOffsetBlock (ifdBytes endian canonOffsetBlock) k =
              some tagValue ∧
            decodeTagValue sampleFmtFloat (entryFormat endian (ifdBytes endian canonOffsetBlock) k)
              tagValue endian = Go.ret (({ Make := ascii "Canon" } : ExifPayload).field F) :=
  parseEXIFInfo_no_fabricated_values sampleFmtFloat canonOffsetBlock { Make := ascii "Canon" }
    (by decide!)

theorem parseEXIFInfo_last_write_wins_witness :
    (∃ p, parseEXIFInfo sampleFmtFloat twoMakeBlock = Go.ret (Except.ok p) ∧
      p.field "Make" = ascii "Xy") ∧
    (∃ q, ifdLoop sampleFmtFloat twoMakeBlock (ifdBytes ByteOrder.LittleEndian twoMakeBlock)
      ByteOrder.LittleEndian (0 + 1) 0 {} = Go.ret q ∧ q.field "Make" = ascii "Abc") :=
  parseEXIFInfo_last_write_wins sampleFmtFloat twoMakeBlock ByteOrder.LittleEndian 0 1 "Make"
    (ascii "Abc") (ascii "Xy") (by decide) (by decide) (by decide) (by decide) (by decide)
    (by decide) (by decide) (by decide) (by decide) (by decide) (by decide)
    (fun k h1 h2 => absurd h2 (by
      have h3 : ifdEntryCount ByteOrder.LittleEndian twoMakeBlock = 2 := by decide
      rw [h3]; omega))

/-! ## Byte-order independence -/

theorem u16At_enc16 (endian : ByteOrder) (v : Nat) (hv : v < 65536) :
    u16At endian (enc16 endian v) 0 = v := by
  cases endian <;> simp [u16At, enc16, toNat_ofNat_byte] <;> omega

theorem u32At_enc32 (endian : ByteOrder) (w : Nat) (hw : w < 4294967296) :
    u32At endian (enc32 endian w) 0 = w := by
  cases endian <;> simp [u32At, enc32, toNat_ofNat_byte] <;> omega

theorem enc16_length (endian : ByteOrder) (v : Nat) : (enc16 endian v).length = 2 := by
  cases endian <;> rfl

theorem enc32_length (endian : ByteOrder) (w : Nat) : (enc32 endian w).length = 4 := by
  cases endian <;> rfl

theorem toDigitsCore_ne_nil (b : Nat) :
    ∀ (f n : Nat) (ds : List Char), ds ≠ [] → Nat.toDigitsCore b f n ds ≠ [] := by
  intro f
  induction f with
  | zero => intro n ds h; exact h
  | succ f ih =>
    intro n ds _
    rw [Nat.toDigitsCore]
    split
    · exact List.cons_ne_nil _ _
    · exact ih _ _ (List.cons_ne_nil _ _)

/-- The decimal rendering of a number is never the empty string. -/
theorem decimal_ne_nil (n : Nat) : decimal n ≠ [] := by
  unfold decimal
  intro h
  have h2 := List.map_eq_nil_iff.mp h
  unfold Nat.toDigits at h2
  rw [Nat.toDigitsCore] at h2
  split at h2
  · exact List.cons_ne_nil _ _ h2
  · exact toDigitsCore_ne_nil 10 _ _ _ (List.cons_ne_nil _ _) h2

/-- A short decodes to the decimal string of its value, whatever the byte
order it is written and read in. -/
theorem decodeTagValue_short (fmtFloat : Nat → Nat → GoString) (endian : ByteOrder) (v : Nat)
    (hv : v < 65536) :
    decodeTagValue fmtFloat 3 (enc16 endian v) endian = Go.ret (decimal v) := by
  unfold decodeTagValue
  rw [if_neg (by decide), if_pos rfl, if_pos (by rw [enc16_length]),
    Uint16_eq endian _ (by rw [enc16_length]), Go.ret_bind, u16At_enc16 endian v hv]

/-- A long decodes to the decimal string of its value, whatever the byte
order it is written and read in. -/
theorem decodeTagValue_long (fmtFloat : Nat → Nat → GoString) (endian : ByteOrder) (w : Nat)
    (hw : w < 4294967296) :
    decodeTagValue fmtFloat 4 (enc32 endian w) endian = Go.ret (decimal w) := by
  unfold decodeTagValue
  rw [if_neg (by decide), if_neg (by decide), if_pos rfl, if_pos (by rw [enc32_length]),
    Uint32_eq endian _ (by rw [enc32_length]), Go.ret_bind, u32At_enc32 endian w hw]

theorem shortBlock_header (endian : ByteOrder) (tagID v : Nat) :
    14 ≤ (shortBlock endian tagID v).length ∧
    (shortBlock endian tagID v).take 6 = exifIdentifier ∧
    byteOrderMark (shortBlock endian tagID v) = some endian ∧
    u16At endian (shortBlock endian tagID v) 8 = 42 ∧
    firstIfdOffset endian (shortBlock endian tagID v) = 8 ∧
    (shortBlock endian tagID v).length = 28 := by
  cases endian <;>
    simp [shortBlock, exifIdentifier, orderBytes, enc16, enc32, byteOrderMark, u16At,
      firstIfdOffset, u32At, toNat_ofNat_byte]

theorem shortBlock_entry (endian : ByteOrder) (tagID v : Nat) (ht : tagID < 65536) :
    ifdEntryCount endian (shortBlock endian tagID v) = 1 ∧
    (ifdBytes endian (shortBlock endian tagID v)).length = 14 ∧
    entryTag endian (ifdBytes endian (shortBlock endian tagID v)) 0 = tagID ∧
    entryFormat endian (ifdBytes endian (shortBlock endian tagID v)) 0 = 3 ∧
    entryComponents endian (ifdBytes endian (shortBlock endian tagID v)) 0 = 1 ∧
    ((ifdBytes endian (shortBlock endian tagID v)).drop (2 + 12 * 0 + 8)).take 2 =
      enc16 endian v := by
  have h8 := (shortBlock_header endian tagID v).2.2.2.2.1
  unfold ifdEntryCount ifdBytes
  rw [h8]
  cases endian <;>
    simp [shortBlock, exifIdentifier, orderBytes, enc16, enc32, u16At, u32At, entryTag,
      entryFormat, entryComponents, toNat_ofNat_byte] <;> omega

theorem longBlock_header (endian : ByteOrder) (tagID w : Nat) :
    14 ≤ (longBlock endian tagID w).length ∧
    (longBlock endian tagID w).take 6 = exifIdentifier ∧
    byteOrderMark (longBlock endian tagID w) = some endian ∧
    u16At endian (longBlock endian tagID w) 8 = 42 ∧
    firstIfdOffset endian (longBlock endian tagID w) = 8 ∧
    (longBlock endian tagID w).length = 28 := by
  cases endian <;>
    simp [longBlock, exifIdentifier, orderBytes, enc16, enc32, byteOrderMark, u16At,
      firstIfdOffset, u32At, toNat_ofNat_byte]

theorem longBlock_entry (endian : ByteOrder) (tagID w : Nat) (ht : tagID < 65536) :
    ifdEntryCount endian (longBlock endian tagID w) = 1 ∧
    (ifdBytes endian (longBlock endian tagID w)).length = 14 ∧
    entryTag endian (ifdBytes endian (longBlock endian tagID w)) 0 = tagID ∧
    entryFormat endian (ifdBytes endian (longBlock endian tagID w)) 0 = 4 ∧
    entryComponents endian (ifdBytes endian (longBlock endian tagID w)) 0 = 1 ∧
    ((ifdBytes endian (longBlock endian tagID w)).drop (2 + 12 * 0 + 8)).take 4 =
      enc32 endian w := by
  have h8 := (longBlock_header endian tagID w).2.2.2.2.1
  unfold ifdEntryCount ifdBytes
  rw [h8]
  cases endian <;>
    simp [longBlock, exifIdentifier, orderBytes, enc16, enc32, u16At, u32At, entryTag,
      entryFormat, entryComponents, toNat_ofNat_byte] <;> omega

/-- The dispatch of an entry whose value decodes to a non-empty string is
the assignment under the tag's name. -/
theorem dispatchEntry_assign (fmtFloat : Nat → Nat → GoString) (endian : ByteOrder)
    (payload : ExifPayload) (tagID dataFormat : Nat) (tagValue : List UInt8) (value : GoString)
    (hv : decodeTagValue fmtFloat dataFormat tagValue endian = Go.ret value) (hne : value ≠ []) :
    dispatchEntry fmtFloat endian payload tagID dataFormat tagValue =
      Go.ret (assignTagValue payload (getTagName tagID) value) := by
  unfold dispatchEntry
  by_cases he : getTagName tagID = ""
  · simp only [he, if_true]
    rw [assignTagValue_unknown payload "" value empty_name_unknown]
  · simp only [he, if_false, hv, Go.ret_bind, if_neg hne]

theorem shortBlock_parse (fmtFloat : Nat → Nat → GoString) (endian : ByteOrder)
    (tagID v : Nat) (ht : tagID < 65536) (hv : v < 65536) :
    parseEXIFInfo fmtFloat (shortBlock endian tagID v) =
      Go.ret (Except.ok (assignTagValue {} (getTagName tagID) (decimal v))) := by
  obtain ⟨h14, hid, hbo, hmagic, hoff, hlen⟩ := shortBlock_header endian tagID v
  obtain ⟨hcount, hil, htag, hfmt, hcnt, hval⟩ := shortBlock_entry endian tagID v ht
  have hsize : entrySize endian (ifdBytes endian (shortBlock endian tagID v)) 0 = 2 := by
    unfold entrySize; rw [hfmt, hcnt]; rfl
  have hvalue : entryValue endian (shortBlock endian tagID v)
      (ifdBytes endian (shortBlock endian tagID v)) 0 = some (enc16 endian v) := by
    unfold entryValue
    rw [hsize, if_pos (by omega), hval]
  rw [parseEXIFInfo_valid fmtFloat _ endian h14 hid hbo hmagic (by omega), hcount, ifdLoop_succ,
    processEntry_eq fmtFloat _ _ endian 0 {} (by omega) (by omega), hsize, if_neg (by omega),
    hvalue, htag, hfmt]
  simp only []
  rw [dispatchEntry_assign fmtFloat endian {} tagID 3 _ _
    (decodeTagValue_short fmtFloat endian v hv) (decimal_ne_nil v), Go.ret_bind, ifdLoop_zero,
    Go.ret_bind]

theorem longBlock_parse (fmtFloat : Nat → Nat → GoString) (endian : ByteOrder)
    (tagID w : Nat) (ht : tagID < 65536) (hw : w < 4294967296) :
    parseEXIFInfo fmtFloat (longBlock endian tagID w) =
      Go.ret (Except.ok (assignTagValue {} (getTagName tagID) (decimal w))) := by
  obtain ⟨h14, hid, hbo, hmagic, hoff, hlen⟩ := longBlock_header endian tagID w
  obtain ⟨hcount, hil, htag, hfmt, hcnt, hval⟩ := longBlock_entry endian tagID w ht
  have hsize : entrySize endian (ifdBytes endian (longBlock endian tagID w)) 0 = 4 := by
    unfold entrySize; rw [hfmt, hcnt]; rfl
  have hvalue : entryValue endian (longBlock endian tagID w)
      (ifdBytes endian (longBlock endian tagID w)) 0 = some (enc32 endian w) := by
    unfold entryValue
    rw [hsize, if_pos (by omega), hval]
  rw [parseEXIFInfo_valid fmtFloat _ endian h14 hid hbo hmagic (by omega), hcount, ifdLoop_succ,
    processEntry_eq fmtFloat _ _ endian 0 {} (by omega) (by omega), hsize, if_neg (by omega),
    hvalue, htag, hfmt]
  simp only []
  rw [dispatchEntry_assign fmtFloat endian {} tagID 4 _ _
    (decodeTagValue_long fmtFloat endian w hw) (decimal_ne_nil w), Go.ret_bind, ifdLoop_zero,
    Go.ret_bind]

/-- The resolved value bytes of an in-bounds entry are as many as its size. -/
theorem entryValue_length (endian : ByteOrder) (data ifdData : List UInt8) (i : Nat)
    (value : List UInt8) (hb : 2 + 12 * i + 12 ≤ ifdData.length)
    (h : entryValue endian data ifdData i = some value) :
    value.length = entrySize endian ifdData i := by
  unfold entryValue at h
  by_cases h4 : entrySize endian ifdData i ≤ 4
  · rw [if_pos h4] at h
    cases h
    rw [List.length_take, List.length_drop]
    omega
  · rw [if_neg h4] at h
    by_cases hfit : data.length < 6 + entryOffset endian ifdData i + entrySize endian ifdData i
    · rw [if_pos hfit] at h; cases h
    · rw [if_neg hfit] at h
      cases h
      rw [List.length_take, List.length_drop]
      omega

theorem decodeTagValue_short_eq (fmtFloat : Nat → Nat → GoString) (endian : ByteOrder)
    (value : List UInt8) (hl : 2 ≤ value.length) :
    decodeTagValue fmtFloat 3 value endian = Go.ret (decimal (u16At endian value 0)) := by
  unfold decodeTagValue
  rw [if_neg (by decide), if_pos rfl, if_pos hl, Uint16_eq endian _ hl, Go.ret_bind]

theorem decodeTagValue_long_eq (fmtFloat : Nat → Nat → GoString) (endian : ByteOrder)
    (value : List UInt8) (hl : 4 ≤ value.length) :
    decodeTagValue fmtFloat 4 value endian = Go.ret (decimal (u32At endian value 0)) := by
  unfold decodeTagValue
  rw [if_neg (by decide), if_neg (by decide), if_pos rfl, if_pos hl, Uint32_eq endian _ hl,
    Go.ret_bind]

theorem decodeTagValue_rational_eq (fmtFloat : Nat → Nat → GoString) (endian : ByteOrder)
    (value : List UInt8) (hl : 8 ≤ value.length) :
    decodeTagValue fmtFloat 5 value endian =
      Go.ret (if u32At endian value 4 ≠ 0 then
        fmtFloat (u32At endian value 0) (u32At endian value 4) else []) := by
  unfold decodeTagValue
  rw [if_neg (by decide), if_neg (by decide), if_neg (by decide), if_pos rfl, if_pos hl,
    slice_eq value 0 4 (by omega) (by omega) (by omega),
    slice_eq value 4 8 (by omega) (by omega) (by omega)]
  simp only [Go.ret_bind]
  rw [Uint32_eq endian _ (by simp only [List.length_drop, List.length_take]; omega)]
  simp only [Go.ret_bind]
  rw [Uint32_eq endian _ (by simp only [List.length_drop, List.length_take]; omega)]
  simp only [Go.ret_bind]
  have h8 : (8 : Int).toNat = 8 := rfl
  have h4 : (4 : Int).toNat = 4 := rfl
  have h0 : (0 : Int).toNat = 0 := rfl
  rw [h8, h4, h0, u32At_take_drop endian value 4 8 0 (by omega),
    u32At_take_drop endian value 0 4 0 (by omega)]
  split_ifs <;> rfl

theorem decodeTagValue_other (fmtFloat : Nat → Nat → GoString) (endian : ByteOrder)
    (format : Nat) (value : List UInt8) (h2 : format ≠ 2) (h3 : format ≠ 3) (h4 : format ≠ 4)
    (h5 : format ≠ 5) : decodeTagValue fmtFloat format value endian = Go.ret [] := by
  unfold decodeTagValue
  rw [if_neg h2, if_neg h3, if_neg h4, if_neg h5]

/-- Two value byte strings of the same format and size that agree on what
the decoder reads from them (the bytes for ascii, the first u16 for a short,
the first u32 for a long, the first two u32 for a rational, each in its own
byte order) decode to the same string. -/
theorem decodeTagValue_congr (fmtFloat : Nat → Nat → GoString) (e1 e2 : ByteOrder)
    (format count : Nat) (v1 v2 : List UInt8)
    (hl1 : v1.length = count * componentSize format)
    (hl2 : v2.length = count * componentSize format)
    (hc : count * componentSize format ≠ 0)
    (h2 : format = 2 → v1 = v2)
    (h3 : format = 3 → u16At e1 v1 0 = u16At e2 v2 0)
    (h4 : format = 4 → u32At e1 v1 0 = u32At e2 v2 0)
    (h5 : format = 5 → u32At e1 v1 0 = u32At e2 v2 0 ∧ u32At e1 v1 4 = u32At e2 v2 4) :
    decodeTagValue fmtFloat format v1 e1 = decodeTagValue fmtFloat format v2 e2 := by
  have hc0 : count ≠ 0 := fun h => hc (by rw [h, Nat.zero_mul])
  by_cases f2 : format = 2
  · subst f2
    rw [h2 rfl, decodeTagValue_ascii, decodeTagValue_ascii]
  by_cases f3 : format = 3
  · subst f3
    have hs : componentSize 3 = 2 := rfl
    rw [hs] at hl1 hl2
    rw [decodeTagValue_short_eq fmtFloat e1 v1 (by omega),
      decodeTagValue_short_eq fmtFloat e2 v2 (by omega), h3 rfl]
  by_cases f4 : format = 4
  · subst f4
    have hs : componentSize 4 = 4 := rfl
    rw [hs] at hl1 hl2
    rw [decodeTagValue_long_eq fmtFloat e1 v1 (by omega),
      decodeTagValue_long_eq fmtFloat e2 v2 (by omega), h4 rfl]
  by_cases f5 : format = 5
  · subst f5
    have hs : componentSize 5 = 8 := rfl
    rw [hs] at hl1 hl2
    rw [decodeTagValue_rational_eq fmtFloat e1 v1 (by omega),
      decodeTagValue_rational_eq fmtFloat e2 v2 (by omega), (h5 rfl).1, (h5 rfl).2]
  rw [decodeTagValue_other fmtFloat e1 format v1 f2 f3 f4 f5,
    decodeTagValue_other fmtFloat e2 format v2 f2 f3 f4 f5]

theorem dispatchEntry_congr (fmtFloat : Nat → Nat → GoString) (e1 e2 : ByteOrder)
    (payload : ExifPayload) (tagID format : Nat) (v1 v2 : List UInt8)
    (h : decodeTagValue fmtFloat format v1 e1 = decodeTagValue fmtFloat format v2 e2) :
    dispatchEntry fmtFloat e1 payload tagID format v1 =
      dispatchEntry fmtFloat e2 payload tagID format v2 := by
  unfold dispatchEntry
  rw [h]

theorem entryValue_none_iff (endian : ByteOrder) (data ifdData : List UInt8) (i : Nat) :
    entryValue endian data ifdData i = none ↔
      (4 < entrySize endian ifdData i ∧
        data.length < 6 + entryOffset endian ifdData i + entrySize endian ifdData i) := by
  unfold entryValue
  by_cases h4 : entrySize endian ifdData i ≤ 4
  · rw [if_pos h4]
    constructor
    · intro h; cases h
    · intro h; omega
  · rw [if_neg h4]
    by_cases hfit : data.length < 6 + entryOffset endian ifdData i + entrySize endian ifdData i
    · rw [if_pos hfit]
      exact ⟨fun _ => ⟨by omega, hfit⟩, fun _ => rfl⟩
    · rw [if_neg hfit]
      constructor
      · intro h; cases h
      · intro h; exact absurd h.2 hfit

/-- The loop body gives the same result on two blocks, each read in its own
byte order, when the entry reads the same in both: same tag, format and
count, same value offset when the value is not inline, and value bytes that
agree on what the decoder reads from them. -/
theorem processEntry_congr (fmtFloat : Nat → Nat → GoString) (d1 d2 ifd1 ifd2 : List UInt8)
    (e1 e2 : ByteOrder) (i : Nat) (payload : ExifPayload) (hi : i < 65536)
    (hlen : d1.length = d2.length) (hil : ifd1.length = ifd2.length)
    (hent : 2 + 12 * i + 12 ≤ ifd1.length →
      entryTag e1 ifd1 i = entryTag e2 ifd2 i ∧
      entryFormat e1 ifd1 i = entryFormat e2 ifd2 i ∧
      entryComponents e1 ifd1 i = entryComponents e2 ifd2 i ∧
      (4 < entrySize e1 ifd1 i → entryOffset e1 ifd1 i = entryOffset e2 ifd2 i) ∧
      ∀ v1 ∈ entryValue e1 d1 ifd1 i, ∀ v2 ∈ entryValue e2 d2 ifd2 i,
        (entryFormat e1 ifd1 i = 2 → v1 = v2) ∧
        (entryFormat e1 ifd1 i = 3 → u16At e1 v1 0 = u16At e2 v2 0) ∧
        (entryFormat e1 ifd1 i = 4 → u32At e1 v1 0 = u32At e2 v2 0) ∧
        (entryFormat e1 ifd1 i = 5 →
          u32At e1 v1 0 = u32At e2 v2 0 ∧ u32At e1 v1 4 = u32At e2 v2 4)) :
    processEntry fmtFloat d1 ifd1 e1 i payload = processEntry fmtFloat d2 ifd2 e2 i payload := by
  by_cases hb : 2 + 12 * i + 12 ≤ ifd1.length
  · obtain ⟨htag, hfmt, hcnt, hoff, hval⟩ := hent hb
    have hsize : entrySize e1 ifd1 i = entrySize e2 ifd2 i := by
      unfold entrySize; rw [hfmt, hcnt]
    rw [processEntry_eq fmtFloat d1 ifd1 e1 i payload hi hb,
      processEntry_eq fmtFloat d2 ifd2 e2 i payload hi (by omega), ← hsize]
    by_cases h0 : entrySize e1 ifd1 i = 0
    · rw [if_pos h0, if_pos h0]
    · rw [if_neg h0, if_neg h0]
      cases hv1 : entryValue e1 d1 ifd1 i with
      | none =>
        have hn := (entryValue_none_iff e1 d1 ifd1 i).mp hv1
        have hv2 : entryValue e2 d2 ifd2 i = none := by
          rw [entryValue_none_iff, ← hsize, ← hoff hn.1, ← hlen]
          exact hn
        rw [hv2]
      | some v1 =>
        cases hv2 : entryValue e2 d2 ifd2 i with
        | none =>
          exfalso
          have hn := (entryValue_none_iff e2 d2 ifd2 i).mp hv2
          rw [← hsize] at hn
          have hv1n : entryValue e1 d1 ifd1 i = none := by
            rw [entryValue_none_iff, hoff hn.1, hlen]
            exact hn
          rw [hv1n] at hv1
          cases hv1
        | some v2 =>
          simp only []
          obtain ⟨c2, c3, c4, c5⟩ := hval v1 hv1 v2 hv2
          have hl1 := entryValue_length e1 d1 ifd1 i v1 hb hv1
          have hl2 := entryValue_length e2 d2 ifd2 i v2 (by omega) hv2
          rw [← hsize] at hl2
          rw [← htag, ← hfmt]
          exact dispatchEntry_congr fmtFloat e1 e2 payload _ _ v1 v2
            (decodeTagValue_congr fmtFloat e1 e2 _ (entryComponents e1 ifd1 i) v1 v2 hl1 hl2 h0
              c2 c3 c4 c5)
  · rw [processEntry_oob fmtFloat d1 ifd1 e1 i payload hi (by omega),
      processEntry_oob fmtFloat d2 ifd2 e2 i payload hi (by omega)]

theorem ifdLoop_congr (fmtFloat : Nat → Nat → GoString) (d1 d2 ifd1 ifd2 : List UInt8)
    (e1 e2 : ByteOrder) :
    ∀ (m s : Nat) (payload : ExifPayload),
      (∀ i, s ≤ i → i < s + m → ∀ q, processEntry fmtFloat d1 ifd1 e1 i q =
        processEntry fmtFloat d2 ifd2 e2 i q) →
      ifdLoop fmtFloat d1 ifd1 e1 m s payload = ifdLoop fmtFloat d2 ifd2 e2 m s payload := by
  intro m
  induction m with
  | zero => intro s payload _; rw [ifdLoop_zero, ifdLoop_zero]
  | succ m ih =>
    intro s payload h
    rw [ifdLoop_succ, ifdLoop_succ, h s (by omega) (by omega) payload]
    congr 1
    funext q
    exact ih (s + 1) q (fun i h1 h2 => h i (by omega) (by omega))

/-- Two valid blocks, each with its own byte order, that read the same
field by field parse to the same record. -/
theorem parseEXIFInfo_congr (fmtFloat : Nat → Nat → GoString) (d1 d2 : List UInt8)
    (e1 e2 : ByteOrder) (h14 : 14 ≤ d1.length) (hlen : d1.length = d2.length)
    (hid1 : d1.take 6 = exifIdentifier) (hid2 : d2.take 6 = exifIdentifier)
    (hbo1 : byteOrderMark d1 = some e1) (hbo2 : byteOrderMark d2 = some e2)
    (hm1 : u16At e1 d1 8 = 42) (hm2 : u16At e2 d2 8 = 42)
    (hoff : firstIfdOffset e1 d1 = firstIfdOffset e2 d2)
    (hifd : 6 + firstIfdOffset e1 d1 + 2 ≤ d1.length)
    (hcount : ifdEntryCount e1 d1 = ifdEntryCount e2 d2)
    (hent : ∀ i, i < ifdEntryCount e1 d1 → 2 + 12 * i + 12 ≤ (ifdBytes e1 d1).length →
      entryTag e1 (ifdBytes e1 d1) i = entryTag e2 (ifdBytes e2 d2) i ∧
      entryFormat e1 (ifdBytes e1 d1) i = entryFormat e2 (ifdBytes e2 d2) i ∧
      entryComponents e1 (ifdBytes e1 d1) i = entryComponents e2 (ifdBytes e2 d2) i ∧
      (4 < entrySize e1 (ifdBytes e1 d1) i →
        entryOffset e1 (ifdBytes e1 d1) i = entryOffset e2 (ifdBytes e2 d2) i) ∧
      ∀ v1 ∈ entryValue e1 d1 (ifdBytes e1 d1) i, ∀ v2 ∈ entryValue e2 d2 (ifdBytes e2 d2) i,
        (entryFormat e1 (ifdBytes e1 d1) i = 2 → v1 = v2) ∧
        (entryFormat e1 (ifdBytes e1 d1) i = 3 → u16At e1 v1 0 = u16At e2 v2 0) ∧
        (entryFormat e1 (ifdBytes e1 d1) i = 4 → u32At e1 v1 0 = u32At e2 v2 0) ∧
        (entryFormat e1 (ifdBytes e1 d1) i = 5 →
          u32At e1 v1 0 = u32At e2 v2 0 ∧ u32At e1 v1 4 = u32At e2 v2 4)) :
    ∃ p, parseEXIFInfo fmtFloat d1 = Go.ret (Except.ok p) ∧
      parseEXIFInfo fmtFloat d2 = Go.ret (Except.ok p) := by
  have hn := ifdEntryCount_lt e1 d1
  have hil : (ifdBytes e1 d1).length = (ifdBytes e2 d2).length := by
    unfold ifdBytes
    rw [List.length_drop, List.length_drop, hoff, hlen]
  have hloop := ifdLoop_congr fmtFloat d1 d2 (ifdBytes e1 d1) (ifdBytes e2 d2) e1 e2
    (ifdEntryCount e1 d1) 0 {}
    (fun i _ h2 q => processEntry_congr fmtFloat d1 d2 _ _ e1 e2 i q (by omega) hlen hil
      (hent i (by omega)))
  obtain ⟨p, hp⟩ := ifdLoop_total fmtFloat d1 (ifdBytes e1 d1) e1 (ifdEntryCount e1 d1) 0 {}
    (by omega)
  refine ⟨p, ?_, ?_⟩
  · rw [parseEXIFInfo_valid fmtFloat d1 e1 h14 hid1 hbo1 hm1 hifd, hp, Go.ret_bind]
  · rw [parseEXIFInfo_valid fmtFloat d2 e2 (by omega) hid2 hbo2 hm2 (by omega), ← hcount,
      ← hloop, hp, Go.ret_bind]

theorem mixedBlock_parse :
    parseEXIFInfo sampleFmtFloat mixedBlockLittle =
      Go.ret (Except.ok
        { Orientation := ascii "6", PixelXDimension := ascii "4000", Make := ascii "Canon",
          ExposureTime := ascii "1/250" }) ∧
    parseEXIFInfo sampleFmtFloat mixedBlockBig =
      Go.ret (Except.ok
        { Orientation := ascii "6", PixelXDimension := ascii "4000", Make := ascii "Canon",
          ExposureTime := ascii "1/250" }) := by
  decide!

/-- C12: for every 16-bit value v, `decodeTagValue` of format 3 on the
little-endian bytes of v read little-endian and on the big-endian bytes of v
read big-endian both give the decimal string of v; the same holds for every
32-bit value w with format 4 and the 4-byte encodings. Hence two valid EXIF
blocks d1 and d2 of the same length, with byte orders e1 and e2, that read
the same field by field decode to the same record: when the IFD offset and
the entry count are the same numbers, and every entry inside the IFD has the
same tag ID, format and component count, the same value offset when its
value is not inline (size above 4), and resolved value bytes that give the
decoder the same data (the same bytes for ascii, the same first u16 for a
short, the same first u32 for a long, the same numerator and denominator for
a rational, each read in the block's own byte order), `parseEXIFInfo`
succeeds on both with one and the same record. For the one-entry blocks
`shortBlock` and `longBlock` that record holds the decimal string of the
value under the name of the tag. -/
theorem decode_byte_order_independent (fmtFloat : Nat → Nat → GoString) :
    (∀ v, v < 65536 →
      decodeTagValue fmtFloat 3 (enc16 ByteOrder.LittleEndian v) ByteOrder.LittleEndian =
        Go.ret (decimal v) ∧
      decodeTagValue fmtFloat 3 (enc16 ByteOrder.BigEndian v) ByteOrder.BigEndian =
        Go.ret (decimal v)) ∧
    (∀ w, w < 4294967296 →
      decodeTagValue fmtFloat 4 (enc32 ByteOrder.LittleEndian w) ByteOrder.LittleEndian =
        Go.ret (decimal w) ∧
      decodeTagValue fmtFloat 4 (enc32 ByteOrder.BigEndian w) ByteOrder.BigEndian =
        Go.ret (decimal w)) ∧
    (∀ tagID v, tagID < 65536 → v < 65536 →
      parseEXIFInfo fmtFloat (shortBlock ByteOrder.LittleEndian tagID v) =
        parseEXIFInfo fmtFloat (shortBlock ByteOrder.BigEndian tagID v) ∧
      parseEXIFInfo fmtFloat (shortBlock ByteOrder.BigEndian tagID v) =
        Go.ret (Except.ok (assignTagValue {} (getTagName tagID) (decimal v)))) ∧
    (∀ tagID w, tagID < 65536 → w < 4294967296 →
      parseEXIFInfo fmtFloat (longBlock ByteOrder.LittleEndian tagID w) =
        parseEXIFInfo fmtFloat (longBlock ByteOrder.BigEndian tagID w) ∧
      parseEXIFInfo fmtFloat (longBlock ByteOrder.BigEndian tagID w) =
        Go.ret (Except.ok (assignTagValue {} (getTagName tagID) (decimal w)))) ∧
    (∀ (d1 d2 : List UInt8) (e1 e2 : ByteOrder),
      14 ≤ d1.length → d1.length = d2.length →
      d1.take 6 = exifIdentifier → d2.take 6 = exifIdentifier →
      byteOrderMark d1 = some e1 → byteOrderMark d2 = some e2 →
      u16At e1 d1 8 = 42 → u16At e2 d2 8 = 42 →
      firstIfdOffset e1 d1 = firstIfdOffset e2 d2 →
      6 + firstIfdOffset e1 d1 + 2 ≤ d1.length →
      ifdEntryCount e1 d1 = ifdEntryCount e2 d2 →
      (∀ i, i < ifdEntryCount e1 d1 → 2 + 12 * i + 12 ≤ (ifdBytes e1 d1).length →
        entryTag e1 (ifdBytes e1 d1) i = entryTag e2 (ifdBytes e2 d2) i ∧
        entryFormat e1 (ifdBytes e1 d1) i = entryFormat e2 (ifdBytes e2 d2) i ∧
        entryComponents e1 (ifdBytes e1 d1) i = entryComponents e2 (ifdBytes e2 d2) i ∧
        (4 < entrySize e1 (ifdBytes e1 d1) i →
          entryOffset e1 (ifdBytes e1 d1) i = entryOffset e2 (ifdBytes e2 d2) i) ∧
        ∀ v1 ∈ entryValue e1 d1 (ifdBytes e1 d1) i,
          ∀ v2 ∈ entryValue e2 d2 (ifdBytes e2 d2) i,
            (entryFormat e1 (ifdBytes e1 d1) i = 2 → v1 = v2) ∧
            (entryFormat e1 (ifdBytes e1 d1) i = 3 → u16At e1 v1 0 = u16At e2 v2 0) ∧
            (entryFormat e1 (ifdBytes e1 d1) i = 4 → u32At e1 v1 0 = u32At e2 v2 0) ∧
            (entryFormat e1 (ifdBytes e1 d1) i = 5 →
              u32At e1 v1 0 = u32At e2 v2 0 ∧ u32At e1 v1 4 = u32At e2 v2 4)) →
      ∃ p, parseEXIFInfo fmtFloat d1 = Go.ret (Except.ok p) ∧
        parseEXIFInfo fmtFloat d2 = Go.ret (Except.ok p)) := by
  refine ⟨fun v hv => ⟨decodeTagValue_short fmtFloat _ v hv, decodeTagValue_short fmtFloat _ v hv⟩,
    fun w hw => ⟨decodeTagValue_long fmtFloat _ w hw, decodeTagValue_long fmtFloat _ w hw⟩,
    fun tagID v ht hv => ⟨?_, shortBlock_parse fmtFloat _ tagID v ht hv⟩,
    fun tagID w ht hw => ⟨?_, longBlock_parse fmtFloat _ tagID w ht hw⟩, ?_⟩
  · rw [shortBlock_parse fmtFloat _ tagID v ht hv, shortBlock_parse fmtFloat _ tagID v ht hv]
  · rw [longBlock_parse fmtFloat _ tagID w ht hw, longBlock_parse fmtFloat _ tagID w ht hw]
  · intro d1 d2 e1 e2 h14 hlen hid1 hid2 hbo1 hbo2 hm1 hm2 hoff hifd hcount hent
    exact parseEXIFInfo_congr fmtFloat d1 d2 e1 e2 h14 hlen hid1 hid2 hbo1 hbo2 hm1 hm2 hoff
      hifd hcount hent

theorem decode_byte_order_independent_witness :
    (decodeTagValue sampleFmtFloat 3 [0x34, 0x12] ByteOrder.LittleEndian =
      Go.ret (ascii "4660") ∧
    decodeTagValue sampleFmtFloat 3 [0x12, 0x34] ByteOrder.BigEndian = Go.ret (ascii "4660")) ∧
    parseEXIFInfo sampleFmtFloat (shortBlock ByteOrder.LittleEndian 0x0112 4660) =
      parseEXIFInfo sampleFmtFloat (shortBlock ByteOrder.BigEndian 0x0112 4660) ∧
    ∃ p, parseEXIFInfo sampleFmtFloat mixedBlockLittle = Go.ret (Except.ok p) ∧
      parseEXIFInfo sampleFmtFloat mixedBlockBig = Go.ret (Except.ok p) :=
  have h := decode_byte_order_independent sampleFmtFloat
  ⟨h.1 4660 (by decide), (h.2.2.1 0x0112 4660 (by decide) (by decide)).1,
    h.2.2.2.2 mixedBlockLittle mixedBlockBig ByteOrder.LittleEndian ByteOrder.BigEndian
      (by decide) (by decide) (by decide) (by decide) (by decide) (by decide) (by decide)
      (by decide) (by decide) (by decide) (by decide)
      (by
        intro i hi hb
        have hn : ifdEntryCount ByteOrder.LittleEndian mixedBlockLittle = 4 := by decide
        rw [hn] at hi
        interval_cases i <;> decide)⟩

end ExifParser
